import Mathlib

/-!
# pgmoneta: bitset, operation drivers, verify and link stages, clustering

A shallow embedding of `src/libpgmoneta/bitset.c`, of the operation drivers of
`src/libpgmoneta/backup.c`, of the verify and link stages (`wf_verify.c`, `wf_link.c`) and
of the responses, the framing, the table of nodes and the input and output loops of
`src/libpgmoneta/clustering.c`, with the properties of the specification settled on it.

Conventions of the embedding.

* A C `char` of the bitset storage is held as its bit pattern, a natural number below 256;
  `to_char` gives the value the C code sees (a signed char, as on x86-64).
* A pointer that may be `NULL` is an `Option`.
* A function that reads or writes through `bitset->data + offset` returns `none` when the
  offset lies outside the allocated storage (the C behaviour is undefined there).
* A driver that ends in `exit(n)` returns the final shared configuration, the world the
  stages acted on, the exit status and the list of the observable calls it made.
* A JSON document, a deque and the context of a workflow are held as lists of keyed
  values; a function that changes one through a pointer returns the changed value.
* A call whose result comes from outside the sources at hand (the file system, the hash
  functions, allocation, the network) takes that result from an environment record.
* A loop around a system call is fed with the list of the results of its calls; it stands
  at `none` while it has not returned.
-/

namespace Pgmoneta

/-! ## bitset.c -/

/-- The `DATA_SIZE` constant of bitset.c. -/
def DATA_SIZE : Nat := 8192

/-- The `CHAR_BIT` constant of limits.h. -/
def CHAR_BIT : Nat := 8

/-- The number of values of `size_t` and of `uint64_t`. -/
def SIZE_MOD : Nat := 2 ^ 64

/-- The `struct bitset` of bitset.h; `data` is the allocated storage, one pattern per byte. -/
structure bitset where
  input_size : Nat
  size : Nat
  data : List Nat
deriving DecidableEq, Repr

/-- The value of a `char` whose bit pattern is `n % 256`, read as a signed char. -/
def to_char (n : Nat) : Int :=
  if n % 256 < 128 then ((n % 256 : Nat) : Int) else ((n % 256 : Nat) : Int) - 256

/-- The size computation of `pgmoneta_bitset_create` (lines 49-57), in `size_t` arithmetic. -/
def bitset_storage_size (input_size : Nat) : Nat :=
  if input_size % DATA_SIZE = 0 then
    input_size / DATA_SIZE
  else
    (input_size / DATA_SIZE + input_size % DATA_SIZE) % SIZE_MOD

/-- The function `pgmoneta_bitset_create`: `malloc_bs` and `malloc_data` tell whether the two
`malloc` calls succeed. Returns the status and the bitset stored through the out-pointer. -/
def pgmoneta_bitset_create (input_size : Nat) (malloc_bs malloc_data : Bool) :
    Int × Option bitset :=
  if !malloc_bs then
    (1, none)
  else
    let size := bitset_storage_size input_size
    if !malloc_data then
      (1, none)
    else
      (0, some { input_size := input_size, size := size, data := List.replicate size 0 })

/-- The function `pgmoneta_bitset_set`. The result is `none` when `data + offset` is outside
the storage; otherwise the status and the bitset after the call. -/
def pgmoneta_bitset_set (bs : Option bitset) (index : Nat) : Option (Int × Option bitset) :=
  match bs with
  | none => some (1, none)
  | some b =>
    let offset := index / CHAR_BIT
    let bit := 1 <<< (index % CHAR_BIT)
    match b.data[offset]? with
    | none => none
    | some c => some (0, some { b with data := b.data.set offset ((c ||| bit) % 256) })

/-- The function `pgmoneta_bitset_get`. The result is `none` when `data + offset` is outside
the storage. -/
def pgmoneta_bitset_get (bs : Option bitset) (index : Nat) : Option Bool :=
  match bs with
  | none => some false
  | some b =>
    let offset := index / CHAR_BIT
    let bit : Int := to_char (1 <<< (index % CHAR_BIT))
    match b.data[offset]? with
    | none => none
    | some byte =>
      let c : Int := to_char (byte &&& (1 <<< (index % CHAR_BIT)))
      if to_char byte < 0 ∧ bit = -128 then
        some true
      else
        some (decide (c > 0))

/-- The function `pgmoneta_bitset_clear`. The result is `none` when `data + offset` is outside
the storage; otherwise the status and the bitset after the call. -/
def pgmoneta_bitset_clear (bs : Option bitset) (index : Nat) : Option (Int × Option bitset) :=
  match bs with
  | none => some (1, none)
  | some b =>
    let offset := index / CHAR_BIT
    let bit := 1 <<< (index % CHAR_BIT)
    match b.data[offset]? with
    | none => none
    | some c => some (0, some { b with data := b.data.set offset ((c &&& (255 ^^^ bit)) % 256) })

/-! ## backup.c: shared state, stages and observable calls -/

/-- The error codes of management.h that the drivers of backup.c send. Their numeric values
are not part of the sources at hand, so they are kept symbolic. -/
inductive management_error where
  | MANAGEMENT_ERROR_ALLOCATION
  | MANAGEMENT_ERROR_BACKUP_INVALID
  | MANAGEMENT_ERROR_BACKUP_WAL
  | MANAGEMENT_ERROR_BACKUP_ACTIVE
  | MANAGEMENT_ERROR_BACKUP_SETUP
  | MANAGEMENT_ERROR_BACKUP_EXECUTE
  | MANAGEMENT_ERROR_BACKUP_TEARDOWN
  | MANAGEMENT_ERROR_BACKUP_NETWORK
  | MANAGEMENT_ERROR_BACKUP_ERROR
  | MANAGEMENT_ERROR_DELETE_SETUP
  | MANAGEMENT_ERROR_DELETE_EXECUTE
  | MANAGEMENT_ERROR_DELETE_TEARDOWN
  | MANAGEMENT_ERROR_DELETE_NETWORK
  | MANAGEMENT_ERROR_DELETE_ERROR
deriving DecidableEq, Repr

open management_error

/-- The fields of `config->servers[i]` that the drivers of backup.c read or write. -/
structure server where
  valid : Bool
  wal_streaming : Bool
  backup : Bool
deriving DecidableEq, Repr

/-- The shared-memory configuration, as far as backup.c uses it. -/
structure configuration where
  servers : Nat → server

/-- One node of a workflow chain: the three function pointers of `struct workflow`, each
acting on the world `σ` the stages share (the `nodes` deque and the file system) and
returning its `int` status. The `next` pointer is the tail of the list holding the node. -/
structure workflow (σ : Type) where
  setup : σ → Int × σ
  execute : σ → Int × σ
  teardown : σ → Int × σ

/-- The calls of a driver that the properties below speak about, in program order. The
number of a stage is its position in the chain, from 0. -/
inductive event where
  | response_error (code : management_error)
  | response_ok (status : Int)
  | mkdir
  | setup (stage : Nat)
  | execute (stage : Nat)
  | teardown (stage : Nat)
deriving DecidableEq, Repr

/-- What a driver leaves behind when it calls `exit`. -/
structure outcome (σ : Type) where
  config : configuration
  world : σ
  calls : List event
  exit_status : Nat

/-- The C11 `atomic_compare_exchange_strong(object, &expected, desired)`, run by one process:
the result, the new value of the object and the new value of `expected`. -/
def atomic_compare_exchange_strong (object expected desired : Bool) : Bool × Bool × Bool :=
  if object = expected then (true, desired, expected) else (false, object, object)

/-- The assignment to the `backup` flag of `config->servers[i]`. -/
def store_backup (config : configuration) (i : Nat) (v : Bool) : configuration :=
  { servers := Function.update config.servers i { config.servers i with backup := v } }

/-- One `while (current != NULL)` loop of a driver: call `phase` on each node from the head
and leave the loop at the first non-zero status. The result tells whether the loop left
through `goto error`, the world afterwards and the calls made (`ev i` for node `i`). -/
def workflow_loop {σ : Type} (phase : workflow σ → σ → Int × σ) (ev : Nat → event) :
    List (workflow σ) → Nat → σ → Bool × σ × List event
  | [], _, w => (false, w, [])
  | current :: next, i, w =>
    let r := phase current w
    if r.1 ≠ 0 then
      (true, r.2, [ev i])
    else
      let rest := workflow_loop phase ev next (i + 1) r.2
      (rest.1, rest.2.1, ev i :: rest.2.2)

/-- The status returned by the functions `pgmoneta_backup` calls after the three loops, as
functions of the world the stages left. -/
structure backup_calls (σ : Type) where
  management_create_response : σ → Int
  get_backup : σ → Int
  management_response_ok : σ → Int

/-- The function `pgmoneta_backup`. `wf` is the chain that
`pgmoneta_workflow_create(WORKFLOW_TYPE_BACKUP)` returns. -/
def pgmoneta_backup {σ : Type} (env : backup_calls σ) (config : configuration) (server : Nat)
    (wf : List (workflow σ)) (w : σ) : outcome σ :=
  if !(config.servers server).valid then
    { config := config, world := w, exit_status := 1,
      calls := [event.response_error MANAGEMENT_ERROR_BACKUP_INVALID] }
  else if !(config.servers server).wal_streaming then
    { config := config, world := w, exit_status := 1,
      calls := [event.response_error MANAGEMENT_ERROR_BACKUP_WAL] }
  else
    let cas := atomic_compare_exchange_strong (config.servers server).backup false true
    let config1 := store_backup config server cas.2.1
    if !cas.1 then
      { config := config1, world := w, exit_status := 0,
        calls := [event.response_error MANAGEMENT_ERROR_BACKUP_ACTIVE] }
    else
      let s := workflow_loop workflow.setup event.setup wf 0 w
      if s.1 then
        { config := config1, world := s.2.1, exit_status := 1,
          calls := event.mkdir :: s.2.2 ++
            [event.response_error MANAGEMENT_ERROR_BACKUP_SETUP] }
      else
        let e := workflow_loop workflow.execute event.execute wf 0 s.2.1
        if e.1 then
          { config := config1, world := e.2.1, exit_status := 1,
            calls := event.mkdir :: s.2.2 ++ e.2.2 ++
              [event.response_error MANAGEMENT_ERROR_BACKUP_EXECUTE] }
        else
          let t := workflow_loop workflow.teardown event.teardown wf 0 e.2.1
          if t.1 then
            { config := config1, world := t.2.1, exit_status := 1,
              calls := event.mkdir :: s.2.2 ++ e.2.2 ++ t.2.2 ++
                [event.response_error MANAGEMENT_ERROR_BACKUP_TEARDOWN] }
          else if env.management_create_response t.2.1 ≠ 0 then
            { config := config1, world := t.2.1, exit_status := 1,
              calls := event.mkdir :: s.2.2 ++ e.2.2 ++ t.2.2 ++
                [event.response_error MANAGEMENT_ERROR_ALLOCATION] }
          else if env.get_backup t.2.1 ≠ 0 then
            { config := config1, world := t.2.1, exit_status := 1,
              calls := event.mkdir :: s.2.2 ++ e.2.2 ++ t.2.2 ++
                [event.response_error MANAGEMENT_ERROR_BACKUP_ERROR] }
          else if env.management_response_ok t.2.1 ≠ 0 then
            { config := config1, world := t.2.1, exit_status := 1,
              calls := event.mkdir :: s.2.2 ++ e.2.2 ++ t.2.2 ++
                [event.response_ok (env.management_response_ok t.2.1),
                 event.response_error MANAGEMENT_ERROR_BACKUP_NETWORK] }
          else
            { config := store_backup config1 server false, world := t.2.1, exit_status := 0,
              calls := event.mkdir :: s.2.2 ++ e.2.2 ++ t.2.2 ++ [event.response_ok 0] }

/-- The status returned by the functions `pgmoneta_delete_backup` calls around the three
loops. -/
structure delete_calls (σ : Type) where
  deque_create : Int
  management_create_response : σ → Int
  management_response_ok : σ → Int

set_option linter.unusedVariables false in
/-- The function `pgmoneta_delete_backup`. `wf` is the chain that
`pgmoneta_workflow_create(WORKFLOW_TYPE_DELETE_BACKUP)` returns; `srv` only selects the
server name written into the responses and the log. -/
def pgmoneta_delete_backup {σ : Type} (env : delete_calls σ) (config : configuration)
    (srv : Nat) (wf : List (workflow σ)) (w : σ) : outcome σ :=
  if env.deque_create ≠ 0 then
    { config := config, world := w, exit_status := 1,
      calls := [event.response_error MANAGEMENT_ERROR_DELETE_ERROR] }
  else
    let s := workflow_loop workflow.setup event.setup wf 0 w
    if s.1 then
      { config := config, world := s.2.1, exit_status := 1,
        calls := s.2.2 ++ [event.response_error MANAGEMENT_ERROR_DELETE_SETUP,
          event.response_error MANAGEMENT_ERROR_DELETE_ERROR] }
    else
      let e := workflow_loop workflow.execute event.execute wf 0 s.2.1
      if e.1 then
        { config := config, world := e.2.1, exit_status := 1,
          calls := s.2.2 ++ e.2.2 ++ [event.response_error MANAGEMENT_ERROR_DELETE_EXECUTE,
            event.response_error MANAGEMENT_ERROR_DELETE_ERROR] }
      else
        let t := workflow_loop workflow.teardown event.teardown wf 0 e.2.1
        if t.1 then
          { config := config, world := t.2.1, exit_status := 1,
            calls := s.2.2 ++ e.2.2 ++ t.2.2 ++
              [event.response_error MANAGEMENT_ERROR_DELETE_TEARDOWN,
               event.response_error MANAGEMENT_ERROR_DELETE_ERROR] }
        else if env.management_create_response t.2.1 ≠ 0 then
          { config := config, world := t.2.1, exit_status := 1,
            calls := s.2.2 ++ e.2.2 ++ t.2.2 ++
              [event.response_error MANAGEMENT_ERROR_ALLOCATION,
               event.response_error MANAGEMENT_ERROR_DELETE_ERROR] }
        else if env.management_response_ok t.2.1 ≠ 0 then
          { config := config, world := t.2.1, exit_status := 1,
            calls := s.2.2 ++ e.2.2 ++ t.2.2 ++
              [event.response_ok (env.management_response_ok t.2.1),
               event.response_error MANAGEMENT_ERROR_DELETE_NETWORK,
               event.response_error MANAGEMENT_ERROR_DELETE_ERROR] }
        else
          { config := config, world := t.2.1, exit_status := 0,
            calls := s.2.2 ++ e.2.2 ++ t.2.2 ++ [event.response_ok 0] }

/-! ## Which call of a chain fails first -/

/-- The phases of a stage. -/
inductive phase_kind where
  | setup
  | execute
  | teardown
deriving DecidableEq, Repr

/-- The status each node of the chain returns when `phase` is called on the nodes one after
the other from world `w`. -/
def phase_codes {σ : Type} (phase : workflow σ → σ → Int × σ) : List (workflow σ) → σ → List Int
  | [], _ => []
  | current :: next, w => (phase current w).1 :: phase_codes phase next (phase current w).2

/-- The world after `phase` has been called on every node of the chain, from world `w`. -/
def phase_world {σ : Type} (phase : workflow σ → σ → Int × σ) : List (workflow σ) → σ → σ
  | [], w => w
  | current :: next, w => phase_world phase next (phase current w).2

/-- The position of the first non-zero status, if there is one. -/
def first_failure : List Int → Option Nat
  | [] => none
  | c :: cs => if c ≠ 0 then some 0 else (first_failure cs).map (· + 1)

/-- The first call that returns a non-zero status when the chain is swept phase by phase
(all setups, then all executes, then all teardowns) from world `w`: its phase and the
number of its stage; `none` when every call returns 0. -/
def first_failing_call {σ : Type} (wf : List (workflow σ)) (w : σ) : Option (phase_kind × Nat) :=
  match first_failure (phase_codes workflow.setup wf w) with
  | some k => some (phase_kind.setup, k)
  | none =>
    let w1 := phase_world workflow.setup wf w
    match first_failure (phase_codes workflow.execute wf w1) with
    | some k => some (phase_kind.execute, k)
    | none =>
      let w2 := phase_world workflow.execute wf w1
      match first_failure (phase_codes workflow.teardown wf w2) with
      | some k => some (phase_kind.teardown, k)
      | none => none

/-- The phase calls made up to and including call `k` of phase `p`, on a chain of `n`
stages swept phase by phase. -/
def calls_until (p : phase_kind) (k n : Nat) : List event :=
  match p with
  | phase_kind.setup => (List.range (k + 1)).map event.setup
  | phase_kind.execute =>
    (List.range n).map event.setup ++ (List.range (k + 1)).map event.execute
  | phase_kind.teardown =>
    (List.range n).map event.setup ++ (List.range n).map event.execute ++
      (List.range (k + 1)).map event.teardown

/-- The error code `pgmoneta_backup` sends for a failure in phase `p`. -/
def backup_phase_error (p : phase_kind) : management_error :=
  match p with
  | phase_kind.setup => MANAGEMENT_ERROR_BACKUP_SETUP
  | phase_kind.execute => MANAGEMENT_ERROR_BACKUP_EXECUTE
  | phase_kind.teardown => MANAGEMENT_ERROR_BACKUP_TEARDOWN

/-- The first error code `pgmoneta_delete_backup` sends for a failure in phase `p`. -/
def delete_phase_error (p : phase_kind) : management_error :=
  match p with
  | phase_kind.setup => MANAGEMENT_ERROR_DELETE_SETUP
  | phase_kind.execute => MANAGEMENT_ERROR_DELETE_EXECUTE
  | phase_kind.teardown => MANAGEMENT_ERROR_DELETE_TEARDOWN

/-- A stage whose three phases leave the world alone and return the given statuses. -/
def const_stage (a b c : Int) : workflow Unit :=
  { setup := fun w => (a, w), execute := fun w => (b, w), teardown := fun w => (c, w) }

/-- An environment in which every call after the loops succeeds. -/
def backup_calls_ok : backup_calls Unit :=
  { management_create_response := fun _ => 0, get_backup := fun _ => 0,
    management_response_ok := fun _ => 0 }

/-- An environment in which every call around the loops succeeds. -/
def delete_calls_ok : delete_calls Unit :=
  { deque_create := 0, management_create_response := fun _ => 0,
    management_response_ok := fun _ => 0 }

/-- A configuration whose servers all carry the given flags. -/
def config_of (valid wal_streaming backup : Bool) : configuration :=
  { servers := fun _ => { valid := valid, wal_streaming := wal_streaming, backup := backup } }

/-- The call of phase `p` on stage `j`. -/
def phase_event (p : phase_kind) (j : Nat) : event :=
  match p with
  | phase_kind.setup => event.setup j
  | phase_kind.execute => event.execute j
  | phase_kind.teardown => event.teardown j

/-- Whether a call is a call of a stage. -/
def event.is_phase_call : event → Bool
  | event.setup _ => true
  | event.execute _ => true
  | event.teardown _ => true
  | _ => false

/-- Whether a call sends an error response. -/
def event.is_response_error : event → Bool
  | event.response_error _ => true
  | _ => false

/-- The calls that end a run of `pgmoneta_delete_backup` whose three loops all completed. -/
def delete_tail {σ : Type} (env : delete_calls σ) (w : σ) : List event :=
  if env.management_create_response w ≠ 0 then
    [event.response_error MANAGEMENT_ERROR_ALLOCATION,
     event.response_error MANAGEMENT_ERROR_DELETE_ERROR]
  else if env.management_response_ok w ≠ 0 then
    [event.response_ok (env.management_response_ok w),
     event.response_error MANAGEMENT_ERROR_DELETE_NETWORK,
     event.response_error MANAGEMENT_ERROR_DELETE_ERROR]
  else
    [event.response_ok 0]

/-- The calls that end a run of `pgmoneta_backup` whose three loops all completed. -/
def backup_tail {σ : Type} (env : backup_calls σ) (w : σ) : List event :=
  if env.management_create_response w ≠ 0 then
    [event.response_error MANAGEMENT_ERROR_ALLOCATION]
  else if env.get_backup w ≠ 0 then
    [event.response_error MANAGEMENT_ERROR_BACKUP_ERROR]
  else if env.management_response_ok w ≠ 0 then
    [event.response_ok (env.management_response_ok w),
     event.response_error MANAGEMENT_ERROR_BACKUP_NETWORK]
  else
    [event.response_ok 0]

/-! ## JSON documents, deques and the context of a workflow -/

/-- Modelled from the spec: json.c is not among the sources. A JSON value as the code at hand
builds it: a string, a 32-bit integer, a boolean, an 8-bit integer, an unsigned 64-bit
integer, an object (a `struct json` filled by `pgmoneta_json_put`, held as its keys in
insertion order) or an array (a `struct json` filled by `pgmoneta_json_append`). -/
inductive json where
  | string (s : String)
  | int32 (n : Int)
  | boolean (b : Bool)
  | int8 (n : Int)
  | uint64 (n : Nat)
  | object (items : List (String × json))
  | array (elements : List json)
deriving Repr

/-- Modelled from the spec: the keys of a JSON object, with `key` set to `v`; a key that is
present keeps its place. -/
def put_item (items : List (String × json)) (key : String) (v : json) :
    List (String × json) :=
  match items with
  | [] => [(key, v)]
  | (k, x) :: rest => if k = key then (k, v) :: rest else (k, x) :: put_item rest key v

/-- Modelled from the spec: the value of `key` among the keys of a JSON object. -/
def get_item (items : List (String × json)) (key : String) : Option json :=
  match items with
  | [] => none
  | (k, x) :: rest => if k = key then some x else get_item rest key

/-- Modelled from the spec: `pgmoneta_json_put` of json.c, which is not among the sources.
The status and the document afterwards; a `NULL` document or an array is left as it is. -/
def pgmoneta_json_put (j : Option json) (key : String) (v : json) : Int × Option json :=
  match j with
  | some (json.object items) => (0, some (json.object (put_item items key v)))
  | other => (1, other)

/-- Modelled from the spec: `pgmoneta_json_get` of json.c, which is not among the sources;
`none` is the zero the C function returns for a missing key or a `NULL` document. -/
def pgmoneta_json_get (j : Option json) (key : String) : Option json :=
  match j with
  | some (json.object items) => get_item items key
  | _ => none

/-- Modelled from the spec: `pgmoneta_json_append` of json.c, which is not among the sources.
A document without keys or an array receives the element at its end. -/
def pgmoneta_json_append (j : Option json) (v : json) : Int × Option json :=
  match j with
  | some (json.object []) => (0, some (json.array [v]))
  | some (json.array elements) => (0, some (json.array (elements ++ [v])))
  | other => (1, other)

/-- The effect on the document `j` of `pgmoneta_json_put(sub, key, v)` where `sub` is the
pointer `pgmoneta_json_get(j, category)` returned: the object under `category` is changed
in place; nothing happens when `category` is missing. -/
def json_put_under (j : Option json) (category key : String) (v : json) : Option json :=
  match pgmoneta_json_get j category with
  | none => j
  | some sub =>
    match pgmoneta_json_put (some sub) key v with
    | (_, some changed) => (pgmoneta_json_put j category changed).2
    | (_, none) => j

/-- The string a JSON value holds; the empty string stands for a `NULL` pointer. -/
def json_string (v : Option json) : String :=
  match v with
  | some (json.string s) => s
  | _ => ""

/-- The integer a JSON value holds; 0 for anything else, as the C cast of a missing value. -/
def json_int (v : Option json) : Int :=
  match v with
  | some (json.int32 n) => n
  | _ => 0

/-- Modelled from the spec: a deque of deque.c, which is not among the sources, held as the
entries (tag, value) in the order they were added. -/
abbrev deque := List (String × json)

/-- Modelled from the spec: `pgmoneta_deque_add` of deque.c, which is not among the sources:
the entry is added at the end. -/
def pgmoneta_deque_add (d : deque) (tag : String) (data : json) : deque :=
  d ++ [(tag, data)]

/-- The values the stages at hand keep in the context of a workflow. A deque is a pointer
and may be `NULL`. -/
inductive art_value where
  | string (s : String)
  | int (n : Int)
  | deque (d : Option deque)
deriving Repr

/-- Modelled from the spec: the context bag of a workflow (art.c is not among the sources),
an ordered keyed container in which a duplicate key replaces. -/
abbrev art := List (String × art_value)

/-- Modelled from the spec: `pgmoneta_art_insert` of art.c, which is not among the sources. -/
def pgmoneta_art_insert (nodes : art) (key : String) (v : art_value) : art :=
  match nodes with
  | [] => [(key, v)]
  | (k, x) :: rest => if k = key then (k, v) :: rest else (k, x) :: pgmoneta_art_insert rest key v

/-- Modelled from the spec: `pgmoneta_art_search` of art.c, which is not among the sources. -/
def pgmoneta_art_search (nodes : art) (key : String) : Option art_value :=
  match nodes with
  | [] => none
  | (k, x) :: rest => if k = key then some x else pgmoneta_art_search rest key

/-- Modelled from the spec: the key `files` of the context bag (workflow.h is not among the
sources). -/
def NODE_FILES : String := "files"

/-- Modelled from the spec: the key `all` of the context bag. -/
def NODE_ALL : String := "all"

/-- Modelled from the spec: the key `failed` of the context bag. -/
def NODE_FAILED : String := "failed"

/-- Modelled from the spec: the key `target_base` of the context bag. -/
def NODE_TARGET_BASE : String := "target_base"

/-- Modelled from the spec: the argument `Directory` of management.h, which is not among the
sources. -/
def MANAGEMENT_ARGUMENT_DIRECTORY : String := "Directory"

/-- Modelled from the spec: the argument `Filename` of management.h. -/
def MANAGEMENT_ARGUMENT_FILENAME : String := "Filename"

/-- Modelled from the spec: the argument `Original` of management.h. -/
def MANAGEMENT_ARGUMENT_ORIGINAL : String := "Original"

/-- Modelled from the spec: the argument `Calculated` of management.h. -/
def MANAGEMENT_ARGUMENT_CALCULATED : String := "Calculated"

/-- Modelled from the spec: the argument of management.h under which the hash algorithm of
the backup is passed to a verify job. -/
def MANAGEMENT_ARGUMENT_HASH_ALGORITHM : String := "HashAlgorithm"

/-- Modelled from the spec: `pgmoneta_ends_with` of utils.c, which is not among the
sources. -/
def pgmoneta_ends_with (str suffix : String) : Bool :=
  suffix.data.isSuffixOf str.data

/-- The characters of a string in lower case. -/
def to_lower (s : String) : String :=
  String.mk (s.data.map Char.toLower)

/-- The libc `strcasecmp`, as far as the code uses it: 0 exactly when the two strings are
equal up to the case of their letters. -/
def strcasecmp (a b : String) : Int :=
  if to_lower a = to_lower b then 0 else 1

/-! ## wf_verify.c -/

/-- What a `pgmoneta_create_*_file` function leaves: status 0 and the digest, or a non-zero
status and whatever `hash_cal` points to then (possibly `NULL`). -/
inductive hash_result where
  | ok (hash_cal : String)
  | error (hash_cal : Option String)
deriving Repr

/-- The fields of `struct worker_input` a verify job uses. The two deques are shared with
`verify_execute`; a job receives their current content and gives back the new one. -/
structure worker_input where
  data : json
  failed : deque
  all : Option deque

/-- What the verify stage takes from outside the sources at hand. `hash_file ha f` is the
result of the `pgmoneta_create_*_file` function that the chain of comparisons of `ha` with
the five `HASH_ALGORITHM_*` codes selects for the file `f`, and `none` when `ha` is none of
the five. `pool jobs failed all` is the state in which `pgmoneta_workers_wait` leaves the
pool and the two deques after the jobs were handed to the pool. -/
structure verify_env where
  file_exists : String → Bool
  hash_file : Int → String → Option hash_result
  deque_create_failed : Int
  deque_create_all : Int
  number_of_workers : Int
  csv_reader_init : Int
  manifest : List (String × String)
  create_worker_input : Nat → Int
  json_create : Nat → Int
  hash_algorithm : Int
  pool : List json → deque → Option deque → Bool × deque × Option deque

/-- The file name `f` that `do_verify` builds from the document of the job (lines
306-311): the directory, a `/` unless the directory ends with one, and the file name. -/
def verify_file (j : json) : String :=
  let dir := json_string (pgmoneta_json_get (some j) MANAGEMENT_ARGUMENT_DIRECTORY)
  (if !pgmoneta_ends_with dir "/" then dir ++ "/" else dir) ++
    json_string (pgmoneta_json_get (some j) MANAGEMENT_ARGUMENT_FILENAME)

/-- The function `do_verify`: the content of the `failed` and `all` deques after the job. -/
def do_verify (env : verify_env) (wi : worker_input) : deque × Option deque :=
  let j := wi.data
  let f := verify_file j
  if !env.file_exists f then
    (wi.failed, wi.all)
  else
    let ha := json_int (pgmoneta_json_get (some j) MANAGEMENT_ARGUMENT_HASH_ALGORITHM)
    match env.hash_file ha f with
    | none => (wi.failed, wi.all)
    | some r =>
      let failed : Bool :=
        match r with
        | hash_result.ok hash_cal =>
          decide (hash_cal ≠
            json_string (pgmoneta_json_get (some j) MANAGEMENT_ARGUMENT_ORIGINAL))
        | hash_result.error _ => true
      let hash_cal : Option String :=
        match r with
        | hash_result.ok h => some h
        | hash_result.error h => h
      if failed then
        let calculated : String :=
          match hash_cal with
          | some h => if h.length > 0 then h else "Unknown"
          | none => "Unknown"
        let j1 := (pgmoneta_json_put (some j) MANAGEMENT_ARGUMENT_CALCULATED
          (json.string calculated)).2
        match j1 with
        | some document => (pgmoneta_deque_add wi.failed f document, wi.all)
        | none => (wi.failed, wi.all)
      else
        match wi.all with
        | some all => (wi.failed, some (pgmoneta_deque_add all f j))
        | none => (wi.failed, none)

/-- The document `verify_execute` builds for the row `(columns[0], columns[1])`. -/
def verify_job (env : verify_env) (target_base : String) (row : String × String) : json :=
  json.object
    (put_item
      (put_item
        (put_item
          (put_item [] MANAGEMENT_ARGUMENT_DIRECTORY (json.string target_base))
          MANAGEMENT_ARGUMENT_FILENAME (json.string row.1))
        MANAGEMENT_ARGUMENT_ORIGINAL (json.string row.2))
      MANAGEMENT_ARGUMENT_HASH_ALGORITHM (json.int32 env.hash_algorithm))

/-- The `while (pgmoneta_csv_next_row(...))` loop of `verify_execute` from row number `i`:
`none` when the loop leaves through `goto error`, otherwise the two deques and the jobs
created so far. With workers the jobs go to the pool, without they run at once. -/
def verify_loop (env : verify_env) (target_base : String) :
    List (String × String) → Nat → deque → Option deque → List json →
      Option (deque × Option deque × List json)
  | [], _, failed, all, jobs => some (failed, all, jobs)
  | row :: rest, i, failed, all, jobs =>
    if env.create_worker_input i ≠ 0 then
      none
    else if env.json_create i ≠ 0 then
      none
    else
      let j := verify_job env target_base row
      if env.number_of_workers > 0 then
        verify_loop env target_base rest (i + 1) failed all (jobs ++ [j])
      else
        let r := do_verify env { data := j, failed := failed, all := all }
        verify_loop env target_base rest (i + 1) r.1 r.2 (jobs ++ [j])

/-- The string the context holds under `NODE_TARGET_BASE`, as `verify_execute` reads it. -/
def target_base_of (nodes : art) : String :=
  match pgmoneta_art_search nodes NODE_TARGET_BASE with
  | some (art_value.string s) => s
  | _ => ""

/-- What `verify_execute` returns and leaves: its status, the context and the jobs it
created. -/
structure verify_result where
  status : Int
  nodes : art
  jobs : List json

/-- The `error` label of `verify_execute`. -/
def verify_error (nodes : art) (jobs : List json) : verify_result :=
  { status := 1, jobs := jobs,
    nodes := pgmoneta_art_insert (pgmoneta_art_insert nodes NODE_FAILED (art_value.deque none))
      NODE_ALL (art_value.deque none) }

/-- The function `verify_execute`; `none` when the context holds no string under
`NODE_FILES`, which the C code passes to `strcasecmp` unchecked. -/
def verify_execute (env : verify_env) (nodes : art) : Option verify_result :=
  match pgmoneta_art_search nodes NODE_FILES with
  | some (art_value.string files) =>
    let target_base : String := target_base_of nodes
    if env.deque_create_failed ≠ 0 then
      some (verify_error nodes [])
    else if strcasecmp files NODE_ALL = 0 ∧ env.deque_create_all ≠ 0 then
      some (verify_error nodes [])
    else
      let failed_deque : deque := []
      let all_deque : Option deque := if strcasecmp files NODE_ALL = 0 then some [] else none
      if env.csv_reader_init ≠ 0 then
        some (verify_error nodes [])
      else
        match verify_loop env target_base env.manifest 0 failed_deque all_deque [] with
        | none => some (verify_error nodes [])
        | some (failed, all, jobs) =>
          let waited : Bool × deque × Option deque :=
            if env.number_of_workers > 0 then env.pool jobs failed all else (true, failed, all)
          if !waited.1 then
            some (verify_error nodes jobs)
          else
            some { status := 0, jobs := jobs,
                   nodes := pgmoneta_art_insert
                     (pgmoneta_art_insert nodes NODE_FAILED (art_value.deque (some waited.2.1)))
                     NODE_ALL (art_value.deque waited.2.2) }
  | _ => none

/-- Whether the file of the job fails the comparison of digests: the hash function selected
for the algorithm of the job fails, or it gives a digest other than the expected one. It is
false when the algorithm is none of the five supported ones. -/
def verify_fails (env : verify_env) (j : json) : Bool :=
  match env.hash_file (json_int (pgmoneta_json_get (some j) MANAGEMENT_ARGUMENT_HASH_ALGORITHM))
      (verify_file j) with
  | some (hash_result.ok h) =>
    decide (h ≠ json_string (pgmoneta_json_get (some j) MANAGEMENT_ARGUMENT_ORIGINAL))
  | some (hash_result.error _) => true
  | none => false

/-- Whether the file of the job passes: the hash function selected for the algorithm of the
job succeeds with the expected digest. -/
def verify_passes (env : verify_env) (j : json) : Bool :=
  match env.hash_file (json_int (pgmoneta_json_get (some j) MANAGEMENT_ARGUMENT_HASH_ALGORITHM))
      (verify_file j) with
  | some (hash_result.ok h) =>
    decide (h = json_string (pgmoneta_json_get (some j) MANAGEMENT_ARGUMENT_ORIGINAL))
  | _ => false

/-- The value `do_verify` stores under `Calculated` for what `hash_cal` points to. -/
def calculated_of (hash_cal : Option String) : String :=
  match hash_cal with
  | some h => if h.length > 0 then h else "Unknown"
  | none => "Unknown"

/-- An environment for the verify stage in which every file but `/t/missing` exists, the
algorithm 3 is supported, hashing `/t/unreadable` fails and every other file has the digest
`h1`; every creation succeeds and there are no workers. -/
def verify_env_example (manifest : List (String × String)) : verify_env :=
  { file_exists := fun f => f != "/t/missing",
    hash_file := fun ha f =>
      if ha = 3 then
        (if f = "/t/unreadable" then some (hash_result.error none)
         else some (hash_result.ok "h1"))
      else none,
    deque_create_failed := 0, deque_create_all := 0, number_of_workers := 0,
    csv_reader_init := 0, manifest := manifest, create_worker_input := fun _ => 0,
    json_create := fun _ => 0, hash_algorithm := 3, pool := fun _ f a => (true, f, a) }

/-- The value `do_verify` stores under `Calculated` when it records the job as failed. -/
def verify_calculated (env : verify_env) (j : json) : String :=
  match env.hash_file (json_int (pgmoneta_json_get (some j) MANAGEMENT_ARGUMENT_HASH_ALGORITHM))
      (verify_file j) with
  | some (hash_result.ok h) => calculated_of (some h)
  | some (hash_result.error p) => calculated_of p
  | none => "Unknown"

/-- The entries one job adds to the `failed` deque: one when the file exists and fails the
comparison, none otherwise. -/
def row_failed (env : verify_env) (j : json) : deque :=
  if env.file_exists (verify_file j) = true ∧ verify_fails env j = true then
    [(verify_file j, ((pgmoneta_json_put (some j) MANAGEMENT_ARGUMENT_CALCULATED
      (json.string (verify_calculated env j))).2).getD j)]
  else []

/-- The entries one job adds to the `all` deque when there is one: one when the file exists
and passes, none otherwise. -/
def row_passed (env : verify_env) (j : json) : deque :=
  if env.file_exists (verify_file j) = true ∧ verify_passes env j = true then
    [(verify_file j, j)]
  else []

/-- The entries the jobs of the rows add to the `failed` deque, in the order of the rows. -/
def failed_entries (env : verify_env) (target_base : String) : List (String × String) → deque
  | [] => []
  | row :: rest =>
    row_failed env (verify_job env target_base row) ++ failed_entries env target_base rest

/-- The entries the jobs of the rows add to the `all` deque, in the order of the rows. -/
def passed_entries (env : verify_env) (target_base : String) : List (String × String) → deque
  | [] => []
  | row :: rest =>
    row_passed env (verify_job env target_base row) ++ passed_entries env target_base rest

/-- The jobs run one after the other, in the order of the list, on the two deques. -/
def run_jobs (env : verify_env) : List json → deque → Option deque → deque × Option deque
  | [], failed, all => (failed, all)
  | j :: rest, failed, all =>
    run_jobs env rest (do_verify env { data := j, failed := failed, all := all }).1
      (do_verify env { data := j, failed := failed, all := all }).2

/-- Modelled from the spec: the worker pool of workers.c, which is not among the sources, as
`verify_execute` uses it. Every job handed to the pool runs `do_verify` once; the jobs have
no mutual order, and the lock of a deque puts their additions one after the other, in the
order that `schedule` gives for the jobs; `outcome` stays true, since `do_verify` reports no
failure to the pool. -/
def workers_wait (env : verify_env) (schedule : List json → List json) (jobs : List json)
    (failed : deque) (all : Option deque) : Bool × deque × Option deque :=
  (true, run_jobs env (schedule jobs) failed all)

/-- The environment `verify_env_example` with two workers, whose pool runs the jobs in the
reverse of the order in which they were handed to it. -/
def verify_env_workers (manifest : List (String × String)) : verify_env :=
  { verify_env_example manifest with
    number_of_workers := 2,
    pool := workers_wait (verify_env_example manifest) List.reverse }

/-! ## wf_link.c -/

/-- Modelled from the spec: the validity of a backup, one of unknown, invalid and valid
(info.h is not among the sources). -/
inductive validity where
  | VALID_UNKNOWN
  | VALID_FALSE
  | VALID_TRUE
deriving DecidableEq, Repr

/-- The fields of `struct backup` that `link_execute` reads. -/
structure backup where
  label : String
  valid : validity
  major_version : Int
deriving DecidableEq, Repr

/-- The calls of `link_execute` that the properties below speak about: the comparison of the
manifests of the predecessor and of the new backup, the linking of the new backup against
the predecessor, and the write of `INFO_LINKING_ELAPSED`. Backups are named by their
label. -/
inductive link_call where
  | compare_manifests (predecessor current : String)
  | link_manifest (current predecessor : String)
  | update_info_linking_elapsed
deriving DecidableEq, Repr

/-- What `link_execute` takes from outside the sources at hand: the number of workers of the
server and the outcome flag of the pool after `pgmoneta_workers_wait`. -/
structure link_env where
  number_of_workers : Int
  workers_outcome : Bool

/-- The `for` loop of `link_execute` (lines 152-161) with `j + 1 = count`: the index of the
first backup, going down from `count - 1`, that is valid and has the given major version;
-1 when there is none. -/
def next_newest_loop (backups : List backup) (major_version : Int) : Nat → Int
  | 0 => -1
  | j + 1 =>
    match backups[j]? with
    | some b =>
      if b.valid = validity.VALID_TRUE ∧ b.major_version = major_version then
        (j : Int)
      else
        next_newest_loop backups major_version j
    | none => next_newest_loop backups major_version j

/-- What `link_execute` returns and does: its status, the value of `next_newest` and its
calls. -/
structure link_result where
  status : Int
  next_newest : Int
  calls : List link_call
deriving DecidableEq, Repr

/-- The function `link_execute`, for the backups that `pgmoneta_get_backups` returned and
the label found in the context. -/
def link_execute (env : link_env) (label : String) (backups : List backup) : link_result :=
  let number_of_backups := backups.length
  if number_of_backups ≥ 2 then
    match backups[number_of_backups - 1]? with
    | none => { status := 0, next_newest := -1, calls := [] }
    | some newest =>
      let next_newest :=
        next_newest_loop backups newest.major_version (number_of_backups - 1)
      if next_newest ≠ -1 then
        match backups[next_newest.toNat]? with
        | none => { status := 0, next_newest := next_newest, calls := [] }
        | some previous =>
          let calls := [link_call.compare_manifests previous.label label,
            link_call.link_manifest label previous.label]
          if env.number_of_workers > 0 ∧ env.workers_outcome = false then
            { status := 1, next_newest := next_newest, calls := calls }
          else
            { status := 0, next_newest := next_newest,
              calls := calls ++ [link_call.update_info_linking_elapsed] }
      else
        { status := 0, next_newest := -1, calls := [] }
  else
    { status := 0, next_newest := -1, calls := [] }

/-- Whether the backup at index `k` may serve as predecessor of the last backup of the
list: it is valid and has the major version of the last backup. -/
def compatible (backups : List backup) (k : Nat) : Prop :=
  ∃ b newest, backups[k]? = some b ∧ backups[backups.length - 1]? = some newest ∧
    b.valid = validity.VALID_TRUE ∧ b.major_version = newest.major_version

/-! ## clustering.c -/

/-- The `CLUSTERING_CATEGORY_HEADER` constant of clustering.h. -/
def CLUSTERING_CATEGORY_HEADER : String := "Header"

/-- The `CLUSTERING_CATEGORY_REQUEST` constant of clustering.h. -/
def CLUSTERING_CATEGORY_REQUEST : String := "Request"

/-- The `CLUSTERING_CATEGORY_RESPONSE` constant of clustering.h. -/
def CLUSTERING_CATEGORY_RESPONSE : String := "Response"

/-- The `CLUSTERING_CATEGORY_OUTCOME` constant of clustering.h. -/
def CLUSTERING_CATEGORY_OUTCOME : String := "Outcome"

/-- The `CLUSTERING_ARGUMENT_ID` constant of clustering.h. -/
def CLUSTERING_ARGUMENT_ID : String := "Id"

/-- The `CLUSTERING_ARGUMENT_BACKUP` constant of clustering.h. -/
def CLUSTERING_ARGUMENT_BACKUP : String := "Backup"

/-- The `CLUSTERING_ARGUMENT_BACKUPS` constant of clustering.h. -/
def CLUSTERING_ARGUMENT_BACKUPS : String := "Backups"

/-- The `CLUSTERING_ARGUMENT_ERROR` constant of clustering.h. -/
def CLUSTERING_ARGUMENT_ERROR : String := "Error"

/-- The `CLUSTERING_ARGUMENT_HOST` constant of clustering.h. -/
def CLUSTERING_ARGUMENT_HOST : String := "Host"

/-- The `CLUSTERING_ARGUMENT_NUMBER_OF_SERVERS` constant of clustering.h. -/
def CLUSTERING_ARGUMENT_NUMBER_OF_SERVERS : String := "NumberOfServers"

/-- The `CLUSTERING_ARGUMENT_SERVER` constant of clustering.h. -/
def CLUSTERING_ARGUMENT_SERVER : String := "Server"

/-- The `CLUSTERING_ARGUMENT_SERVERS` constant of clustering.h. -/
def CLUSTERING_ARGUMENT_SERVERS : String := "Servers"

/-- The `CLUSTERING_ARGUMENT_STATUS` constant of clustering.h. -/
def CLUSTERING_ARGUMENT_STATUS : String := "Status"

/-- The `CLUSTERING_ARGUMENT_TIME` constant of clustering.h. -/
def CLUSTERING_ARGUMENT_TIME : String := "Time"

/-- The `CLUSTERING_ARGUMENT_TIMESTAMP` constant of clustering.h. -/
def CLUSTERING_ARGUMENT_TIMESTAMP : String := "Timestamp"

/-- The `CLUSTERING_ARGUMENT_VERSION` constant of clustering.h. -/
def CLUSTERING_ARGUMENT_VERSION : String := "Version"

/-- The `CLUSTERING_ERROR_GET_ID_NETWORK` constant of clustering.h. -/
def CLUSTERING_ERROR_GET_ID_NETWORK : Int := 10201

/-- The `CLUSTERING_COMPRESSION_NONE` constant of clustering.h. -/
def CLUSTERING_COMPRESSION_NONE : Nat := 0

/-- The `CLUSTERING_ENCRYPTION_NONE` constant of clustering.h. -/
def CLUSTERING_ENCRYPTION_NONE : Nat := 0

/-- What clustering.c takes from outside the sources at hand, for a connection whose state
has type `σ`. A C string is held as its bytes before the terminating zero.
`json_create n` is the status of the call of `pgmoneta_json_create` at site `n` of the
handler that runs; `get_backups srv` is the status of `pgmoneta_get_backups` for the server
and the labels of the backups it returns; `json_to_string` is the compact serialisation
(`NULL` is `none`); `write_uint32 n` is the content of the 4-byte buffer after
`pgmoneta_write_uint32`; `write_complete` is the function of that name, taken by its status
and the state in which it leaves the connection. -/
structure clustering_env (σ : Type) where
  clustering_id : String
  host : String
  version : String
  timestamp : String
  servers : List (String × Bool)
  start_time : Int
  end_time : Int
  get_timestamp_string : Int → Int → String
  json_clone : Int
  json_create : Nat → Int
  get_backups : Nat → Int × List String
  json_to_string : Option json → Option (List Nat)
  write_uint32 : Nat → List Nat
  write_complete : σ → List Nat → Int × σ

/-- The function `create_response`, where `created` is the status of its call of
`pgmoneta_json_create`: the status and the document afterwards. The pointer it hands out is
the object under `Response`. -/
def create_response {σ : Type} (env : clustering_env σ) (created : Int) (j : Option json) :
    Int × Option json :=
  if created ≠ 0 then
    (1, j)
  else
    let j1 := (pgmoneta_json_put j CLUSTERING_CATEGORY_RESPONSE (json.object [])).2
    let j2 := json_put_under j1 CLUSTERING_CATEGORY_RESPONSE CLUSTERING_ARGUMENT_ID
      (json.string env.clustering_id)
    let j3 := json_put_under j2 CLUSTERING_CATEGORY_RESPONSE CLUSTERING_ARGUMENT_VERSION
      (json.string env.version)
    (0, j3)

/-- The function `create_outcome_success`, where `created` is the status of its call of
`pgmoneta_json_create`: the status and the document afterwards. -/
def create_outcome_success {σ : Type} (env : clustering_env σ) (created : Int)
    (j : Option json) (start_time end_time : Int) : Int × Option json :=
  if created ≠ 0 then
    (1, j)
  else
    let r := put_item (put_item [] CLUSTERING_ARGUMENT_STATUS (json.boolean true))
      CLUSTERING_ARGUMENT_TIME (json.string (env.get_timestamp_string start_time end_time))
    (0, (pgmoneta_json_put j CLUSTERING_CATEGORY_OUTCOME (json.object r)).2)

/-- The function `create_outcome_failure`, where `created_json` and `created` are the status
of its two calls of `pgmoneta_json_create` (the first is made only for a `NULL` document):
the status, the document of the caller afterwards, and the value of the parameter `json` when
the function returns. For a `NULL` document the new document is assigned to the parameter
alone, so the caller still holds `NULL`. -/
def create_outcome_failure (created_json created : Int) (j : Option json) (error : Int) :
    Int × Option json × Option json :=
  let r := put_item (put_item [] CLUSTERING_ARGUMENT_STATUS (json.boolean false))
    CLUSTERING_ARGUMENT_ERROR (json.int32 error)
  match j with
  | none =>
    if created_json ≠ 0 then
      (1, none, none)
    else if created ≠ 0 then
      (1, none, some (json.object []))
    else
      (0, none,
        (pgmoneta_json_put (some (json.object [])) CLUSTERING_CATEGORY_OUTCOME
          (json.object r)).2)
  | some document =>
    if created ≠ 0 then
      (1, some document, some document)
    else
      (0, (pgmoneta_json_put (some document) CLUSTERING_CATEGORY_OUTCOME (json.object r)).2,
        (pgmoneta_json_put (some document) CLUSTERING_CATEGORY_OUTCOME (json.object r)).2)

/-- The function `pgmoneta_clustering_response_ok`: the status and the payload of the
caller afterwards. -/
def pgmoneta_clustering_response_ok {σ : Type} (env : clustering_env σ) (created : Int)
    (payload : Option json) (start_time end_time : Int) : Int × Option json :=
  let r := create_outcome_success env created payload start_time end_time
  if r.1 ≠ 0 then (1, r.2) else (0, r.2)

/-- The function `pgmoneta_clustering_response_error`: the status and the payload of the
caller afterwards. -/
def pgmoneta_clustering_response_error (created_json created : Int) (payload : Option json)
    (error : Int) : Int × Option json :=
  let r := create_outcome_failure created_json created payload error
  if r.1 ≠ 0 then (1, r.2.1) else (0, r.2.1)

/-- What a function that writes to the connection returns and does: its status, the
connection afterwards and the buffers it passed to `write_complete`, in order. -/
structure write_result (σ : Type) where
  status : Int
  conn : σ
  writes : List (List Nat)

/-- The function `write_uint8`. -/
def write_uint8 {σ : Type} (env : clustering_env σ) (conn : σ) (i : Nat) : write_result σ :=
  let buf1 := [i % 256]
  let r := env.write_complete conn buf1
  if r.1 ≠ 0 then
    { status := 1, conn := r.2, writes := [buf1] }
  else
    { status := 0, conn := r.2, writes := [buf1] }

/-- The function `write_string`; the argument of `pgmoneta_write_uint32` is a `uint32_t`. -/
def write_string {σ : Type} (env : clustering_env σ) (conn : σ) (str : Option (List Nat)) :
    write_result σ :=
  let buf4 := env.write_uint32
    ((match str with
      | some s => s.length
      | none => 0) % 2 ^ 32)
  let r := env.write_complete conn buf4
  if r.1 ≠ 0 then
    { status := 1, conn := r.2, writes := [buf4] }
  else
    match str with
    | some s =>
      let r2 := env.write_complete r.2 s
      if r2.1 ≠ 0 then
        { status := 1, conn := r2.2, writes := [buf4, s] }
      else
        { status := 0, conn := r2.2, writes := [buf4, s] }
    | none => { status := 0, conn := r.2, writes := [buf4] }

/-- The function `pgmoneta_clustering_write_json`. -/
def pgmoneta_clustering_write_json {σ : Type} (env : clustering_env σ) (conn : σ)
    (j : Option json) : write_result σ :=
  let s := env.json_to_string j
  let w1 := write_uint8 env conn CLUSTERING_COMPRESSION_NONE
  if w1.status ≠ 0 then
    { status := 1, conn := w1.conn, writes := w1.writes }
  else
    let w2 := write_uint8 env w1.conn CLUSTERING_ENCRYPTION_NONE
    if w2.status ≠ 0 then
      { status := 1, conn := w2.conn, writes := w1.writes ++ w2.writes }
    else
      let w3 := write_string env w2.conn s
      if w3.status ≠ 0 then
        { status := 1, conn := w3.conn, writes := w1.writes ++ w2.writes ++ w3.writes }
      else
        { status := 0, conn := w3.conn, writes := w1.writes ++ w2.writes ++ w3.writes }

/-- What a response handler leaves: the connection and the documents it passed to
`pgmoneta_clustering_write_json`, in order. -/
structure handler_result (σ : Type) where
  conn : σ
  written : List (Option json)

/-- The function `pgmoneta_clustering_response_get_id`. The sites of `pgmoneta_json_create`
are 0 in `create_response`, 1 in `create_outcome_success` and 2 in
`create_outcome_failure`. -/
def pgmoneta_clustering_response_get_id {σ : Type} (env : clustering_env σ) (conn : σ)
    (payload : Option json) : handler_result σ :=
  if env.json_clone ≠ 0 then
    { conn := conn, written := [] }
  else
    let j := payload
    let j1 := json_put_under j CLUSTERING_CATEGORY_HEADER CLUSTERING_ARGUMENT_ID
      (json.string env.clustering_id)
    let j2 := json_put_under j1 CLUSTERING_CATEGORY_HEADER CLUSTERING_ARGUMENT_TIMESTAMP
      (json.string env.timestamp)
    let c := create_response env (env.json_create 0) j2
    if c.1 ≠ 0 then
      { conn := conn, written := [] }
    else
      let j3 := json_put_under c.2 CLUSTERING_CATEGORY_RESPONSE CLUSTERING_ARGUMENT_HOST
        (json.string env.host)
      let ok := pgmoneta_clustering_response_ok env (env.json_create 1) j3
        env.start_time env.end_time
      if ok.1 ≠ 0 then
        let e := pgmoneta_clustering_response_error (env.json_create 2) (env.json_create 2)
          ok.2 CLUSTERING_ERROR_GET_ID_NETWORK
        let w := pgmoneta_clustering_write_json env conn e.2
        { conn := w.conn, written := [e.2] }
      else
        let w := pgmoneta_clustering_write_json env conn ok.2
        if w.status ≠ 0 then
          let e := pgmoneta_clustering_response_error (env.json_create 2) (env.json_create 2)
            ok.2 CLUSTERING_ERROR_GET_ID_NETWORK
          let w2 := pgmoneta_clustering_write_json env w.conn e.2
          { conn := w2.conn, written := [ok.2, e.2] }
        else
          { conn := w.conn, written := [ok.2] }

/-- The `for` loop of `pgmoneta_clustering_response_get_servers` over the configured
servers from index `i`: `none` when it leaves through `goto error`, otherwise the array of
servers and the count `nos`. Site `2 + i` of `pgmoneta_json_create` is the one for server
`i`. -/
def get_servers_loop {σ : Type} (env : clustering_env σ) :
    List (String × Bool) → Nat → Option json → Nat → Option (Option json × Nat)
  | [], _, servers, nos => some (servers, nos)
  | (name, clustering) :: rest, i, servers, nos =>
    if clustering then
      if env.json_create (2 + i) ≠ 0 then
        none
      else
        let srv := json.object (put_item [] CLUSTERING_ARGUMENT_SERVER (json.string name))
        get_servers_loop env rest (i + 1) (pgmoneta_json_append servers srv).2 (nos + 1)
    else
      get_servers_loop env rest (i + 1) servers nos

/-- The function `pgmoneta_clustering_response_get_servers`. The sites of
`pgmoneta_json_create` are 0 in `create_response`, 1 for the array of servers and `2 + i`
for server `i`. -/
def pgmoneta_clustering_response_get_servers {σ : Type} (env : clustering_env σ) (conn : σ)
    (payload : Option json) : handler_result σ :=
  if env.json_clone ≠ 0 then
    { conn := conn, written := [] }
  else
    let j := payload
    let j1 := json_put_under j CLUSTERING_CATEGORY_HEADER CLUSTERING_ARGUMENT_ID
      (json.string env.clustering_id)
    let j2 := json_put_under j1 CLUSTERING_CATEGORY_HEADER CLUSTERING_ARGUMENT_TIMESTAMP
      (json.string env.timestamp)
    let c := create_response env (env.json_create 0) j2
    if c.1 ≠ 0 then
      { conn := conn, written := [] }
    else if env.json_create 1 ≠ 0 then
      { conn := conn, written := [] }
    else
      match get_servers_loop env env.servers 0 (some (json.object [])) 0 with
      | none => { conn := conn, written := [] }
      | some (servers, nos) =>
        let j3 :=
          match servers with
          | some a =>
            json_put_under c.2 CLUSTERING_CATEGORY_RESPONSE CLUSTERING_ARGUMENT_SERVERS a
          | none => c.2
        let j4 := json_put_under j3 CLUSTERING_CATEGORY_RESPONSE
          CLUSTERING_ARGUMENT_NUMBER_OF_SERVERS (json.int32 nos)
        let w := pgmoneta_clustering_write_json env conn j4
        { conn := w.conn, written := [j4] }

/-- The first `for` loop of `pgmoneta_clustering_response_get_backups` from index `i`: the
index of the first configured server with the given name, -1 when there is none. -/
def find_server (server : String) : List (String × Bool) → Nat → Int
  | [], _ => -1
  | (name, _) :: rest, i => if name = server then (i : Int) else find_server server rest (i + 1)

/-- The second `for` loop of `pgmoneta_clustering_response_get_backups` over the labels of
the backups from index `i`: `none` when it leaves through `goto error`, otherwise the array
of backups. Site `2 + i` of `pgmoneta_json_create` is the one for backup `i`. -/
def get_backups_loop {σ : Type} (env : clustering_env σ) :
    List String → Nat → Option json → Option (Option json)
  | [], _, bcks => some bcks
  | label :: rest, i, bcks =>
    if env.json_create (2 + i) ≠ 0 then
      none
    else
      let bck := json.object (put_item [] CLUSTERING_ARGUMENT_BACKUP (json.string label))
      get_backups_loop env rest (i + 1) (pgmoneta_json_append bcks bck).2

/-- The function `pgmoneta_clustering_response_get_backups`. The sites of
`pgmoneta_json_create` are 0 in `create_response`, 1 for the array of backups and `2 + i`
for backup `i`. -/
def pgmoneta_clustering_response_get_backups {σ : Type} (env : clustering_env σ) (conn : σ)
    (payload : Option json) : handler_result σ :=
  let request := pgmoneta_json_get payload CLUSTERING_CATEGORY_REQUEST
  let server := json_string (pgmoneta_json_get request CLUSTERING_ARGUMENT_SERVER)
  let srv := find_server server env.servers 0
  if srv = -1 then
    { conn := conn, written := [] }
  else if env.json_clone ≠ 0 then
    { conn := conn, written := [] }
  else
    let j := payload
    let c := create_response env (env.json_create 0) j
    if c.1 ≠ 0 then
      { conn := conn, written := [] }
    else
      let backups := env.get_backups srv.toNat
      if backups.1 ≠ 0 then
        { conn := conn, written := [] }
      else if env.json_create 1 ≠ 0 then
        { conn := conn, written := [] }
      else
        match get_backups_loop env backups.2 0 (some (json.object [])) with
        | none => { conn := conn, written := [] }
        | some bcks =>
          let j1 :=
            match bcks with
            | some a =>
              json_put_under c.2 CLUSTERING_CATEGORY_RESPONSE CLUSTERING_ARGUMENT_BACKUPS a
            | none => c.2
          let w := pgmoneta_clustering_write_json env conn j1
          { conn := w.conn, written := [j1] }

/-- A clustering environment over a connection held as the bytes written so far, in which
every creation and every write succeeds; a document is serialised to the given bytes. -/
def clustering_env_example (s : List Nat) : clustering_env (List Nat) :=
  { clustering_id := "node1", host := "localhost", version := "0.15.0",
    timestamp := "20240101000000", servers := [("primary", true), ("replica", false)],
    start_time := 0, end_time := 1, get_timestamp_string := fun _ _ => "00:00:01",
    json_clone := 0, json_create := fun _ => 0,
    get_backups := fun _ => (0, ["20240101000000"]),
    json_to_string := fun _ => some s,
    write_uint32 := fun n => [n / 16777216 % 256, n / 65536 % 256, n / 256 % 256, n % 256],
    write_complete := fun conn buf => (0, conn ++ buf) }

/-- A request payload with the categories Header and Request, asking for the server
`primary`. -/
def request_example : Option json :=
  some (json.object
    [("Header", json.object [("Command", json.int32 3)]),
     ("Request", json.object [("Server", json.string "primary")])])

/-- Whether a document holds the categories Header, Request, Response and Outcome, in this
order. -/
def categories (doc : Option json) : Bool × Bool × Bool × Bool :=
  ((pgmoneta_json_get doc CLUSTERING_CATEGORY_HEADER).isSome,
   (pgmoneta_json_get doc CLUSTERING_CATEGORY_REQUEST).isSome,
   (pgmoneta_json_get doc CLUSTERING_CATEGORY_RESPONSE).isSome,
   (pgmoneta_json_get doc CLUSTERING_CATEGORY_OUTCOME).isSome)

/-! ## clustering.c: the loops of read_complete and write_complete -/

/-- What one `read` or `SSL_read` call of `read_complete` gives: the peer has `available`
bytes ready, of which the call takes at most the `needs` it asked for; or the call returns
-1 with `errno` set to `EAGAIN` or `EWOULDBLOCK`; or it returns -1 with another error. -/
inductive read_outcome where
  | bytes (available : Nat)
  | again
  | error
deriving DecidableEq, Repr

/-- How a loop over the results of system calls stands once the given results are used up:
its return value, `none` while it has not returned and is about to make another call; the
number of calls made; the number of bytes moved. -/
structure io_result where
  status : Option Int
  attempts : Nat
  total : Nat
deriving DecidableEq, Repr

/-- The code of `read_complete` from the label `read`, fed with the results of its calls in
order; `attempts` counts the calls made before. -/
def read_complete_loop : List read_outcome → Nat → Nat → Nat → Nat → io_result
  | [], offset, _, _, attempts => { status := none, attempts := attempts, total := offset }
  | outcome :: rest, offset, needs, retries, attempts =>
    match outcome with
    | read_outcome.error => { status := some 1, attempts := attempts + 1, total := offset }
    | read_outcome.again => read_complete_loop rest offset needs retries (attempts + 1)
    | read_outcome.bytes available =>
      let r := min available needs
      if r < needs then
        if retries < 100 then
          read_complete_loop rest (offset + r) (needs - r) (retries + 1) (attempts + 1)
        else
          { status := some 1, attempts := attempts + 1, total := offset }
      else
        { status := some 0, attempts := attempts + 1, total := offset + r }

/-- The function `read_complete` for a buffer of `size` bytes. -/
def read_complete (size : Nat) (results : List read_outcome) : io_result :=
  read_complete_loop results 0 size 0 0

/-- Whether every result of the list is a short read: bytes arrive, fewer than are still
needed when the call is made. -/
def all_short : Nat → List read_outcome → Bool
  | _, [] => true
  | needs, outcome :: rest =>
    match outcome with
    | read_outcome.bytes available => decide (available < needs) && all_short (needs - available) rest
    | _ => false

/-- What one `write` call of `write_socket` gives: the socket accepts `accepted` bytes, of
which the call writes at most the `remaining` it offered; or the call returns -1 with
`errno` set to `EAGAIN`; or it returns -1 with another error. -/
inductive write_outcome where
  | written (accepted : Nat)
  | again
  | error
deriving DecidableEq, Repr

/-- The `do ... while (keep_write)` loop of `write_socket`, fed with the results of its
calls in order. -/
def write_socket_loop : List write_outcome → Nat → Nat → Nat → Nat → io_result
  | [], _, totalbytes, _, attempts =>
    { status := none, attempts := attempts, total := totalbytes }
  | outcome :: rest, size, totalbytes, remaining, attempts =>
    match outcome with
    | write_outcome.written accepted =>
      let numbytes := min accepted remaining
      if numbytes = size then
        { status := some 0, attempts := attempts + 1, total := totalbytes + numbytes }
      else if totalbytes + numbytes = size then
        { status := some 0, attempts := attempts + 1, total := totalbytes + numbytes }
      else
        write_socket_loop rest size (totalbytes + numbytes) (remaining - numbytes)
          (attempts + 1)
    | write_outcome.again => write_socket_loop rest size totalbytes remaining (attempts + 1)
    | write_outcome.error =>
      { status := some 1, attempts := attempts + 1, total := totalbytes }

/-- The function `write_socket` for a buffer of `size` bytes. -/
def write_socket (size : Nat) (results : List write_outcome) : io_result :=
  write_socket_loop results size 0 size 0

/-- What one `SSL_write` call of `write_ssl` gives: `accepted` bytes are taken, of which
the call writes at most the `remaining` it offered; or the call fails and `SSL_get_error`
gives one of the codes of the retry cases (`SSL_ERROR_ZERO_RETURN`, the `WANT` codes), one of
`SSL_ERROR_SYSCALL` and `SSL_ERROR_SSL`, or a code the `switch` has no case for. -/
inductive ssl_outcome where
  | written (accepted : Nat)
  | want
  | fatal
  | other
deriving DecidableEq, Repr

/-- The `do ... while (keep_write)` loop of `write_ssl`, fed with the results of its calls
in order. `keep_write` keeps its value over an iteration that assigns nothing to it. -/
def write_ssl_loop : List ssl_outcome → Nat → Nat → Nat → Bool → Nat → io_result
  | [], _, totalbytes, _, _, attempts =>
    { status := none, attempts := attempts, total := totalbytes }
  | outcome :: rest, size, totalbytes, remaining, keep_write, attempts =>
    let failed (keep : Bool) : io_result :=
      if !keep then
        { status := some 1, attempts := attempts + 1, total := totalbytes }
      else
        write_ssl_loop rest size totalbytes remaining keep (attempts + 1)
    match outcome with
    | ssl_outcome.written accepted =>
      let numbytes := min accepted remaining
      if numbytes = size then
        { status := some 0, attempts := attempts + 1, total := totalbytes + numbytes }
      else if numbytes > 0 then
        if totalbytes + numbytes = size then
          { status := some 0, attempts := attempts + 1, total := totalbytes + numbytes }
        else
          write_ssl_loop rest size (totalbytes + numbytes) (remaining - numbytes) true
            (attempts + 1)
      else
        failed keep_write
    | ssl_outcome.want => failed true
    | ssl_outcome.fatal => failed false
    | ssl_outcome.other => failed keep_write

/-- The function `write_ssl` for a buffer of `size` bytes. -/
def write_ssl (size : Nat) (results : List ssl_outcome) : io_result :=
  write_ssl_loop results size 0 size false 0

/-- The function `write_complete`: `write_socket` when `ssl` is `NULL`, here when no results
of `SSL_write` are given, and `write_ssl` otherwise. -/
def write_complete (size : Nat) (socket_results : List write_outcome)
    (ssl_results : Option (List ssl_outcome)) : io_result :=
  match ssl_results with
  | none => write_socket size socket_results
  | some results => write_ssl size results

/-! ## clustering.c: the table of nodes -/

/-- The fields of `struct clustering_node` that the code at hand reads or writes in the
functions embedded here. `server_names` is the whole array, one string per slot. -/
structure clustering_node where
  host : String
  port : Int
  number_of_servers : Nat
  server_names : List String
deriving DecidableEq, Repr

/-- The inner `for` loop of `is_defined_server` for node `i`, over the slots of
`server_names` from index `j` on: `some true` when the function returns true, `some false`
when the loop ends, `none` when the loop reads past the last slot of the array. The
condition of the loop is `i < config->nodes[i].number_of_servers`. -/
def is_defined_server_inner (i : Nat) (number_of_servers : Nat) (server : String) :
    List String → Option Bool
  | [] => if i < number_of_servers then none else some false
  | name :: rest =>
    if i < number_of_servers then
      if name = server then some true else is_defined_server_inner i number_of_servers server rest
    else
      some false

/-- The outer `for` loop of `is_defined_server` from node `i` on. -/
def is_defined_server_loop (server : String) : List clustering_node → Nat → Option Bool
  | [], _ => some false
  | node :: rest, i =>
    match is_defined_server_inner i node.number_of_servers server node.server_names with
    | some true => some true
    | some false => is_defined_server_loop server rest (i + 1)
    | none => none

/-- The function `is_defined_server` over the first `number_of_nodes` entries of
`config->nodes`; `none` when it reads outside an array. -/
def is_defined_server (nodes : List clustering_node) (server : String) : Option Bool :=
  is_defined_server_loop server nodes 0

/-- Whether some node owns a server of the given name among its first `number_of_servers`
slots. -/
def owns_server (nodes : List clustering_node) (server : String) : Bool :=
  nodes.any (fun node => (node.server_names.take node.number_of_servers).contains server)

/-- The state that the libc `strtok` and the heap contribute to the parsing loop: the saved
position (the buffer it lies in and the characters from there to the end of the string),
the buffers freed so far, the number of the next buffer to allocate, and the nodes stored so
far as (host, port). -/
structure parse_state where
  saved : Option (Nat × List Char)
  freed : List Nat
  next_buffer : Nat
  nodes : List (String × Int)
deriving DecidableEq, Repr

/-- One step of `strtok` from a position in a buffer, for a single delimiter: the token
(`none` is `NULL`) and the new saved position. -/
def strtok_from (delim : Char) (buffer : Nat) (chars : List Char) :
    Option (List Char) × Option (Nat × List Char) :=
  let s := chars.dropWhile (fun c => c == delim)
  if s.isEmpty then
    (none, some (buffer, []))
  else
    (some (s.takeWhile (fun c => c != delim)),
      some (buffer, (s.dropWhile (fun c => c != delim)).drop 1))

/-- The libc `strtok(str, delim)`: with a string it starts there, with `NULL` (`none`) it
goes on from the saved position. The result is `none` when the call is undefined: no saved
position, or a saved position inside a buffer that was freed unless `stale_reads` says that
the bytes of a freed buffer are still found as they were. -/
def strtok (stale_reads : Bool) (str : Option (Nat × List Char)) (delim : Char)
    (st : parse_state) : Option (Option (List Char) × parse_state) :=
  match str with
  | some (buffer, chars) =>
    some ((strtok_from delim buffer chars).1,
      { st with saved := (strtok_from delim buffer chars).2 })
  | none =>
    match st.saved with
    | none => none
    | some (buffer, rest) =>
      if st.freed.contains buffer ∧ stale_reads = false then
        none
      else
        some ((strtok_from delim buffer rest).1,
          { st with saved := (strtok_from delim buffer rest).2 })

/-- The libc `atoi` for a string that starts with its digits or with a sign and digits. -/
def atoi (p : List Char) : Int :=
  let digits (s : List Char) : Int :=
    (s.takeWhile Char.isDigit).foldl (fun acc c => acc * 10 + ((c.toNat : Int) - 48)) 0
  match p with
  | '-' :: rest => - digits rest
  | '+' :: rest => digits rest
  | _ => digits p

/-- The `while (ptr != NULL)` loop of `pgmoneta_clustering_check_active` (lines 90-109) for
the token `ptr`; `fuel` bounds the number of iterations. `none` when a call is undefined
(`strtok` as above, or `strlen` and `atoi` of `NULL` when an entry lacks its host or its
port). -/
def check_active_loop (stale_reads : Bool) : Nat → List Char → parse_state → Option parse_state
  | 0, _, _ => none
  | fuel + 1, ptr, st =>
    let copied_ptr := st.next_buffer
    let st1 := { st with next_buffer := copied_ptr + 1 }
    match strtok stale_reads none ',' st1 with
    | none => none
    | some (next, st2) =>
      match strtok stale_reads (some (copied_ptr, ptr)) ':' st2 with
      | none => none
      | some (h, st3) =>
        match strtok stale_reads none ':' st3 with
        | none => none
        | some (p, st4) =>
          match h, p with
          | some host, some port =>
            let st5 := { st4 with nodes := st4.nodes ++ [(String.mk host, atoi port)],
                                  freed := copied_ptr :: st4.freed }
            match next with
            | none => some st5
            | some token => check_active_loop stale_reads fuel token st5
          | _, _ => none

/-- The parsing part of `pgmoneta_clustering_check_active` (lines 74-114): the entries
`nodes[0 .. number_of_nodes - 1]` as (host, port); `none` when a call is undefined. Buffer
0 is the copy `nodes` of `config->clustering_nodes`. -/
def parse_clustering_nodes (stale_reads : Bool) (clustering_nodes : String) :
    Option (List (String × Int)) :=
  if clustering_nodes.data.length > 0 then
    match strtok stale_reads (some (0, clustering_nodes.data)) ','
        { saved := none, freed := [], next_buffer := 1, nodes := [] } with
    | some (some ptr, st) =>
      (check_active_loop stale_reads (clustering_nodes.data.length + 1) ptr st).map
        (fun final => final.nodes)
    | some (none, _) => some []
    | none => none
  else
    some []

/-! ## The gate of the backup flag as a system of processes -/

/-- Where a process running `pgmoneta_backup` stands with respect to the gate: before the
compare-and-set, past a compare-and-set that succeeded (it holds the gate), or finished
with the gate (it released it, it exited without releasing, or its compare-and-set
failed). -/
inductive gate_pc where
  | start
  | holding
  | done
deriving DecidableEq, Repr

/-- The shared configuration and the place of every process. -/
structure gate_system where
  config : configuration
  pc : Nat → gate_pc

/-- The compare-and-set of line 89 by process `p` on server `S`. -/
def gate_acquire (S p : Nat) (s : gate_system) : gate_system :=
  { config := store_backup s.config S
      (atomic_compare_exchange_strong (s.config.servers S).backup false true).2.1,
    pc := Function.update s.pc p
      (if (atomic_compare_exchange_strong (s.config.servers S).backup false true).1 then
        gate_pc.holding
       else gate_pc.done) }

/-- The `atomic_store` of line 188 by process `p` on server `S`. -/
def gate_release (S p : Nat) (s : gate_system) : gate_system :=
  { config := store_backup s.config S false, pc := Function.update s.pc p gate_pc.done }

/-- The exit of process `p` through the `error` label, which stores nothing. -/
def gate_abandon (p : Nat) (s : gate_system) : gate_system :=
  { config := s.config, pc := Function.update s.pc p gate_pc.done }

/-- One atomic step of one process on the gate of server `S`. -/
inductive gate_step (S : Nat) : gate_system → gate_system → Prop where
  | acquire (s : gate_system) (p : Nat) (h : s.pc p = gate_pc.start) :
      gate_step S s (gate_acquire S p s)
  | release (s : gate_system) (p : Nat) (h : s.pc p = gate_pc.holding) :
      gate_step S s (gate_release S p s)
  | abandon (s : gate_system) (p : Nat) (h : s.pc p = gate_pc.holding) :
      gate_step S s (gate_abandon p s)

/-- The states reached from a configuration, whatever its flags, in which every process is
before its compare-and-set. -/
inductive gate_reachable (S : Nat) : gate_system → Prop where
  | init (config : configuration) :
      gate_reachable S { config := config, pc := fun _ => gate_pc.start }
  | step (s t : gate_system) (hs : gate_reachable S s) (ht : gate_step S s t) :
      gate_reachable S t

/-! ## backup.c: `pgmoneta_list_backup` -/

/-- Modelled from the spec: the error codes of management.h, which is not among the
sources, that `pgmoneta_list_backup` sends. -/
inductive list_backup_error where
  | MANAGEMENT_ERROR_ALLOCATION
  | MANAGEMENT_ERROR_LIST_BACKUP_DEQUE_CREATE
  | MANAGEMENT_ERROR_LIST_BACKUP_BACKUPS
  | MANAGEMENT_ERROR_LIST_BACKUP_JSON_VALUE
  | MANAGEMENT_ERROR_LIST_BACKUP_NETWORK
deriving DecidableEq, Repr

/-- Modelled from the spec: the category `Response` of management.h, which is not among the
sources. -/
def MANAGEMENT_CATEGORY_RESPONSE : String := "Response"

/-- Modelled from the spec: the category `Outcome` of management.h. -/
def MANAGEMENT_CATEGORY_OUTCOME : String := "Outcome"

/-- Modelled from the spec: the argument `Status` of management.h. -/
def MANAGEMENT_ARGUMENT_STATUS : String := "Status"

/-- Modelled from the spec: the argument `Time` of management.h. -/
def MANAGEMENT_ARGUMENT_TIME : String := "Time"

/-- Modelled from the spec: the argument `Server` of management.h. -/
def MANAGEMENT_ARGUMENT_SERVER : String := "Server"

/-- Modelled from the spec: the argument `Backup` of management.h. -/
def MANAGEMENT_ARGUMENT_BACKUP : String := "Backup"

/-- Modelled from the spec: the argument `Backups` of management.h. -/
def MANAGEMENT_ARGUMENT_BACKUPS : String := "Backups"

/-- Modelled from the spec: the argument `Keep` of management.h. -/
def MANAGEMENT_ARGUMENT_KEEP : String := "Keep"

/-- Modelled from the spec: the argument `Valid` of management.h. -/
def MANAGEMENT_ARGUMENT_VALID : String := "Valid"

/-- Modelled from the spec: the argument `BackupSize` of management.h. -/
def MANAGEMENT_ARGUMENT_BACKUP_SIZE : String := "BackupSize"

/-- Modelled from the spec: the argument `RestoreSize` of management.h. -/
def MANAGEMENT_ARGUMENT_RESTORE_SIZE : String := "RestoreSize"

/-- Modelled from the spec: the argument `Comments` of management.h. -/
def MANAGEMENT_ARGUMENT_COMMENTS : String := "Comments"

/-- Modelled from the spec: the argument `WAL` of management.h. -/
def MANAGEMENT_ARGUMENT_WAL : String := "WAL"

/-- The fields of `struct backup` that `pgmoneta_list_backup` reads. -/
structure backup_info where
  label : String
  keep : Bool
  valid : Int
  backup_size : Nat
  restore_size : Nat
  comments : String
  wal : String
deriving DecidableEq, Repr

/-- What `pgmoneta_list_backup` takes from outside the sources at hand: the name and the
`wal_size` of the server, the status of `pgmoneta_deque_create`, the status of
`pgmoneta_get_backups` and the array it returns (an entry may be `NULL`), the status of
`pgmoneta_json_create` and of `pgmoneta_deque_add` for the backup at an index,
`pgmoneta_number_of_wal_files` for a first segment and an optional last one, the status of
`pgmoneta_management_create_response`, of `pgmoneta_json_create` for the array, of
`pgmoneta_deque_iterator_create` and of `pgmoneta_management_response_ok` for the document
it is given, and the elapsed time as a string. -/
structure list_backup_env where
  name : String
  wal_size : Nat
  deque_create : Int
  get_backups : Int × List (Option backup_info)
  json_create : Nat → Int
  deque_add : Nat → Int
  number_of_wal_files : String → Option String → Nat
  management_create_response : Int
  json_create_backups : Int
  deque_iterator_create : Int
  management_response_ok : Option json → Int
  elapsed : String

/-- What `pgmoneta_list_backup` sends to the client: an error response with its code, or
the document handed to `pgmoneta_management_response_ok` with the status of that call. -/
inductive list_event where
  | response_error (code : list_backup_error)
  | response_ok (document : Option json) (status : Int)
deriving Repr

/-- How the loop over the backups ends: with the entries added to the deque, through the
`json_error` label, or in an access through a `NULL` entry of the array. -/
inductive list_loop_result where
  | entries (jl : List json)
  | json_error
  | null_access
deriving Repr

/-- The statements of the loop body for the backup `b` at index `i` up to the last
`pgmoneta_json_put`, where `previous` is the entry `backups[i - 1]` (`none` when `i` is 0):
the entry built, `none` through `json_error`; the outer `none` when `backups[i - 1]` is
`NULL`, which `&backups[i - 1]->wal[0]` goes through. -/
def list_backup_entry (env : list_backup_env) (i : Nat) (b : backup_info)
    (previous : Option (Option backup_info)) : Option (Option json) :=
  if env.json_create i ≠ 0 then
    some none
  else
    let j0 : Option json := some (json.object [])
    let p1 := pgmoneta_json_put j0 MANAGEMENT_ARGUMENT_SERVER (json.string env.name)
    if p1.1 ≠ 0 then some none else
    let p2 := pgmoneta_json_put p1.2 MANAGEMENT_ARGUMENT_BACKUP (json.string b.label)
    if p2.1 ≠ 0 then some none else
    let p3 := pgmoneta_json_put p2.2 MANAGEMENT_ARGUMENT_KEEP (json.boolean b.keep)
    if p3.1 ≠ 0 then some none else
    let p4 := pgmoneta_json_put p3.2 MANAGEMENT_ARGUMENT_VALID (json.int8 b.valid)
    if p4.1 ≠ 0 then some none else
    let p5 := pgmoneta_json_put p4.2 MANAGEMENT_ARGUMENT_BACKUP_SIZE (json.uint64 b.backup_size)
    if p5.1 ≠ 0 then some none else
    let p6 := pgmoneta_json_put p5.2 MANAGEMENT_ARGUMENT_RESTORE_SIZE
      (json.uint64 b.restore_size)
    if p6.1 ≠ 0 then some none else
    let p7 := pgmoneta_json_put p6.2 MANAGEMENT_ARGUMENT_COMMENTS (json.string b.comments)
    if p7.1 ≠ 0 then some none else
    let wal := env.number_of_wal_files b.wal none * env.wal_size % 2 ^ 64
    let p8 := pgmoneta_json_put p7.2 MANAGEMENT_ARGUMENT_WAL (json.uint64 wal)
    if p8.1 ≠ 0 then some none else
    match previous with
    | some none => none
    | _ =>
      let delta :=
        match previous with
        | some (some before) =>
          env.number_of_wal_files before.wal (some b.wal) * env.wal_size % 2 ^ 64
        | _ => 0
      let p9 := pgmoneta_json_put p8.2 MANAGEMENT_ARGUMENT_WAL (json.uint64 delta)
      if p9.1 ≠ 0 then some none else
      some p9.2

/-- The loop over `backups[i ..]` (lines 273-341), with the deque `jl` as the list of its
values. -/
def list_backup_loop (env : list_backup_env) :
    List (Option backup_info) → Nat → Option (Option backup_info) → List json →
    list_loop_result
  | [], _, _, jl => list_loop_result.entries jl
  | none :: rest, i, _, jl => list_backup_loop env rest (i + 1) (some none) jl
  | some b :: rest, i, previous, jl =>
    match list_backup_entry env i b previous with
    | none => list_loop_result.null_access
    | some none => list_loop_result.json_error
    | some (some j) =>
      if env.deque_add i ≠ 0 then
        list_loop_result.json_error
      else
        list_backup_loop env rest (i + 1) (some (some b)) (jl ++ [j])

/-- Modelled from the spec: `pgmoneta_management_create_response` of management.c, which is
not among the sources: on success the payload has an object under `Response`, which is the
pointer handed out. -/
def pgmoneta_management_create_response (status : Int) (payload : Option json) :
    Int × Option json :=
  if status ≠ 0 then
    (1, payload)
  else
    (0, (pgmoneta_json_put payload MANAGEMENT_CATEGORY_RESPONSE (json.object [])).2)

/-- Modelled from the spec: the document that `pgmoneta_management_response_ok` of
management.c, which is not among the sources, sends: the payload with `Outcome` holding a
true `Status` and the elapsed time. -/
def management_ok_document (elapsed : String) (payload : Option json) : Option json :=
  (pgmoneta_json_put payload MANAGEMENT_CATEGORY_OUTCOME
    (json.object (put_item (put_item [] MANAGEMENT_ARGUMENT_STATUS (json.boolean true))
      MANAGEMENT_ARGUMENT_TIME (json.string elapsed)))).2

/-- The `while` loop over the iterator of the deque: every value is appended to `bcks`. -/
def append_all (bcks : Option json) : List json → Option json
  | [] => bcks
  | j :: rest => append_all (pgmoneta_json_append bcks j).2 rest

/-- What a run of `pgmoneta_list_backup` leaves behind. -/
structure list_backup_result where
  events : List list_event
  exit_status : Nat
deriving Repr

/-- The function `pgmoneta_list_backup`: what it sends and the status the process exits
with; `none` when it goes through a `NULL` entry of the array of backups. -/
def pgmoneta_list_backup (env : list_backup_env) (payload : Option json) :
    Option list_backup_result :=
  if env.deque_create ≠ 0 then
    some { events := [list_event.response_error
        list_backup_error.MANAGEMENT_ERROR_LIST_BACKUP_DEQUE_CREATE], exit_status := 1 }
  else if env.get_backups.1 ≠ 0 then
    some { events := [list_event.response_error
        list_backup_error.MANAGEMENT_ERROR_LIST_BACKUP_BACKUPS], exit_status := 1 }
  else
    match list_backup_loop env env.get_backups.2 0 none [] with
    | list_loop_result.null_access => none
    | list_loop_result.json_error =>
      some { events := [list_event.response_error
          list_backup_error.MANAGEMENT_ERROR_LIST_BACKUP_JSON_VALUE], exit_status := 1 }
    | list_loop_result.entries jl =>
      let created := pgmoneta_management_create_response env.management_create_response payload
      if created.1 ≠ 0 then
        some { events := [list_event.response_error
            list_backup_error.MANAGEMENT_ERROR_ALLOCATION], exit_status := 1 }
      else if env.json_create_backups ≠ 0 then
        some { events := [], exit_status := 1 }
      else if env.deque_iterator_create ≠ 0 then
        some { events := [], exit_status := 1 }
      else
        let bcks := append_all (some (json.object [])) jl
        let doc1 := json_put_under created.2 MANAGEMENT_CATEGORY_RESPONSE
          MANAGEMENT_ARGUMENT_SERVER (json.string env.name)
        let doc2 :=
          match bcks with
          | some a => json_put_under doc1 MANAGEMENT_CATEGORY_RESPONSE
              MANAGEMENT_ARGUMENT_BACKUPS a
          | none => doc1
        let document := management_ok_document env.elapsed doc2
        if env.management_response_ok document ≠ 0 then
          some { events := [list_event.response_ok document
              (env.management_response_ok document),
            list_event.response_error
              list_backup_error.MANAGEMENT_ERROR_LIST_BACKUP_NETWORK], exit_status := 1 }
        else
          some { events := [list_event.response_ok document 0], exit_status := 0 }

/-- The documents a run handed to `pgmoneta_management_response_ok`. -/
def ok_documents (r : list_backup_result) : List (Option json) :=
  r.events.filterMap (fun e =>
    match e with
    | list_event.response_ok document _ => some document
    | list_event.response_error _ => none)

/-- The labels of the entries under `Response.Backups` of a document, in their order; the
empty list for a `Backups` without elements, `none` when the document has no
`Response.Backups`. -/
def backups_labels (document : Option json) : Option (List String) :=
  match pgmoneta_json_get (pgmoneta_json_get document MANAGEMENT_CATEGORY_RESPONSE)
      MANAGEMENT_ARGUMENT_BACKUPS with
  | some (json.array elements) =>
    some (elements.map (fun e => json_string (pgmoneta_json_get (some e)
      MANAGEMENT_ARGUMENT_BACKUP)))
  | some (json.object []) => some []
  | _ => none

/-- The `Status` under `Outcome` of a document. -/
def outcome_status (document : Option json) : Option json :=
  pgmoneta_json_get (pgmoneta_json_get document MANAGEMENT_CATEGORY_OUTCOME)
    MANAGEMENT_ARGUMENT_STATUS

/-- A backup with the given label and first WAL segment. -/
def backup_info_example (label wal : String) : backup_info :=
  { label := label, keep := false, valid := 1, backup_size := 100, restore_size := 200,
    comments := "", wal := wal }

/-- An environment of `pgmoneta_list_backup` in which every call succeeds and
`pgmoneta_get_backups` returns the given array. -/
def list_backup_env_example (backups : List (Option backup_info)) : list_backup_env :=
  { name := "primary", wal_size := 16777216, deque_create := 0,
    get_backups := (0, backups), json_create := fun _ => 0, deque_add := fun _ => 0,
    number_of_wal_files := fun _ _ => 1, management_create_response := 0,
    json_create_backups := 0, deque_iterator_create := 0,
    management_response_ok := fun _ => 0, elapsed := "00:00:00" }

/-- A payload of a request to list the backups of a server. -/
def list_payload_example : Option json :=
  some (json.object
    [("Header", json.object [("Command", json.int32 2)]),
     ("Request", json.object [("Server", json.string "primary")])])

/-! ## clustering.c: reading a string -/

/-- What the reading side of clustering.c takes from outside: `read_complete` for a number
of bytes, by its status, the bytes it stored in the buffer and the state in which it leaves
the connection; `pgmoneta_read_uint32` on the 4-byte buffer; and whether `malloc` of a
number of bytes succeeds. -/
structure read_env (σ : Type) where
  read_complete : σ → Nat → Int × List Nat × σ
  read_uint32 : List Nat → Nat
  malloc : Nat → Bool

/-- The function `read_string` (lines 987-1040): the status, the string left in `*str`
(`none` is `NULL`) and the connection afterwards. `size` is a `uint32_t`, and so is
`size + 1`; the outer `none` is a read of `size` bytes into a buffer of fewer bytes. -/
def read_string {σ : Type} (env : read_env σ) (conn : σ) :
    Option (Int × Option (List Nat) × σ) :=
  let r := env.read_complete conn 4
  if r.1 ≠ 0 then
    some (1, none, r.2.2)
  else
    let size := env.read_uint32 r.2.1 % 2 ^ 32
    if size > 0 then
      if env.malloc ((size + 1) % 2 ^ 32) = false then
        some (1, none, r.2.2)
      else if (size + 1) % 2 ^ 32 < size then
        none
      else
        let r2 := env.read_complete r.2.2 size
        if r2.1 ≠ 0 then
          some (1, none, r2.2.2)
        else
          some (0, some r2.2.1, r2.2.2)
    else
      some (0, none, r.2.2)

/-- A connection held as the bytes on the wire that are not yet read: a read of `size`
bytes completes when that many bytes are there. -/
def stream_read_env (read_uint32 : List Nat → Nat) : read_env (List Nat) :=
  { read_complete := fun conn size =>
      if size ≤ conn.length then (0, conn.take size, conn.drop size) else (1, conn, []),
    read_uint32 := read_uint32,
    malloc := fun _ => true }

/-- The writing side over a connection held as the bytes written so far, in which every
write completes, with the given `pgmoneta_write_uint32`. -/
def stream_write_env (write_uint32 : Nat → List Nat) : clustering_env (List Nat) :=
  { clustering_env_example [] with write_uint32 := write_uint32 }

/-- The length codec of 4 bytes with the most significant byte first, writing side. -/
def write_uint32_example (n : Nat) : List Nat :=
  [n / 16777216 % 256, n / 65536 % 256, n / 256 % 256, n % 256]

/-- The length codec of 4 bytes with the most significant byte first, reading side. -/
def read_uint32_example (buf : List Nat) : Nat :=
  buf.foldl (fun acc b => acc * 256 + b) 0

/-! ## Bytes of the bitset storage -/

theorem to_char_mod (n : Nat) : to_char (n % 256) = to_char n := by
  simp [to_char, Nat.mod_mod]

set_option maxRecDepth 1000000 in
theorem char_test_small : ∀ b < 256, ∀ k < 8,
    (if to_char b < 0 ∧ to_char (1 <<< k) = -128 then true
      else decide (to_char (b &&& (1 <<< k)) > 0)) = b.testBit k := by
  decide

theorem and_mod_256 (b m : Nat) : (b % 256 &&& m) % 256 = (b &&& m) % 256 := by
  apply Nat.eq_of_testBit_eq
  intro i
  have h : (256 : Nat) = 2 ^ 8 := by norm_num
  rw [h]
  simp only [Nat.testBit_mod_two_pow, Nat.testBit_and]
  cases decide (i < 8) <;> simp

theorem char_test (b k : Nat) (hk : k < 8) :
    (if to_char b < 0 ∧ to_char (1 <<< k) = -128 then true
      else decide (to_char (b &&& (1 <<< k)) > 0)) = b.testBit k := by
  have h := char_test_small (b % 256) (Nat.mod_lt _ (by norm_num)) k hk
  rw [to_char_mod] at h
  rw [← to_char_mod (b % 256 &&& 1 <<< k), and_mod_256, to_char_mod] at h
  rw [h]
  have h8 : (256 : Nat) = 2 ^ 8 := by norm_num
  rw [h8, Nat.testBit_mod_two_pow]
  simp [hk]

theorem set_byte_testBit (c k j : Nat) (hj : j < 8) :
    ((c ||| (1 <<< k)) % 256).testBit j = (decide (j = k) || c.testBit j) := by
  have h8 : (256 : Nat) = 2 ^ 8 := by norm_num
  rw [h8, Nat.testBit_mod_two_pow, Nat.testBit_or, Nat.one_shiftLeft, Nat.testBit_two_pow]
  simp [hj, Bool.or_comm, eq_comm]

theorem clear_byte_testBit (c k j : Nat) (hj : j < 8) :
    ((c &&& (255 ^^^ (1 <<< k))) % 256).testBit j = (!decide (j = k) && c.testBit j) := by
  have h8 : (256 : Nat) = 2 ^ 8 := by norm_num
  have h255 : (255 : Nat) = 2 ^ 8 - 1 := by norm_num
  rw [h8, Nat.testBit_mod_two_pow, Nat.testBit_and, Nat.testBit_xor, h255,
    Nat.testBit_two_pow_sub_one, Nat.one_shiftLeft, Nat.testBit_two_pow]
  by_cases hjk : j = k
  · subst hjk; simp [hj]
  · have : ¬ k = j := fun h => hjk h.symm
    simp [hj, hjk, this, Bool.and_comm]

/-! ## The loops of the drivers -/

theorem workflow_loop_eq {σ : Type} (phase : workflow σ → σ → Int × σ) (ev : Nat → event)
    (wf : List (workflow σ)) (i : Nat) (w : σ) :
    workflow_loop phase ev wf i w =
      match first_failure (phase_codes phase wf w) with
      | none => (false, phase_world phase wf w, (List.range wf.length).map (fun j => ev (i + j)))
      | some k => (true, phase_world phase (wf.take (k + 1)) w,
          (List.range (k + 1)).map (fun j => ev (i + j))) := by
  induction wf generalizing i w with
  | nil => simp [workflow_loop, phase_codes, first_failure, phase_world]
  | cons current next ih =>
    by_cases h : (phase current w).1 = 0
    · have hstep := ih (i + 1) (phase current w).2
      simp only [workflow_loop, phase_codes, first_failure, h, ne_eq, not_true_eq_false,
        if_false, hstep]
      cases hf : first_failure (phase_codes phase next (phase current w).2) with
      | none =>
        simp [phase_world, List.range_succ_eq_map, List.map_map, Function.comp_def,
          Nat.add_assoc, Nat.add_comm 1]
      | some k =>
        simp [phase_world, List.range_succ_eq_map (k + 1), List.map_map, Function.comp_def,
          Nat.add_assoc, Nat.add_comm 1]
    · simp [workflow_loop, phase_codes, first_failure, h, phase_world, List.range_succ_eq_map]

theorem workflow_loop_zero {σ : Type} (phase : workflow σ → σ → Int × σ) (ev : Nat → event)
    (wf : List (workflow σ)) (w : σ) :
    workflow_loop phase ev wf 0 w =
      match first_failure (phase_codes phase wf w) with
      | none => (false, phase_world phase wf w, (List.range wf.length).map ev)
      | some k => (true, phase_world phase (wf.take (k + 1)) w, (List.range (k + 1)).map ev) := by
  rw [workflow_loop_eq]
  cases first_failure (phase_codes phase wf w) <;> simp

theorem store_backup_get (config : configuration) (i : Nat) (v : Bool) :
    ((store_backup config i v).servers i).backup = v := by
  simp [store_backup]

theorem backup_rejected_of_invalid {σ : Type} (env : backup_calls σ) (config : configuration)
    (server : Nat) (wf : List (workflow σ)) (w : σ)
    (hv : (config.servers server).valid = false) :
    (pgmoneta_backup env config server wf w).calls =
        [event.response_error MANAGEMENT_ERROR_BACKUP_INVALID] ∧
      (pgmoneta_backup env config server wf w).exit_status = 1 := by
  simp [pgmoneta_backup, hv]

theorem backup_rejected_of_no_wal {σ : Type} (env : backup_calls σ) (config : configuration)
    (server : Nat) (wf : List (workflow σ)) (w : σ)
    (hv : (config.servers server).valid = true)
    (hw : (config.servers server).wal_streaming = false) :
    (pgmoneta_backup env config server wf w).calls =
        [event.response_error MANAGEMENT_ERROR_BACKUP_WAL] ∧
      (pgmoneta_backup env config server wf w).exit_status = 1 := by
  simp [pgmoneta_backup, hv, hw]

theorem backup_rejected_of_active {σ : Type} (env : backup_calls σ) (config : configuration)
    (server : Nat) (wf : List (workflow σ)) (w : σ)
    (hv : (config.servers server).valid = true)
    (hw : (config.servers server).wal_streaming = true)
    (hb : (config.servers server).backup = true) :
    (pgmoneta_backup env config server wf w).calls =
        [event.response_error MANAGEMENT_ERROR_BACKUP_ACTIVE] ∧
      (pgmoneta_backup env config server wf w).exit_status = 0 := by
  simp [pgmoneta_backup, hv, hw, hb, atomic_compare_exchange_strong]

theorem backup_run_of_failure {σ : Type} (env : backup_calls σ) (config : configuration)
    (server : Nat) (wf : List (workflow σ)) (w : σ) (p : phase_kind) (k : Nat)
    (hv : (config.servers server).valid = true)
    (hw : (config.servers server).wal_streaming = true)
    (hb : (config.servers server).backup = false)
    (hf : first_failing_call wf w = some (p, k)) :
    (pgmoneta_backup env config server wf w).calls =
        event.mkdir :: (calls_until p k wf.length ++
          [event.response_error (backup_phase_error p)]) ∧
      (pgmoneta_backup env config server wf w).exit_status = 1 ∧
      (((pgmoneta_backup env config server wf w).config.servers server).backup = true) := by
  unfold first_failing_call at hf
  simp only [pgmoneta_backup, hv, hw, hb, atomic_compare_exchange_strong, workflow_loop_zero]
  cases hs : first_failure (phase_codes workflow.setup wf w) with
  | some ks =>
    simp only [hs] at hf
    cases hf
    simp [calls_until, backup_phase_error, store_backup_get]
  | none =>
    simp only [hs] at hf
    cases he : first_failure (phase_codes workflow.execute wf
        (phase_world workflow.setup wf w)) with
    | some ke =>
      simp only [he] at hf
      cases hf
      simp [calls_until, backup_phase_error, store_backup_get]
    | none =>
      simp only [he] at hf
      cases ht : first_failure (phase_codes workflow.teardown wf
          (phase_world workflow.execute wf (phase_world workflow.setup wf w))) with
      | some kt =>
        simp only [ht] at hf
        cases hf
        simp [calls_until, backup_phase_error, store_backup_get]
      | none =>
        simp [ht] at hf

theorem backup_run_of_no_failure {σ : Type} (env : backup_calls σ) (config : configuration)
    (server : Nat) (wf : List (workflow σ)) (w : σ)
    (hv : (config.servers server).valid = true)
    (hw : (config.servers server).wal_streaming = true)
    (hb : (config.servers server).backup = false)
    (hf : first_failing_call wf w = none) :
    (pgmoneta_backup env config server wf w).calls =
        event.mkdir :: ((List.range wf.length).map event.setup ++
          (List.range wf.length).map event.execute ++
          (List.range wf.length).map event.teardown ++
          backup_tail env (pgmoneta_backup env config server wf w).world) ∧
      ((pgmoneta_backup env config server wf w).exit_status = 0 ↔
        backup_tail env (pgmoneta_backup env config server wf w).world =
          [event.response_ok 0]) ∧
      ((pgmoneta_backup env config server wf w).exit_status = 0 ∨
        (pgmoneta_backup env config server wf w).exit_status = 1) := by
  unfold first_failing_call at hf
  cases hs : first_failure (phase_codes workflow.setup wf w) with
  | some ks => simp [hs] at hf
  | none =>
    simp only [hs] at hf
    cases he : first_failure (phase_codes workflow.execute wf
        (phase_world workflow.setup wf w)) with
    | some ke => simp [he] at hf
    | none =>
      simp only [he] at hf
      cases ht : first_failure (phase_codes workflow.teardown wf
          (phase_world workflow.execute wf (phase_world workflow.setup wf w))) with
      | some kt => simp [ht] at hf
      | none =>
        simp only [pgmoneta_backup, hv, hw, hb, atomic_compare_exchange_strong,
          workflow_loop_zero, hs, he, ht, backup_tail]
        by_cases h1 : env.management_create_response (phase_world workflow.teardown wf
            (phase_world workflow.execute wf (phase_world workflow.setup wf w))) = 0
        · by_cases h2 : env.get_backup (phase_world workflow.teardown wf
              (phase_world workflow.execute wf (phase_world workflow.setup wf w))) = 0
          · by_cases h3 : env.management_response_ok (phase_world workflow.teardown wf
                (phase_world workflow.execute wf (phase_world workflow.setup wf w))) = 0
            · simp [h1, h2, h3]
            · simp [h1, h2, h3]
          · simp [h1, h2]
        · simp [h1]

theorem delete_run_of_failure {σ : Type} (env : delete_calls σ) (config : configuration)
    (srv : Nat) (wf : List (workflow σ)) (w : σ) (p : phase_kind) (k : Nat)
    (hd : env.deque_create = 0)
    (hf : first_failing_call wf w = some (p, k)) :
    (pgmoneta_delete_backup env config srv wf w).calls =
        calls_until p k wf.length ++
          [event.response_error (delete_phase_error p),
           event.response_error MANAGEMENT_ERROR_DELETE_ERROR] ∧
      (pgmoneta_delete_backup env config srv wf w).exit_status = 1 := by
  unfold first_failing_call at hf
  simp only [pgmoneta_delete_backup, hd, workflow_loop_zero]
  cases hs : first_failure (phase_codes workflow.setup wf w) with
  | some ks =>
    simp only [hs] at hf
    cases hf
    simp [calls_until, delete_phase_error]
  | none =>
    simp only [hs] at hf
    cases he : first_failure (phase_codes workflow.execute wf
        (phase_world workflow.setup wf w)) with
    | some ke =>
      simp only [he] at hf
      cases hf
      simp [calls_until, delete_phase_error]
    | none =>
      simp only [he] at hf
      cases ht : first_failure (phase_codes workflow.teardown wf
          (phase_world workflow.execute wf (phase_world workflow.setup wf w))) with
      | some kt =>
        simp only [ht] at hf
        cases hf
        simp [calls_until, delete_phase_error]
      | none =>
        simp [ht] at hf

theorem delete_run_of_no_failure {σ : Type} (env : delete_calls σ) (config : configuration)
    (srv : Nat) (wf : List (workflow σ)) (w : σ)
    (hd : env.deque_create = 0)
    (hf : first_failing_call wf w = none) :
    (pgmoneta_delete_backup env config srv wf w).calls =
        (List.range wf.length).map event.setup ++
          (List.range wf.length).map event.execute ++
          (List.range wf.length).map event.teardown ++
          delete_tail env (pgmoneta_delete_backup env config srv wf w).world ∧
      ((pgmoneta_delete_backup env config srv wf w).exit_status = 0 ↔
        delete_tail env (pgmoneta_delete_backup env config srv wf w).world =
          [event.response_ok 0]) := by
  unfold first_failing_call at hf
  cases hs : first_failure (phase_codes workflow.setup wf w) with
  | some ks => simp [hs] at hf
  | none =>
    simp only [hs] at hf
    cases he : first_failure (phase_codes workflow.execute wf
        (phase_world workflow.setup wf w)) with
    | some ke => simp [he] at hf
    | none =>
      simp only [he] at hf
      cases ht : first_failure (phase_codes workflow.teardown wf
          (phase_world workflow.execute wf (phase_world workflow.setup wf w))) with
      | some kt => simp [ht] at hf
      | none =>
        simp only [pgmoneta_delete_backup, hd, workflow_loop_zero, hs, he, ht, delete_tail]
        by_cases h1 : env.management_create_response (phase_world workflow.teardown wf
            (phase_world workflow.execute wf (phase_world workflow.setup wf w))) = 0
        · by_cases h3 : env.management_response_ok (phase_world workflow.teardown wf
              (phase_world workflow.execute wf (phase_world workflow.setup wf w))) = 0
          · simp [h1, h3]
          · simp [h1, h3]
        · simp [h1]

theorem delete_config_unchanged {σ : Type} (env : delete_calls σ) (config : configuration)
    (srv : Nat) (wf : List (workflow σ)) (w : σ) :
    (pgmoneta_delete_backup env config srv wf w).config = config := by
  unfold pgmoneta_delete_backup
  simp only []
  repeat (first | rfl | split)

theorem first_failure_lt (cs : List Int) (k : Nat) (h : first_failure cs = some k) :
    k < cs.length := by
  induction cs generalizing k with
  | nil => simp [first_failure] at h
  | cons c cs ih =>
    by_cases hc : c = 0
    · simp only [first_failure, hc, ne_eq, not_true_eq_false, if_false] at h
      cases hr : first_failure cs with
      | none => simp [hr] at h
      | some j =>
        simp [hr] at h
        have := ih j hr
        simp
        omega
    · simp [first_failure, hc] at h
      simp [← h]

theorem phase_codes_length {σ : Type} (phase : workflow σ → σ → Int × σ)
    (wf : List (workflow σ)) (w : σ) : (phase_codes phase wf w).length = wf.length := by
  induction wf generalizing w with
  | nil => rfl
  | cons c n ih => simp [phase_codes, ih]

theorem first_failing_call_lt {σ : Type} (wf : List (workflow σ)) (w : σ) (p : phase_kind)
    (k : Nat) (hf : first_failing_call wf w = some (p, k)) : k < wf.length := by
  unfold first_failing_call at hf
  cases hs : first_failure (phase_codes workflow.setup wf w) with
  | some ks =>
    simp only [hs] at hf
    cases hf
    simpa [phase_codes_length] using first_failure_lt _ _ hs
  | none =>
    simp only [hs] at hf
    cases he : first_failure (phase_codes workflow.execute wf
        (phase_world workflow.setup wf w)) with
    | some ke =>
      simp only [he] at hf
      cases hf
      simpa [phase_codes_length] using first_failure_lt _ _ he
    | none =>
      simp only [he] at hf
      cases ht : first_failure (phase_codes workflow.teardown wf
          (phase_world workflow.execute wf (phase_world workflow.setup wf w))) with
      | some kt =>
        simp only [ht] at hf
        cases hf
        simpa [phase_codes_length] using first_failure_lt _ _ ht
      | none =>
        simp [ht] at hf

theorem first_failure_eq_none_iff (cs : List Int) :
    first_failure cs = none ↔ ∀ c ∈ cs, c = 0 := by
  induction cs with
  | nil => simp [first_failure]
  | cons c cs ih =>
    by_cases hc : c = 0
    · simp [first_failure, hc, ih]
    · simp [first_failure, hc]

theorem phase_codes_zero_of_all_zero {σ : Type} (phase : workflow σ → σ → Int × σ)
    (wf : List (workflow σ)) (w : σ) (h : ∀ s ∈ wf, ∀ v, (phase s v).1 = 0) :
    first_failure (phase_codes phase wf w) = none := by
  induction wf generalizing w with
  | nil => rfl
  | cons c n ih =>
    have hc := h c (List.mem_cons_self _ _) w
    have hn := ih (phase c w).2 (fun s hs v => h s (List.mem_cons_of_mem _ hs) v)
    simp [phase_codes, first_failure, hc, hn]

theorem first_failing_call_none_of_all_zero {σ : Type} (wf : List (workflow σ)) (w : σ)
    (h : ∀ s ∈ wf, ∀ v, (s.setup v).1 = 0 ∧ (s.execute v).1 = 0 ∧ (s.teardown v).1 = 0) :
    first_failing_call wf w = none := by
  unfold first_failing_call
  rw [phase_codes_zero_of_all_zero workflow.setup wf _ (fun s hs v => (h s hs v).1)]
  simp only []
  rw [phase_codes_zero_of_all_zero workflow.execute wf _ (fun s hs v => (h s hs v).2.1)]
  simp only []
  rw [phase_codes_zero_of_all_zero workflow.teardown wf _ (fun s hs v => (h s hs v).2.2)]

theorem filter_phase_calls_tail {σ : Type} (env : backup_calls σ) (w : σ) :
    (backup_tail env w).filter event.is_phase_call = [] := by
  unfold backup_tail
  split_ifs <;> simp [event.is_phase_call]

theorem filter_phase_calls_map (n : Nat) :
    ((List.range n).map event.setup).filter event.is_phase_call =
        (List.range n).map event.setup ∧
      ((List.range n).map event.execute).filter event.is_phase_call =
        (List.range n).map event.execute ∧
      ((List.range n).map event.teardown).filter event.is_phase_call =
        (List.range n).map event.teardown := by
  refine ⟨?_, ?_, ?_⟩ <;>
    (rw [List.filter_eq_self]; intro a ha; simp at ha; obtain ⟨j, _, rfl⟩ := ha; rfl)

theorem filter_errors_calls_until (p : phase_kind) (k n : Nat) :
    (calls_until p k n).filter event.is_response_error = [] := by
  rw [List.filter_eq_nil_iff]
  intro a ha
  cases p with
  | setup =>
    simp only [calls_until, List.mem_map] at ha
    obtain ⟨j, _, rfl⟩ := ha
    simp [event.is_response_error]
  | execute =>
    simp only [calls_until, List.mem_append, List.mem_map] at ha
    rcases ha with ⟨j, _, rfl⟩ | ⟨j, _, rfl⟩ <;> simp [event.is_response_error]
  | teardown =>
    simp only [calls_until, List.mem_append, List.mem_map] at ha
    rcases ha with (⟨j, _, rfl⟩ | ⟨j, _, rfl⟩) | ⟨j, _, rfl⟩ <;>
      simp [event.is_response_error]

/-! ## The operations of the bitset -/

theorem get_eq_testBit (b : bitset) (i : Nat) :
    pgmoneta_bitset_get (some b) i =
      (b.data[i / CHAR_BIT]?).map (fun byte => byte.testBit (i % CHAR_BIT)) := by
  simp only [pgmoneta_bitset_get]
  cases h : b.data[i / CHAR_BIT]? with
  | none => rfl
  | some byte =>
    have hk : i % CHAR_BIT < 8 := Nat.mod_lt _ (by decide)
    have hc := char_test byte (i % CHAR_BIT) hk
    simp only [Option.map_some', ← hc]
    split_ifs with h1 <;> rfl

theorem set_eq (b : bitset) (i : Nat) (h : i / CHAR_BIT < b.data.length) :
    pgmoneta_bitset_set (some b) i =
      some ((0 : Int), some (bitset.mk b.input_size b.size (b.data.set (i / CHAR_BIT)
        ((b.data[i / CHAR_BIT] ||| 1 <<< (i % CHAR_BIT)) % 256)))) := by
  simp [pgmoneta_bitset_set, List.getElem?_eq_getElem h]

theorem clear_eq (b : bitset) (i : Nat) (h : i / CHAR_BIT < b.data.length) :
    pgmoneta_bitset_clear (some b) i =
      some ((0 : Int), some (bitset.mk b.input_size b.size (b.data.set (i / CHAR_BIT)
        ((b.data[i / CHAR_BIT] &&& (255 ^^^ 1 <<< (i % CHAR_BIT))) % 256)))) := by
  simp [pgmoneta_bitset_clear, List.getElem?_eq_getElem h]

/-! ## Properties of the drivers -/

theorem workflow_loop_head {σ : Type} (phase : workflow σ → σ → Int × σ) (ev : Nat → event)
    (current : workflow σ) (next : List (workflow σ)) (i : Nat) (w : σ) :
    ∃ rest, (workflow_loop phase ev (current :: next) i w).2.2 = ev i :: rest := by
  unfold workflow_loop
  by_cases h : (phase current w).1 = 0
  · simp [h]
  · simp [h]

/-- C1, evaluated on the code: with a valid, WAL-streaming server whose backup flag is false,
the compare-and-set succeeds; when the setup of the only stage returns 1 the driver sends
`MANAGEMENT_ERROR_BACKUP_SETUP`, exits with status 1 and leaves the backup flag true, while
the same run with a succeeding stage stores false before it exits. -/
theorem backup_flag_left_set_on_failure :
    ((config_of true true false).servers 0).backup = false ∧
    (pgmoneta_backup backup_calls_ok (config_of true true false) 0
        [const_stage 1 0 0] ()).calls =
      [event.mkdir, event.setup 0, event.response_error MANAGEMENT_ERROR_BACKUP_SETUP] ∧
    (pgmoneta_backup backup_calls_ok (config_of true true false) 0
        [const_stage 1 0 0] ()).exit_status = 1 ∧
    ((pgmoneta_backup backup_calls_ok (config_of true true false) 0
        [const_stage 1 0 0] ()).config.servers 0).backup = true ∧
    ((pgmoneta_backup backup_calls_ok (config_of true true false) 0
        [const_stage 0 0 0] ()).config.servers 0).backup = false := by
  decide

/-- C2, counterexample: on the chain of two stages in which the setup of stage 0 returns 0
and the setup of stage 1 returns 1, neither `pgmoneta_backup` nor `pgmoneta_delete_backup`
calls the teardown of stage 0. -/
theorem teardown_skipped_after_setup_failure :
    ((const_stage 0 0 0).setup ()).1 = 0 ∧ ((const_stage 1 0 0).setup ()).1 ≠ 0 ∧
    (pgmoneta_backup backup_calls_ok (config_of true true false) 0
        [const_stage 0 0 0, const_stage 1 0 0] ()).calls =
      [event.mkdir, event.setup 0, event.setup 1,
       event.response_error MANAGEMENT_ERROR_BACKUP_SETUP] ∧
    event.teardown 0 ∉ (pgmoneta_backup backup_calls_ok (config_of true true false) 0
        [const_stage 0 0 0, const_stage 1 0 0] ()).calls ∧
    (pgmoneta_delete_backup delete_calls_ok (config_of true true false) 0
        [const_stage 0 0 0, const_stage 1 0 0] ()).calls =
      [event.setup 0, event.setup 1, event.response_error MANAGEMENT_ERROR_DELETE_SETUP,
       event.response_error MANAGEMENT_ERROR_DELETE_ERROR] ∧
    event.teardown 0 ∉ (pgmoneta_delete_backup delete_calls_ok (config_of true true false) 0
        [const_stage 0 0 0, const_stage 1 0 0] ()).calls := by
  decide

/-- C2, as amended: when the first failing call of the chain is the setup or the execute of
stage `k`, `pgmoneta_backup` and `pgmoneta_delete_backup` call no later stage of that phase
and call no teardown at all. -/
theorem failure_in_setup_or_execute_ends_sweep {σ : Type} (envb : backup_calls σ)
    (envd : delete_calls σ) (config : configuration) (server : Nat)
    (wf : List (workflow σ)) (w : σ) (p : phase_kind) (k : Nat)
    (hp : p = phase_kind.setup ∨ p = phase_kind.execute)
    (hf : first_failing_call wf w = some (p, k)) :
    (∀ j, k < j → phase_event p j ∉ (pgmoneta_backup envb config server wf w).calls) ∧
    (∀ j, event.teardown j ∉ (pgmoneta_backup envb config server wf w).calls) ∧
    (∀ j, k < j → phase_event p j ∉ (pgmoneta_delete_backup envd config server wf w).calls) ∧
    (∀ j, event.teardown j ∉ (pgmoneta_delete_backup envd config server wf w).calls) := by
  have hb : (∀ j, k < j → phase_event p j ∉ (pgmoneta_backup envb config server wf w).calls) ∧
      (∀ j, event.teardown j ∉ (pgmoneta_backup envb config server wf w).calls) := by
    cases hv : (config.servers server).valid with
    | false =>
      rw [(backup_rejected_of_invalid envb config server wf w hv).1]
      rcases hp with rfl | rfl <;> simp [phase_event]
    | true =>
      cases hw : (config.servers server).wal_streaming with
      | false =>
        rw [(backup_rejected_of_no_wal envb config server wf w hv hw).1]
        rcases hp with rfl | rfl <;> simp [phase_event]
      | true =>
        cases hb : (config.servers server).backup with
        | true =>
          rw [(backup_rejected_of_active envb config server wf w hv hw hb).1]
          rcases hp with rfl | rfl <;> simp [phase_event]
        | false =>
          rw [(backup_run_of_failure envb config server wf w p k hv hw hb hf).1]
          rcases hp with rfl | rfl
          · simp only [phase_event, calls_until, backup_phase_error]
            constructor
            · intro j hj
              simp
              omega
            · intro j
              simp
          · simp only [phase_event, calls_until, backup_phase_error]
            constructor
            · intro j hj
              simp
              omega
            · intro j
              simp
  have hd : (∀ j, k < j →
        phase_event p j ∉ (pgmoneta_delete_backup envd config server wf w).calls) ∧
      (∀ j, event.teardown j ∉ (pgmoneta_delete_backup envd config server wf w).calls) := by
    by_cases hq : envd.deque_create = 0
    · rw [(delete_run_of_failure envd config server wf w p k hq hf).1]
      rcases hp with rfl | rfl
      · simp only [phase_event, calls_until, delete_phase_error]
        constructor
        · intro j hj
          simp
          omega
        · intro j
          simp
      · simp only [phase_event, calls_until, delete_phase_error]
        constructor
        · intro j hj
          simp
          omega
        · intro j
          simp
    · have hc : (pgmoneta_delete_backup envd config server wf w).calls =
          [event.response_error MANAGEMENT_ERROR_DELETE_ERROR] := by
        simp [pgmoneta_delete_backup, hq]
      rw [hc]
      rcases hp with rfl | rfl <;> simp [phase_event]
  exact ⟨hb.1, hb.2, hd.1, hd.2⟩

/-- C2, as amended, at a concrete chain: the setup of stage 1 of two stages fails. -/
theorem failure_in_setup_or_execute_ends_sweep_witness :
    (∀ j, 1 < j → phase_event phase_kind.setup j ∉
      (pgmoneta_backup backup_calls_ok (config_of true true false) 0
        [const_stage 0 0 0, const_stage 1 0 0] ()).calls) ∧
    (∀ j, event.teardown j ∉
      (pgmoneta_backup backup_calls_ok (config_of true true false) 0
        [const_stage 0 0 0, const_stage 1 0 0] ()).calls) ∧
    (∀ j, 1 < j → phase_event phase_kind.setup j ∉
      (pgmoneta_delete_backup delete_calls_ok (config_of true true false) 0
        [const_stage 0 0 0, const_stage 1 0 0] ()).calls) ∧
    (∀ j, event.teardown j ∉
      (pgmoneta_delete_backup delete_calls_ok (config_of true true false) 0
        [const_stage 0 0 0, const_stage 1 0 0] ()).calls) :=
  failure_in_setup_or_execute_ends_sweep backup_calls_ok delete_calls_ok
    (config_of true true false) 0 [const_stage 0 0 0, const_stage 1 0 0] ()
    phase_kind.setup 1 (Or.inl rfl) (by decide)

/-- C3: on a valid, WAL-streaming server whose backup flag was false, when no call of the
chain of n stages fails, the stage calls of `pgmoneta_backup` are exactly
setup 0..n-1, then execute 0..n-1, then teardown 0..n-1, that is 3n calls, made after the
mkdir and before the calls that build and send the response. -/
theorem backup_sweep_order {σ : Type} (env : backup_calls σ) (config : configuration)
    (server : Nat) (wf : List (workflow σ)) (w : σ)
    (hv : (config.servers server).valid = true)
    (hw : (config.servers server).wal_streaming = true)
    (hb : (config.servers server).backup = false)
    (hf : first_failing_call wf w = none) :
    (pgmoneta_backup env config server wf w).calls.filter event.is_phase_call =
        (List.range wf.length).map event.setup ++
          (List.range wf.length).map event.execute ++
          (List.range wf.length).map event.teardown ∧
      ((pgmoneta_backup env config server wf w).calls.filter event.is_phase_call).length =
        3 * wf.length ∧
      (∃ tail, (∀ e ∈ tail, e.is_phase_call = false) ∧
        (pgmoneta_backup env config server wf w).calls =
          event.mkdir :: ((List.range wf.length).map event.setup ++
            (List.range wf.length).map event.execute ++
            (List.range wf.length).map event.teardown ++ tail)) := by
  have hrun := (backup_run_of_no_failure env config server wf w hv hw hb hf).1
  have hfil : (pgmoneta_backup env config server wf w).calls.filter event.is_phase_call =
      (List.range wf.length).map event.setup ++
        (List.range wf.length).map event.execute ++
        (List.range wf.length).map event.teardown := by
    rw [hrun, List.filter_cons]
    simp only [event.is_phase_call, List.filter_append, filter_phase_calls_tail,
      (filter_phase_calls_map wf.length).1, (filter_phase_calls_map wf.length).2.1,
      (filter_phase_calls_map wf.length).2.2]
    simp
  refine ⟨hfil, ?_, ?_⟩
  · rw [hfil]
    simp
    omega
  · refine ⟨backup_tail env (pgmoneta_backup env config server wf w).world, ?_, hrun⟩
    intro e he
    have h0 := filter_phase_calls_tail env (pgmoneta_backup env config server wf w).world
    rw [List.filter_eq_nil_iff] at h0
    simpa using h0 e he

/-- C3 at a concrete chain of two stages whose calls all return 0. -/
theorem backup_sweep_order_witness :
    (pgmoneta_backup backup_calls_ok (config_of true true false) 0
        [const_stage 0 0 0, const_stage 0 0 0] ()).calls.filter event.is_phase_call =
        (List.range 2).map event.setup ++ (List.range 2).map event.execute ++
          (List.range 2).map event.teardown ∧
      ((pgmoneta_backup backup_calls_ok (config_of true true false) 0
        [const_stage 0 0 0, const_stage 0 0 0] ()).calls.filter event.is_phase_call).length =
        3 * 2 ∧
      (∃ tail, (∀ e ∈ tail, e.is_phase_call = false) ∧
        (pgmoneta_backup backup_calls_ok (config_of true true false) 0
          [const_stage 0 0 0, const_stage 0 0 0] ()).calls =
          event.mkdir :: ((List.range 2).map event.setup ++
            (List.range 2).map event.execute ++
            (List.range 2).map event.teardown ++ tail)) :=
  backup_sweep_order backup_calls_ok (config_of true true false) 0
    [const_stage 0 0 0, const_stage 0 0 0] () rfl rfl rfl (by decide)

/-- C4: on a valid, WAL-streaming server whose backup flag was false, when the first failing
call of the chain is phase `p` of stage `k`, `pgmoneta_backup` makes the calls up to that
one and no other stage call, then sends one error response, the only one of the run, whose
code is the SETUP, EXECUTE or TEARDOWN code of phase `p`, and exits with status 1. -/
theorem backup_first_failure_decides {σ : Type} (env : backup_calls σ)
    (config : configuration) (server : Nat) (wf : List (workflow σ)) (w : σ)
    (p : phase_kind) (k : Nat)
    (hv : (config.servers server).valid = true)
    (hw : (config.servers server).wal_streaming = true)
    (hb : (config.servers server).backup = false)
    (hf : first_failing_call wf w = some (p, k)) :
    (pgmoneta_backup env config server wf w).calls =
        event.mkdir :: (calls_until p k wf.length ++
          [event.response_error (backup_phase_error p)]) ∧
      (pgmoneta_backup env config server wf w).calls.filter event.is_response_error =
        [event.response_error (backup_phase_error p)] ∧
      (pgmoneta_backup env config server wf w).calls.filter event.is_phase_call =
        calls_until p k wf.length ∧
      (pgmoneta_backup env config server wf w).exit_status = 1 := by
  have hrun := backup_run_of_failure env config server wf w p k hv hw hb hf
  refine ⟨hrun.1, ?_, ?_, hrun.2.1⟩
  · rw [hrun.1, List.filter_cons, List.filter_append, filter_errors_calls_until]
    simp [event.is_response_error]
  · rw [hrun.1, List.filter_cons, List.filter_append]
    have h1 : (calls_until p k wf.length).filter event.is_phase_call =
        calls_until p k wf.length := by
      cases p <;>
        simp only [calls_until, List.filter_append, (filter_phase_calls_map _).1,
          (filter_phase_calls_map _).2.1, (filter_phase_calls_map _).2.2]
    rw [h1]
    simp [event.is_phase_call]

/-- C4 at a concrete chain: the execute of stage 1 of two stages fails. -/
theorem backup_first_failure_decides_witness :
    (pgmoneta_backup backup_calls_ok (config_of true true false) 0
        [const_stage 0 0 0, const_stage 0 5 0] ()).calls =
        event.mkdir :: (calls_until phase_kind.execute 1 2 ++
          [event.response_error (backup_phase_error phase_kind.execute)]) ∧
      (pgmoneta_backup backup_calls_ok (config_of true true false) 0
        [const_stage 0 0 0, const_stage 0 5 0] ()).calls.filter event.is_response_error =
        [event.response_error (backup_phase_error phase_kind.execute)] ∧
      (pgmoneta_backup backup_calls_ok (config_of true true false) 0
        [const_stage 0 0 0, const_stage 0 5 0] ()).calls.filter event.is_phase_call =
        calls_until phase_kind.execute 1 2 ∧
      (pgmoneta_backup backup_calls_ok (config_of true true false) 0
        [const_stage 0 0 0, const_stage 0 5 0] ()).exit_status = 1 :=
  backup_first_failure_decides backup_calls_ok (config_of true true false) 0
    [const_stage 0 0 0, const_stage 0 5 0] () phase_kind.execute 1 rfl rfl rfl (by decide)

/-- C5: `pgmoneta_backup` answers an invalid server with the single call
response_error(BACKUP_INVALID), a valid server that is not WAL streaming with the single call
response_error(BACKUP_WAL), and a valid, WAL-streaming server whose backup flag is already
true with the single call response_error(BACKUP_ACTIVE); it calls mkdir or a stage only for
a valid, WAL-streaming server whose backup flag was false, and for such a server mkdir is
its first call. -/
theorem backup_gate {σ : Type} (env : backup_calls σ) (config : configuration)
    (server : Nat) (wf : List (workflow σ)) (w : σ) :
    ((config.servers server).valid = false →
      (pgmoneta_backup env config server wf w).calls =
        [event.response_error MANAGEMENT_ERROR_BACKUP_INVALID]) ∧
    ((config.servers server).valid = true → (config.servers server).wal_streaming = false →
      (pgmoneta_backup env config server wf w).calls =
        [event.response_error MANAGEMENT_ERROR_BACKUP_WAL]) ∧
    ((config.servers server).valid = true → (config.servers server).wal_streaming = true →
      (config.servers server).backup = true →
      (pgmoneta_backup env config server wf w).calls =
        [event.response_error MANAGEMENT_ERROR_BACKUP_ACTIVE]) ∧
    ((event.mkdir ∈ (pgmoneta_backup env config server wf w).calls ∨
        ∃ e ∈ (pgmoneta_backup env config server wf w).calls, e.is_phase_call = true) →
      (config.servers server).valid = true ∧ (config.servers server).wal_streaming = true ∧
        (config.servers server).backup = false) ∧
    ((config.servers server).valid = true → (config.servers server).wal_streaming = true →
      (config.servers server).backup = false →
      (pgmoneta_backup env config server wf w).calls.head? = some event.mkdir) := by
  refine ⟨fun hv => (backup_rejected_of_invalid env config server wf w hv).1,
    fun hv hw => (backup_rejected_of_no_wal env config server wf w hv hw).1,
    fun hv hw hb => (backup_rejected_of_active env config server wf w hv hw hb).1, ?_, ?_⟩
  · intro h
    cases hv : (config.servers server).valid with
    | false =>
      rw [(backup_rejected_of_invalid env config server wf w hv).1] at h
      simp [event.is_phase_call] at h
    | true =>
      cases hw : (config.servers server).wal_streaming with
      | false =>
        rw [(backup_rejected_of_no_wal env config server wf w hv hw).1] at h
        simp [event.is_phase_call] at h
      | true =>
        cases hb : (config.servers server).backup with
        | true =>
          rw [(backup_rejected_of_active env config server wf w hv hw hb).1] at h
          simp [event.is_phase_call] at h
        | false => simp
  · intro hv hw hb
    cases hf : first_failing_call wf w with
    | none => rw [(backup_run_of_no_failure env config server wf w hv hw hb hf).1]; rfl
    | some pk =>
      obtain ⟨p, k⟩ := pk
      rw [(backup_run_of_failure env config server wf w p k hv hw hb hf).1]; rfl

/-- C6, counterexample: for a valid, WAL-streaming server whose backup flag is already true,
`pgmoneta_backup` sends the error response BACKUP_ACTIVE, sends no ok response, and exits
with status 0. -/
theorem backup_active_exits_zero :
    (pgmoneta_backup backup_calls_ok (config_of true true true) 0
        [const_stage 0 0 0] ()).calls =
      [event.response_error MANAGEMENT_ERROR_BACKUP_ACTIVE] ∧
    event.response_ok 0 ∉ (pgmoneta_backup backup_calls_ok (config_of true true true) 0
        [const_stage 0 0 0] ()).calls ∧
    (pgmoneta_backup backup_calls_ok (config_of true true true) 0
        [const_stage 0 0 0] ()).exit_status = 0 := by
  decide

/-- C6, as amended: `pgmoneta_backup` exits with status 0 or 1; the status is 0 exactly when
the ok response was sent (response_ok returned 0) or the run consisted of the rejection
BACKUP_ACTIVE alone, and it is 1 exactly when an error response with a code other than
BACKUP_ACTIVE was sent. -/
theorem backup_exit_status {σ : Type} (env : backup_calls σ) (config : configuration)
    (server : Nat) (wf : List (workflow σ)) (w : σ) :
    ((pgmoneta_backup env config server wf w).exit_status = 0 ∨
      (pgmoneta_backup env config server wf w).exit_status = 1) ∧
    ((pgmoneta_backup env config server wf w).exit_status = 0 ↔
      (event.response_ok 0 ∈ (pgmoneta_backup env config server wf w).calls ∨
        (pgmoneta_backup env config server wf w).calls =
          [event.response_error MANAGEMENT_ERROR_BACKUP_ACTIVE])) ∧
    ((pgmoneta_backup env config server wf w).exit_status = 1 ↔
      ∃ code, code ≠ MANAGEMENT_ERROR_BACKUP_ACTIVE ∧
        event.response_error code ∈ (pgmoneta_backup env config server wf w).calls) := by
  cases hv : (config.servers server).valid with
  | false =>
    obtain ⟨hc, he⟩ := backup_rejected_of_invalid env config server wf w hv
    rw [hc, he]
    simp
  | true =>
    cases hw : (config.servers server).wal_streaming with
    | false =>
      obtain ⟨hc, he⟩ := backup_rejected_of_no_wal env config server wf w hv hw
      rw [hc, he]
      simp
    | true =>
      cases hb : (config.servers server).backup with
      | true =>
        obtain ⟨hc, he⟩ := backup_rejected_of_active env config server wf w hv hw hb
        rw [hc, he]
        simp
      | false =>
        cases hf : first_failing_call wf w with
        | some pk =>
          obtain ⟨p, k⟩ := pk
          obtain ⟨hc, he, _⟩ := backup_run_of_failure env config server wf w p k hv hw hb hf
          rw [hc, he]
          cases p <;> simp [calls_until, backup_phase_error]
        | none =>
          obtain ⟨hc, he, h01⟩ := backup_run_of_no_failure env config server wf w hv hw hb hf
          refine ⟨h01, ?_, ?_⟩
          · rw [he, hc]
            clear hc he h01
            generalize (pgmoneta_backup env config server wf w).world = v
            unfold backup_tail
            split_ifs with h1 h2 h3
            · simp
            · simp
            · simp
              exact fun h => h3 h.symm
            · simp
          · have hne : (pgmoneta_backup env config server wf w).exit_status = 1 ↔
                ¬ (pgmoneta_backup env config server wf w).exit_status = 0 := by
              rcases h01 with h | h <;> simp [h]
            rw [hne, he, hc]
            clear hc he h01 hne
            generalize (pgmoneta_backup env config server wf w).world = v
            unfold backup_tail
            split_ifs with h1 h2 h3
            · simp
            · simp
            · simp
            · simp

/-- C7, counterexample: for a server that is not valid and whose busy flag is true,
`pgmoneta_delete_backup` calls every phase of the stage of a one-stage chain, sends the ok
response and exits with status 0; it sends no error response. -/
theorem delete_runs_for_invalid_busy_server :
    ((config_of false false true).servers 0).valid = false ∧
    ((config_of false false true).servers 0).backup = true ∧
    (pgmoneta_delete_backup delete_calls_ok (config_of false false true) 0
        [const_stage 0 0 0] ()).calls =
      [event.setup 0, event.execute 0, event.teardown 0, event.response_ok 0] ∧
    (pgmoneta_delete_backup delete_calls_ok (config_of false false true) 0
        [const_stage 0 0 0] ()).exit_status = 0 := by
  decide

/-- C7, as amended: `pgmoneta_delete_backup` reads no flag of the server and writes none.
Whatever the configuration, when the context deque was created its first call is the setup
of the first stage of the chain; when the deque could not be created it calls no stage, sends
DELETE_ERROR and exits with status 1; in every case the configuration is left as it was. -/
theorem delete_has_no_gate {σ : Type} (env : delete_calls σ) (config : configuration)
    (srv : Nat) (current : workflow σ) (next : List (workflow σ)) (w : σ) :
    (env.deque_create = 0 →
      (pgmoneta_delete_backup env config srv (current :: next) w).calls.head? =
        some (event.setup 0)) ∧
    (env.deque_create ≠ 0 →
      (pgmoneta_delete_backup env config srv (current :: next) w).calls =
          [event.response_error MANAGEMENT_ERROR_DELETE_ERROR] ∧
        (pgmoneta_delete_backup env config srv (current :: next) w).exit_status = 1) ∧
    (pgmoneta_delete_backup env config srv (current :: next) w).config = config := by
  refine ⟨?_, ?_, delete_config_unchanged env config srv _ w⟩
  · intro hd
    obtain ⟨rest, hrest⟩ := workflow_loop_head workflow.setup event.setup current next 0 w
    unfold pgmoneta_delete_backup
    simp only [hd, ne_eq, not_true_eq_false, if_false, hrest]
    repeat (first | rfl | split)
  · intro hd
    simp [pgmoneta_delete_backup, hd]

/-! ## Properties of the bitset -/

/-- C8, evaluated on the code: `pgmoneta_bitset_create(8192)` succeeds with one byte of
storage, so for the index 8, which is below the input size, the byte that set, clear and get
address lies outside the storage. -/
theorem bitset_access_outside_storage :
    pgmoneta_bitset_create 8192 true true =
      (0, some (bitset.mk 8192 1 [0])) ∧
    8 < 8192 ∧
    pgmoneta_bitset_set (pgmoneta_bitset_create 8192 true true).2 8 = none ∧
    pgmoneta_bitset_clear (pgmoneta_bitset_create 8192 true true).2 8 = none ∧
    pgmoneta_bitset_get (pgmoneta_bitset_create 8192 true true).2 8 = none := by
  decide

/-- C9, evaluated on the code: `pgmoneta_bitset_create(8192)` allocates 1 byte where
ceil(8192/8) is 1024, and `pgmoneta_bitset_create(16)` allocates 16 bytes where ceil(16/8)
is 2; get on the fresh bitset of input size 8192 at index 8 reads outside the storage. -/
theorem bitset_create_storage_size :
    (pgmoneta_bitset_create 8192 true true).2 =
      some (bitset.mk 8192 1 [0]) ∧
    (8192 + 7) / 8 = 1024 ∧
    (pgmoneta_bitset_create 16 true true).2 =
      some (bitset.mk 16 16 (List.replicate 16 0)) ∧
    (16 + 7) / 8 = 2 ∧
    pgmoneta_bitset_get (pgmoneta_bitset_create 8192 true true).2 8 ≠ some false := by
  decide

/-- C10, counterexample: on the bitset created with input size 12, set at index 12 returns 0
and changes the storage, get at index 12 is then true, and clear at index 12 returns 0. -/
theorem bitset_index_at_input_size_accepted :
    pgmoneta_bitset_create 12 true true =
      (0, some (bitset.mk 12 12 (List.replicate 12 0))) ∧
    pgmoneta_bitset_set (pgmoneta_bitset_create 12 true true).2 12 =
      some (0, some (bitset.mk 12 12
        [0, 16, 0, 0, 0, 0, 0, 0, 0, 0, 0, 0])) ∧
    pgmoneta_bitset_get (some (bitset.mk 12 12
        [0, 16, 0, 0, 0, 0, 0, 0, 0, 0, 0, 0])) 12 = some true ∧
    pgmoneta_bitset_clear (some (bitset.mk 12 12
        [0, 16, 0, 0, 0, 0, 0, 0, 0, 0, 0, 0])) 12 =
      some (0, some (bitset.mk 12 12 (List.replicate 12 0))) := by
  decide

/-- C10, as amended: set, clear and get compare the index with nothing. On a non-null bitset,
for every index whose byte index/8 lies inside the storage, whether or not the index is
below the input size, set and clear return 0 and leave input_size and size as they were, get
after set is true and get after clear is false. -/
theorem bitset_ops_ignore_input_size (b : bitset) (i : Nat)
    (h : i / CHAR_BIT < b.data.length) :
    ∃ b1 b2, pgmoneta_bitset_set (some b) i = some (0, some b1) ∧
      pgmoneta_bitset_get (some b1) i = some true ∧
      pgmoneta_bitset_clear (some b) i = some (0, some b2) ∧
      pgmoneta_bitset_get (some b2) i = some false ∧
      b1.input_size = b.input_size ∧ b1.size = b.size ∧
      b2.input_size = b.input_size ∧ b2.size = b.size := by
  have hk : i % CHAR_BIT < 8 := Nat.mod_lt _ (by decide)
  refine ⟨_, _, set_eq b i h, ?_, clear_eq b i h, ?_, rfl, rfl, rfl, rfl⟩
  · rw [get_eq_testBit]
    simp [h, set_byte_testBit _ _ _ hk]
  · rw [get_eq_testBit]
    simp [h, clear_byte_testBit _ _ _ hk]

/-- C10, as amended, at the bitset of input size 12 and the index 12. -/
theorem bitset_ops_ignore_input_size_witness :
    ∃ b1 b2, pgmoneta_bitset_set (some (bitset.mk 12 12
          (List.replicate 12 0))) 12 = some (0, some b1) ∧
      pgmoneta_bitset_get (some b1) 12 = some true ∧
      pgmoneta_bitset_clear (some (bitset.mk 12 12
          (List.replicate 12 0))) 12 = some (0, some b2) ∧
      pgmoneta_bitset_get (some b2) 12 = some false ∧
      b1.input_size = 12 ∧ b1.size = 12 ∧ b2.input_size = 12 ∧ b2.size = 12 :=
  bitset_ops_ignore_input_size (bitset.mk 12 12 (List.replicate 12 0))
    12 (by decide)

/-! ## JSON objects and the context -/

theorem get_item_put_item_eq (items : List (String × json)) (key : String) (v : json) :
    get_item (put_item items key v) key = some v := by
  induction items with
  | nil => simp [put_item, get_item]
  | cons kx rest ih =>
    obtain ⟨k, x⟩ := kx
    by_cases h : k = key
    · simp [put_item, get_item, h]
    · simp [put_item, get_item, h, ih]

theorem get_item_put_item_ne (items : List (String × json)) (key other : String) (v : json)
    (h : key ≠ other) : get_item (put_item items key v) other = get_item items other := by
  induction items with
  | nil => simp [put_item, get_item, h]
  | cons kx rest ih =>
    obtain ⟨k, x⟩ := kx
    by_cases hk : k = key
    · subst hk
      simp [put_item, get_item, h]
    · by_cases ho : k = other
      · subst ho
        simp [put_item, get_item, hk]
      · simp [put_item, get_item, hk, ho, ih]

theorem art_search_insert_eq (nodes : art) (key : String) (v : art_value) :
    pgmoneta_art_search (pgmoneta_art_insert nodes key v) key = some v := by
  induction nodes with
  | nil => simp [pgmoneta_art_insert, pgmoneta_art_search]
  | cons kx rest ih =>
    obtain ⟨k, x⟩ := kx
    by_cases h : k = key
    · simp [pgmoneta_art_insert, pgmoneta_art_search, h]
    · simp [pgmoneta_art_insert, pgmoneta_art_search, h, ih]

theorem art_search_insert_ne (nodes : art) (key other : String) (v : art_value)
    (h : key ≠ other) :
    pgmoneta_art_search (pgmoneta_art_insert nodes key v) other =
      pgmoneta_art_search nodes other := by
  induction nodes with
  | nil => simp [pgmoneta_art_insert, pgmoneta_art_search, h]
  | cons kx rest ih =>
    obtain ⟨k, x⟩ := kx
    by_cases hk : k = key
    · subst hk
      simp [pgmoneta_art_insert, pgmoneta_art_search, h]
    · by_cases ho : k = other
      · subst ho
        simp [pgmoneta_art_insert, pgmoneta_art_search, hk]
      · simp [pgmoneta_art_insert, pgmoneta_art_search, hk, ho, ih]

/-- C11: on a null bitset set and clear return 1 and get returns false, with no bitset to
touch; on a non-null bitset set and clear return no status other than 0, and they do return
0 whenever the byte they address lies inside the storage. -/
theorem bitset_null_and_status (i : Nat) :
    pgmoneta_bitset_set none i = some (1, none) ∧
    pgmoneta_bitset_clear none i = some (1, none) ∧
    pgmoneta_bitset_get none i = some false ∧
    (∀ b : bitset,
      (∀ r, pgmoneta_bitset_set (some b) i = some r → r.1 = 0) ∧
      (∀ r, pgmoneta_bitset_clear (some b) i = some r → r.1 = 0) ∧
      (i / CHAR_BIT < b.data.length →
        (∃ b1, pgmoneta_bitset_set (some b) i = some (0, some b1)) ∧
        (∃ b2, pgmoneta_bitset_clear (some b) i = some (0, some b2)))) := by
  refine ⟨rfl, rfl, rfl, fun b => ⟨?_, ?_, ?_⟩⟩
  · intro r hr
    simp only [pgmoneta_bitset_set] at hr
    cases hd : b.data[i / CHAR_BIT]? with
    | none => simp [hd] at hr
    | some c =>
      simp only [hd, Option.some.injEq] at hr
      rw [← hr]
  · intro r hr
    simp only [pgmoneta_bitset_clear] at hr
    cases hd : b.data[i / CHAR_BIT]? with
    | none => simp [hd] at hr
    | some c =>
      simp only [hd, Option.some.injEq] at hr
      rw [← hr]
  · intro h
    exact ⟨⟨_, set_eq b i h⟩, ⟨_, clear_eq b i h⟩⟩

/-! ## Properties of the verify job -/

theorem do_verify_of_missing (env : verify_env) (wi : worker_input)
    (h : env.file_exists (verify_file wi.data) = false) :
    do_verify env wi = (wi.failed, wi.all) := by
  simp [do_verify, h]

theorem do_verify_of_unsupported (env : verify_env) (wi : worker_input)
    (h : env.hash_file
      (json_int (pgmoneta_json_get (some wi.data) MANAGEMENT_ARGUMENT_HASH_ALGORITHM))
      (verify_file wi.data) = none) :
    do_verify env wi = (wi.failed, wi.all) := by
  simp only [do_verify, h]
  split_ifs <;> rfl

theorem do_verify_of_hash_error (env : verify_env) (wi : worker_input) (p : Option String)
    (he : env.file_exists (verify_file wi.data) = true)
    (h : env.hash_file
      (json_int (pgmoneta_json_get (some wi.data) MANAGEMENT_ARGUMENT_HASH_ALGORITHM))
      (verify_file wi.data) = some (hash_result.error p)) :
    ∃ doc, (pgmoneta_json_put (some wi.data) MANAGEMENT_ARGUMENT_CALCULATED
        (json.string (calculated_of p))).2 = some doc ∧
      do_verify env wi = (wi.failed ++ [(verify_file wi.data, doc)], wi.all) := by
  have hput : ∃ doc, (pgmoneta_json_put (some wi.data) MANAGEMENT_ARGUMENT_CALCULATED
      (json.string (calculated_of p))).2 = some doc := by
    unfold pgmoneta_json_put
    split <;> exact ⟨_, rfl⟩
  obtain ⟨doc, hdoc⟩ := hput
  refine ⟨doc, hdoc, ?_⟩
  simp only [calculated_of] at hdoc
  simp [do_verify, he, h, hdoc, pgmoneta_deque_add]

theorem do_verify_of_mismatch (env : verify_env) (wi : worker_input) (hc : String)
    (he : env.file_exists (verify_file wi.data) = true)
    (h : env.hash_file
      (json_int (pgmoneta_json_get (some wi.data) MANAGEMENT_ARGUMENT_HASH_ALGORITHM))
      (verify_file wi.data) = some (hash_result.ok hc))
    (hne : hc ≠ json_string (pgmoneta_json_get (some wi.data) MANAGEMENT_ARGUMENT_ORIGINAL)) :
    ∃ doc, (pgmoneta_json_put (some wi.data) MANAGEMENT_ARGUMENT_CALCULATED
        (json.string (calculated_of (some hc)))).2 = some doc ∧
      do_verify env wi = (wi.failed ++ [(verify_file wi.data, doc)], wi.all) := by
  have hput : ∃ doc, (pgmoneta_json_put (some wi.data) MANAGEMENT_ARGUMENT_CALCULATED
      (json.string (calculated_of (some hc)))).2 = some doc := by
    unfold pgmoneta_json_put
    split <;> exact ⟨_, rfl⟩
  obtain ⟨doc, hdoc⟩ := hput
  refine ⟨doc, hdoc, ?_⟩
  simp only [calculated_of] at hdoc
  simp [do_verify, he, h, hne, hdoc, pgmoneta_deque_add]

theorem do_verify_of_match (env : verify_env) (wi : worker_input) (hc : String)
    (he : env.file_exists (verify_file wi.data) = true)
    (h : env.hash_file
      (json_int (pgmoneta_json_get (some wi.data) MANAGEMENT_ARGUMENT_HASH_ALGORITHM))
      (verify_file wi.data) = some (hash_result.ok hc))
    (heq : hc = json_string (pgmoneta_json_get (some wi.data) MANAGEMENT_ARGUMENT_ORIGINAL)) :
    do_verify env wi =
      (wi.failed, wi.all.map (fun all => all ++ [(verify_file wi.data, wi.data)])) := by
  cases ha : wi.all with
  | none => simp [do_verify, he, h, ← heq, ha]
  | some all => simp [do_verify, he, h, ← heq, ha, pgmoneta_deque_add]

/-- C12, counterexample: for a row whose file is missing, with a supported hash algorithm,
`do_verify` leaves the `failed` deque as it was. -/
theorem verify_missing_file_not_recorded :
    (verify_env_example []).file_exists
        (verify_file (verify_job (verify_env_example []) "/t" ("missing", "h1"))) = false ∧
    ((verify_env_example []).hash_file 3
        (verify_file (verify_job (verify_env_example []) "/t" ("missing", "h1")))).isSome = true ∧
    do_verify (verify_env_example [])
        { data := verify_job (verify_env_example []) "/t" ("missing", "h1"),
          failed := [], all := some [] } = ([], some []) := by
  refine ⟨by decide, by decide, by rfl⟩

/-- C12, as amended: `do_verify` appends the row to the `failed` deque, as one entry under
the name of the file, if and only if the file exists and hashing it fails or gives a digest
other than the expected one; for a missing file (and for an unsupported algorithm) it
leaves the `failed` deque as it was. -/
theorem do_verify_failed_iff (env : verify_env) (wi : worker_input) :
    ((env.file_exists (verify_file wi.data) = true ∧ verify_fails env wi.data = true) →
      ∃ doc, do_verify env wi = (wi.failed ++ [(verify_file wi.data, doc)], wi.all)) ∧
    (¬ (env.file_exists (verify_file wi.data) = true ∧ verify_fails env wi.data = true) →
      (do_verify env wi).1 = wi.failed) ∧
    (env.file_exists (verify_file wi.data) = false → do_verify env wi = (wi.failed, wi.all)) := by
  refine ⟨?_, ?_, do_verify_of_missing env wi⟩
  · rintro ⟨he, hf⟩
    unfold verify_fails at hf
    cases hh : env.hash_file
        (json_int (pgmoneta_json_get (some wi.data) MANAGEMENT_ARGUMENT_HASH_ALGORITHM))
        (verify_file wi.data) with
    | none => simp [hh] at hf
    | some r =>
      cases r with
      | ok hc =>
        simp only [hh, decide_eq_true_eq] at hf
        obtain ⟨doc, _, hd⟩ := do_verify_of_mismatch env wi hc he hh hf
        exact ⟨doc, hd⟩
      | error p =>
        obtain ⟨doc, _, hd⟩ := do_verify_of_hash_error env wi p he hh
        exact ⟨doc, hd⟩
  · intro hn
    cases he : env.file_exists (verify_file wi.data) with
    | false => rw [do_verify_of_missing env wi he]
    | true =>
      have hf : ¬ verify_fails env wi.data = true := fun hf => hn ⟨he, hf⟩
      unfold verify_fails at hf
      cases hh : env.hash_file
          (json_int (pgmoneta_json_get (some wi.data) MANAGEMENT_ARGUMENT_HASH_ALGORITHM))
          (verify_file wi.data) with
      | none => rw [do_verify_of_unsupported env wi hh]
      | some r =>
        cases r with
        | ok hc =>
          simp only [hh, decide_eq_true_eq, not_not] at hf
          rw [do_verify_of_match env wi hc he hh hf]
        | error p => simp [hh] at hf

theorem verify_passes_not_fails (env : verify_env) (j : json)
    (h : verify_passes env j = true) : verify_fails env j = false := by
  unfold verify_passes at h
  unfold verify_fails
  cases hh : env.hash_file
      (json_int (pgmoneta_json_get (some j) MANAGEMENT_ARGUMENT_HASH_ALGORITHM))
      (verify_file j) with
  | none => rfl
  | some r =>
    cases r with
    | ok hc => simp_all
    | error p => simp [hh] at h

theorem do_verify_step (env : verify_env) (wi : worker_input) :
    do_verify env wi =
      (wi.failed ++ row_failed env wi.data,
       wi.all.map (fun all => all ++ row_passed env wi.data)) := by
  cases he : env.file_exists (verify_file wi.data) with
  | false =>
    rw [do_verify_of_missing env wi he]
    simp [row_failed, row_passed, he]
  | true =>
    cases hh : env.hash_file
        (json_int (pgmoneta_json_get (some wi.data) MANAGEMENT_ARGUMENT_HASH_ALGORITHM))
        (verify_file wi.data) with
    | none =>
      rw [do_verify_of_unsupported env wi hh]
      simp [row_failed, row_passed, he, verify_fails, verify_passes, hh]
    | some r =>
      cases r with
      | error p =>
        obtain ⟨doc, hdoc, hd⟩ := do_verify_of_hash_error env wi p he hh
        rw [hd]
        simp [row_failed, row_passed, he, verify_fails, verify_passes, hh,
          verify_calculated, hdoc]
      | ok hc =>
        by_cases heq : hc = json_string
            (pgmoneta_json_get (some wi.data) MANAGEMENT_ARGUMENT_ORIGINAL)
        · rw [do_verify_of_match env wi hc he hh heq]
          simp [row_failed, row_passed, he, verify_fails, verify_passes, hh, ← heq]
        · obtain ⟨doc, hdoc, hd⟩ := do_verify_of_mismatch env wi hc he hh heq
          rw [hd]
          simp [row_failed, row_passed, he, verify_fails, verify_passes, hh,
            verify_calculated, hdoc, heq]

/-- C13: for a job whose document carries Filename = path and Original = expected and whose
file exists, when hashing gives a digest h other than expected `do_verify` adds exactly one
entry to the `failed` deque, under the name of the file, whose document carries
Filename = path, Original = expected and Calculated = h, or `Unknown` when h is empty; when
hashing fails the entry carries Calculated = `Unknown` unless a non-empty digest was left. -/
theorem do_verify_mismatch_entry (env : verify_env) (items : List (String × json))
    (failed : deque) (all : Option deque) (path expected : String)
    (hp : get_item items MANAGEMENT_ARGUMENT_FILENAME = some (json.string path))
    (ho : get_item items MANAGEMENT_ARGUMENT_ORIGINAL = some (json.string expected))
    (he : env.file_exists (verify_file (json.object items)) = true) :
    (∀ h, env.hash_file (json_int (get_item items MANAGEMENT_ARGUMENT_HASH_ALGORITHM))
        (verify_file (json.object items)) = some (hash_result.ok h) → h ≠ expected →
      ∃ doc, do_verify env { data := json.object items, failed := failed, all := all } =
          (failed ++ [(verify_file (json.object items), doc)], all) ∧
        pgmoneta_json_get (some doc) MANAGEMENT_ARGUMENT_FILENAME = some (json.string path) ∧
        pgmoneta_json_get (some doc) MANAGEMENT_ARGUMENT_ORIGINAL =
          some (json.string expected) ∧
        pgmoneta_json_get (some doc) MANAGEMENT_ARGUMENT_CALCULATED =
          some (json.string (if h.length > 0 then h else "Unknown"))) ∧
    (∀ p, env.hash_file (json_int (get_item items MANAGEMENT_ARGUMENT_HASH_ALGORITHM))
        (verify_file (json.object items)) = some (hash_result.error p) →
      ∃ doc, do_verify env { data := json.object items, failed := failed, all := all } =
          (failed ++ [(verify_file (json.object items), doc)], all) ∧
        pgmoneta_json_get (some doc) MANAGEMENT_ARGUMENT_FILENAME = some (json.string path) ∧
        pgmoneta_json_get (some doc) MANAGEMENT_ARGUMENT_ORIGINAL =
          some (json.string expected) ∧
        pgmoneta_json_get (some doc) MANAGEMENT_ARGUMENT_CALCULATED =
          some (json.string (match p with
            | some h => if h.length > 0 then h else "Unknown"
            | none => "Unknown"))) := by
  have hcf : MANAGEMENT_ARGUMENT_CALCULATED ≠ MANAGEMENT_ARGUMENT_FILENAME := by decide
  have hco : MANAGEMENT_ARGUMENT_CALCULATED ≠ MANAGEMENT_ARGUMENT_ORIGINAL := by decide
  constructor
  · intro h hh hne
    have hne2 : h ≠ json_string (pgmoneta_json_get (some (json.object items))
        MANAGEMENT_ARGUMENT_ORIGINAL) := by
      simpa [pgmoneta_json_get, ho, json_string] using hne
    obtain ⟨doc, hdoc, hd⟩ := do_verify_of_mismatch env
      { data := json.object items, failed := failed, all := all } h he hh hne2
    simp only [pgmoneta_json_put, Option.some.injEq] at hdoc
    subst hdoc
    refine ⟨_, hd, ?_, ?_, ?_⟩
    · simpa [pgmoneta_json_get, get_item_put_item_ne _ _ _ _ hcf] using hp
    · simpa [pgmoneta_json_get, get_item_put_item_ne _ _ _ _ hco] using ho
    · simp [pgmoneta_json_get, get_item_put_item_eq, calculated_of]
  · intro p hh
    obtain ⟨doc, hdoc, hd⟩ := do_verify_of_hash_error env
      { data := json.object items, failed := failed, all := all } p he hh
    simp only [pgmoneta_json_put, Option.some.injEq] at hdoc
    subst hdoc
    refine ⟨_, hd, ?_, ?_, ?_⟩
    · simpa [pgmoneta_json_get, get_item_put_item_ne _ _ _ _ hcf] using hp
    · simpa [pgmoneta_json_get, get_item_put_item_ne _ _ _ _ hco] using ho
    · simp only [pgmoneta_json_get, get_item_put_item_eq, calculated_of]

/-- C13 at the job of the row (c, h2) under /t, whose file hashes to h1. -/
theorem do_verify_mismatch_entry_witness :
    ∃ doc, do_verify (verify_env_example [])
        { data := verify_job (verify_env_example []) "/t" ("c", "h2"),
          failed := [], all := none } =
        ([] ++ [(verify_file (verify_job (verify_env_example []) "/t" ("c", "h2")), doc)],
          none) ∧
      pgmoneta_json_get (some doc) MANAGEMENT_ARGUMENT_FILENAME = some (json.string "c") ∧
      pgmoneta_json_get (some doc) MANAGEMENT_ARGUMENT_ORIGINAL = some (json.string "h2") ∧
      pgmoneta_json_get (some doc) MANAGEMENT_ARGUMENT_CALCULATED =
        some (json.string (if "h1".length > 0 then "h1" else "Unknown")) :=
  (do_verify_mismatch_entry (verify_env_example [])
    [("Directory", json.string "/t"), ("Filename", json.string "c"),
     ("Original", json.string "h2"), ("HashAlgorithm", json.int32 3)]
    [] none "c" "h2" rfl rfl (by decide)).1 "h1" (by rfl) (by decide)

/-! ## Properties of the verify stage -/

theorem verify_loop_sync (env : verify_env) (target_base : String)
    (hw : ¬ env.number_of_workers > 0)
    (hc : ∀ i, env.create_worker_input i = 0 ∧ env.json_create i = 0)
    (rows : List (String × String)) (i : Nat) (failed : deque) (all : Option deque)
    (jobs : List json) :
    verify_loop env target_base rows i failed all jobs =
      some (failed ++ failed_entries env target_base rows,
        all.map (fun a => a ++ passed_entries env target_base rows),
        jobs ++ rows.map (verify_job env target_base)) := by
  induction rows generalizing i failed all jobs with
  | nil => simp [verify_loop, failed_entries, passed_entries]
  | cons row rest ih =>
    simp only [verify_loop, (hc i).1, (hc i).2, ne_eq, not_true_eq_false, if_false, hw,
      do_verify_step, ih, failed_entries, passed_entries]
    cases all <;> simp

theorem verify_loop_nil (env : verify_env) (target_base : String) (i : Nat) (failed : deque)
    (all : Option deque) (jobs : List json) :
    verify_loop env target_base [] i failed all jobs = some (failed, all, jobs) := rfl

theorem verify_execute_sync (env : verify_env) (nodes : art) (files : String)
    (hfiles : pgmoneta_art_search nodes NODE_FILES = some (art_value.string files))
    (hw : ¬ env.number_of_workers > 0)
    (hf : env.deque_create_failed = 0)
    (ha : strcasecmp files NODE_ALL = 0 → env.deque_create_all = 0)
    (hr : env.csv_reader_init = 0)
    (hc : ∀ i, env.create_worker_input i = 0 ∧ env.json_create i = 0) :
    verify_execute env nodes = some
      { status := 0, jobs := env.manifest.map (verify_job env (target_base_of nodes)),
        nodes := pgmoneta_art_insert
          (pgmoneta_art_insert nodes NODE_FAILED (art_value.deque
            (some (failed_entries env (target_base_of nodes) env.manifest))))
          NODE_ALL (art_value.deque
            (if strcasecmp files NODE_ALL = 0 then
              some (passed_entries env (target_base_of nodes) env.manifest)
             else none)) } := by
  unfold verify_execute
  simp only [hfiles, hf, hr, ne_eq, not_true_eq_false, if_false, hw,
    verify_loop_sync env _ hw hc]
  by_cases hall : strcasecmp files NODE_ALL = 0
  · simp [hall, ha hall]
  · simp [hall]

theorem run_jobs_eq (env : verify_env) (order : List json) (failed : deque)
    (all : Option deque) :
    run_jobs env order failed all =
      (failed ++ order.flatMap (row_failed env),
       all.map (fun a => a ++ order.flatMap (row_passed env))) := by
  induction order generalizing failed all with
  | nil => cases all <;> simp [run_jobs]
  | cons j rest ih =>
    simp only [run_jobs, do_verify_step, ih, List.flatMap_cons]
    cases all <;> simp

theorem run_jobs_congr (env1 env2 : verify_env) (h1 : env1.file_exists = env2.file_exists)
    (h2 : env1.hash_file = env2.hash_file) (order : List json) (failed : deque)
    (all : Option deque) :
    run_jobs env1 order failed all = run_jobs env2 order failed all := by
  have hd : ∀ wi, do_verify env1 wi = do_verify env2 wi := by
    intro wi
    simp only [do_verify, h1, h2]
  induction order generalizing failed all with
  | nil => rfl
  | cons j rest ih => simp only [run_jobs, hd, ih]

theorem failed_entries_flatMap (env : verify_env) (target_base : String)
    (rows : List (String × String)) :
    (rows.map (verify_job env target_base)).flatMap (row_failed env)
      = failed_entries env target_base rows := by
  induction rows with
  | nil => rfl
  | cons row rest ih => simp [failed_entries, List.flatMap_cons, ih]

theorem passed_entries_flatMap (env : verify_env) (target_base : String)
    (rows : List (String × String)) :
    (rows.map (verify_job env target_base)).flatMap (row_passed env)
      = passed_entries env target_base rows := by
  induction rows with
  | nil => rfl
  | cons row rest ih => simp [passed_entries, List.flatMap_cons, ih]

theorem verify_loop_workers (env : verify_env) (target_base : String)
    (hw : env.number_of_workers > 0)
    (hc : ∀ i, env.create_worker_input i = 0 ∧ env.json_create i = 0)
    (rows : List (String × String)) (i : Nat) (failed : deque) (all : Option deque)
    (jobs : List json) :
    verify_loop env target_base rows i failed all jobs =
      some (failed, all, jobs ++ rows.map (verify_job env target_base)) := by
  induction rows generalizing i jobs with
  | nil => simp [verify_loop]
  | cons row rest ih =>
    simp only [verify_loop, (hc i).1, (hc i).2, ne_eq, not_true_eq_false, if_false, hw,
      if_true, ih]
    simp

theorem verify_execute_workers (env : verify_env) (nodes : art) (files : String)
    (order : List json)
    (hfiles : pgmoneta_art_search nodes NODE_FILES = some (art_value.string files))
    (hw : env.number_of_workers > 0)
    (hf : env.deque_create_failed = 0)
    (ha : strcasecmp files NODE_ALL = 0 → env.deque_create_all = 0)
    (hr : env.csv_reader_init = 0)
    (hc : ∀ i, env.create_worker_input i = 0 ∧ env.json_create i = 0)
    (hp : env.pool (env.manifest.map (verify_job env (target_base_of nodes))) []
        (if strcasecmp files NODE_ALL = 0 then some [] else none)
      = (true, run_jobs env order []
        (if strcasecmp files NODE_ALL = 0 then some [] else none))) :
    verify_execute env nodes = some
      { status := 0, jobs := env.manifest.map (verify_job env (target_base_of nodes)),
        nodes := pgmoneta_art_insert
          (pgmoneta_art_insert nodes NODE_FAILED (art_value.deque
            (some (order.flatMap (row_failed env)))))
          NODE_ALL (art_value.deque
            (if strcasecmp files NODE_ALL = 0 then
              some (order.flatMap (row_passed env))
             else none)) } := by
  unfold verify_execute
  simp only [hfiles, hf, hr, ne_eq, not_true_eq_false, if_false, hw, if_true,
    verify_loop_workers env _ hw hc, List.nil_append]
  by_cases hall : strcasecmp files NODE_ALL = 0
  · rw [if_pos hall] at hp
    simp [hall, ha hall, hp, run_jobs_eq]
  · rw [if_neg hall] at hp
    simp [hall, hp, run_jobs_eq]

/-- C14: whenever the deques, the manifest reader and the records of every row are created,
and, when there are workers, the pool runs every job handed to it once in some order and
keeps its outcome true, `verify_execute` returns 0 and publishes under `all` a deque when
Files equals `all` up to case and `NULL` for any other value of Files. The `all` deque
holds one entry for each row whose file exists and hashes to the expected digest and
nothing else, the `failed` deque one entry for each row whose file exists and fails the
comparison and nothing else; without workers both are in the order of the rows. A row that
passes adds one entry to an `all` deque and none to `failed`, and without an `all` deque it
is recorded nowhere. -/
theorem verify_all_deque (env : verify_env) (nodes : art) (files : String)
    (hfiles : pgmoneta_art_search nodes NODE_FILES = some (art_value.string files))
    (hf : env.deque_create_failed = 0)
    (ha : strcasecmp files NODE_ALL = 0 → env.deque_create_all = 0)
    (hr : env.csv_reader_init = 0)
    (hc : ∀ i, env.create_worker_input i = 0 ∧ env.json_create i = 0)
    (hpool : env.number_of_workers > 0 → ∀ jobs failed all, ∃ order,
      List.Perm order jobs ∧ env.pool jobs failed all = (true, run_jobs env order failed all)) :
    (∃ r all_deque failed_deque, verify_execute env nodes = some r ∧ r.status = 0 ∧
      pgmoneta_art_search r.nodes NODE_ALL = some (art_value.deque
        (if to_lower files = to_lower "all" then some all_deque else none)) ∧
      pgmoneta_art_search r.nodes NODE_FAILED = some (art_value.deque (some failed_deque)) ∧
      List.Perm all_deque (passed_entries env (target_base_of nodes) env.manifest) ∧
      List.Perm failed_deque (failed_entries env (target_base_of nodes) env.manifest) ∧
      (¬ env.number_of_workers > 0 →
        all_deque = passed_entries env (target_base_of nodes) env.manifest ∧
        failed_deque = failed_entries env (target_base_of nodes) env.manifest)) ∧
    (∀ (wi : worker_input), env.file_exists (verify_file wi.data) = true →
      verify_passes env wi.data = true →
      row_passed env wi.data = [(verify_file wi.data, wi.data)] ∧
      row_failed env wi.data = [] ∧
      do_verify env wi =
        (wi.failed, wi.all.map (fun a => a ++ [(verify_file wi.data, wi.data)]))) := by
  have hcase : (strcasecmp files NODE_ALL = 0) ↔ (to_lower files = to_lower "all") := by
    simp only [strcasecmp, NODE_ALL]
    by_cases h : to_lower files = to_lower "all"
    · simp [h]
    · simp [h]
  constructor
  · by_cases hw : env.number_of_workers > 0
    · obtain ⟨order, hperm, hp⟩ := hpool hw
        (env.manifest.map (verify_job env (target_base_of nodes))) []
        (if strcasecmp files NODE_ALL = 0 then some [] else none)
      refine ⟨_, order.flatMap (row_passed env), order.flatMap (row_failed env),
        verify_execute_workers env nodes files order hfiles hw hf ha hr hc hp, rfl,
        ?_, ?_, ?_, ?_, fun h => absurd hw h⟩
      · rw [art_search_insert_eq]
        by_cases h : to_lower files = to_lower "all"
        · simp [h, hcase.mpr h]
        · simp [h, mt hcase.mp h]
      · rw [art_search_insert_ne _ _ _ _ (by decide), art_search_insert_eq]
      · rw [← passed_entries_flatMap]
        exact List.Perm.flatMap_right _ hperm
      · rw [← failed_entries_flatMap]
        exact List.Perm.flatMap_right _ hperm
    · refine ⟨_, passed_entries env (target_base_of nodes) env.manifest,
        failed_entries env (target_base_of nodes) env.manifest,
        verify_execute_sync env nodes files hfiles hw hf ha hr hc, rfl, ?_, ?_,
        List.Perm.refl _, List.Perm.refl _, fun _ => ⟨rfl, rfl⟩⟩
      · rw [art_search_insert_eq]
        by_cases h : to_lower files = to_lower "all"
        · simp [h, hcase.mpr h]
        · simp [h, mt hcase.mp h]
      · rw [art_search_insert_ne _ _ _ _ (by decide), art_search_insert_eq]
  · intro wi he hp
    have hnf := verify_passes_not_fails env wi.data hp
    have h1 : row_passed env wi.data = [(verify_file wi.data, wi.data)] := by
      simp [row_passed, he, hp]
    have h2 : row_failed env wi.data = [] := by
      simp [row_failed, hnf]
    refine ⟨h1, h2, ?_⟩
    rw [do_verify_step, h1, h2]
    simp

/-- C14 at a manifest of four rows, of which the first and the last pass, with Files = ALL
and two workers whose pool runs the jobs in reverse order. -/
theorem verify_all_deque_witness :
    ∃ r all_deque failed_deque,
      verify_execute
        (verify_env_workers [("a", "h1"), ("c", "h2"), ("missing", "h1"), ("b", "h1")])
        [("files", art_value.string "ALL"), ("target_base", art_value.string "/t")] = some r ∧
      r.status = 0 ∧
      pgmoneta_art_search r.nodes NODE_ALL = some (art_value.deque
        (if to_lower "ALL" = to_lower "all" then some all_deque else none)) ∧
      pgmoneta_art_search r.nodes NODE_FAILED = some (art_value.deque (some failed_deque)) ∧
      List.Perm all_deque
        (passed_entries
          (verify_env_workers [("a", "h1"), ("c", "h2"), ("missing", "h1"), ("b", "h1")])
          (target_base_of
            [("files", art_value.string "ALL"), ("target_base", art_value.string "/t")])
          (verify_env_workers
            [("a", "h1"), ("c", "h2"), ("missing", "h1"), ("b", "h1")]).manifest) ∧
      List.Perm failed_deque
        (failed_entries
          (verify_env_workers [("a", "h1"), ("c", "h2"), ("missing", "h1"), ("b", "h1")])
          (target_base_of
            [("files", art_value.string "ALL"), ("target_base", art_value.string "/t")])
          (verify_env_workers
            [("a", "h1"), ("c", "h2"), ("missing", "h1"), ("b", "h1")]).manifest) ∧
      (¬ (verify_env_workers
          [("a", "h1"), ("c", "h2"), ("missing", "h1"), ("b", "h1")]).number_of_workers > 0 →
        all_deque = passed_entries
          (verify_env_workers [("a", "h1"), ("c", "h2"), ("missing", "h1"), ("b", "h1")])
          (target_base_of
            [("files", art_value.string "ALL"), ("target_base", art_value.string "/t")])
          (verify_env_workers
            [("a", "h1"), ("c", "h2"), ("missing", "h1"), ("b", "h1")]).manifest ∧
        failed_deque = failed_entries
          (verify_env_workers [("a", "h1"), ("c", "h2"), ("missing", "h1"), ("b", "h1")])
          (target_base_of
            [("files", art_value.string "ALL"), ("target_base", art_value.string "/t")])
          (verify_env_workers
            [("a", "h1"), ("c", "h2"), ("missing", "h1"), ("b", "h1")]).manifest) :=
  (verify_all_deque
    (verify_env_workers [("a", "h1"), ("c", "h2"), ("missing", "h1"), ("b", "h1")])
    [("files", art_value.string "ALL"), ("target_base", art_value.string "/t")] "ALL"
    rfl rfl (fun _ => rfl) rfl (fun _ => ⟨rfl, rfl⟩)
    (fun _ jobs failed all => ⟨jobs.reverse, List.reverse_perm jobs,
      congrArg (fun p => (true, p))
        (run_jobs_congr (verify_env_example _) (verify_env_workers _) rfl rfl
          jobs.reverse failed all)⟩)).1

/-- C15: in synchronous mode, whenever the deques, the manifest reader and the records of
every row are created, `verify_execute` returns 0, whatever the manifest and whatever the
outcome for each file, and publishes the `failed` deque under the key `failed`. -/
theorem verify_execute_never_fails_on_files (env : verify_env) (nodes : art) (files : String)
    (hfiles : pgmoneta_art_search nodes NODE_FILES = some (art_value.string files))
    (hw : env.number_of_workers = 0)
    (hf : env.deque_create_failed = 0)
    (ha : strcasecmp files NODE_ALL = 0 → env.deque_create_all = 0)
    (hr : env.csv_reader_init = 0)
    (hc : ∀ i, env.create_worker_input i = 0 ∧ env.json_create i = 0) :
    ∃ r, verify_execute env nodes = some r ∧ r.status = 0 ∧
      pgmoneta_art_search r.nodes NODE_FAILED = some (art_value.deque
        (some (failed_entries env (target_base_of nodes) env.manifest))) ∧
      r.jobs.length = env.manifest.length := by
  have hw2 : ¬ env.number_of_workers > 0 := by omega
  refine ⟨_, verify_execute_sync env nodes files hfiles hw2 hf ha hr hc, rfl, ?_, ?_⟩
  · rw [art_search_insert_ne _ _ _ _ (by decide), art_search_insert_eq]
  · simp

/-- C15 at a manifest with a passing row, a mismatch, a file that cannot be hashed and a
missing file. -/
theorem verify_execute_never_fails_on_files_witness :
    ∃ r, verify_execute
        (verify_env_example [("a", "h1"), ("c", "h2"), ("unreadable", "h1"), ("missing", "h1")])
        [("files", art_value.string "failed"), ("target_base", art_value.string "/t")] =
          some r ∧
      r.status = 0 ∧
      pgmoneta_art_search r.nodes NODE_FAILED = some (art_value.deque
        (some (failed_entries
          (verify_env_example [("a", "h1"), ("c", "h2"), ("unreadable", "h1"), ("missing", "h1")])
          (target_base_of
            [("files", art_value.string "failed"), ("target_base", art_value.string "/t")])
          (verify_env_example
            [("a", "h1"), ("c", "h2"), ("unreadable", "h1"), ("missing", "h1")]).manifest))) ∧
      r.jobs.length =
        (verify_env_example
          [("a", "h1"), ("c", "h2"), ("unreadable", "h1"), ("missing", "h1")]).manifest.length :=
  verify_execute_never_fails_on_files
    (verify_env_example [("a", "h1"), ("c", "h2"), ("unreadable", "h1"), ("missing", "h1")])
    [("files", art_value.string "failed"), ("target_base", art_value.string "/t")] "failed"
    rfl rfl rfl (fun _ => rfl) rfl (fun _ => ⟨rfl, rfl⟩)

/-- C16, counterexample: for a manifest with no rows and Files = failed, `verify_execute`
returns 0 and publishes an empty `failed` deque, but under `all` it publishes `NULL`, not an
empty deque. -/
theorem verify_empty_manifest_all_is_null :
    ∃ r, verify_execute (verify_env_example [])
        [("files", art_value.string "failed"), ("target_base", art_value.string "/t")] =
          some r ∧
      r.status = 0 ∧ r.jobs = [] ∧
      pgmoneta_art_search r.nodes NODE_FAILED = some (art_value.deque (some [])) ∧
      pgmoneta_art_search r.nodes NODE_ALL = some (art_value.deque none) :=
  ⟨_, rfl, rfl, rfl, rfl, rfl⟩

/-- C16, as amended: for a manifest with no rows, when the deques and the manifest reader
are created (and, with workers, the pool that received no job reports no failure and leaves
the deques alone), `verify_execute` returns 0, creates no job, publishes an empty `failed`
deque, and publishes under `all` an empty deque when Files equals `all` up to case and `NULL`
otherwise. -/
theorem verify_empty_manifest (env : verify_env) (nodes : art) (files : String)
    (hfiles : pgmoneta_art_search nodes NODE_FILES = some (art_value.string files))
    (hm : env.manifest = [])
    (hf : env.deque_create_failed = 0)
    (ha : strcasecmp files NODE_ALL = 0 → env.deque_create_all = 0)
    (hr : env.csv_reader_init = 0)
    (hpool : env.number_of_workers > 0 → ∀ all, env.pool [] [] all = (true, [], all)) :
    ∃ r, verify_execute env nodes = some r ∧ r.status = 0 ∧ r.jobs = [] ∧
      pgmoneta_art_search r.nodes NODE_FAILED = some (art_value.deque (some [])) ∧
      pgmoneta_art_search r.nodes NODE_ALL = some (art_value.deque
        (if to_lower files = to_lower "all" then some [] else none)) := by
  have hexec : verify_execute env nodes = some
      { status := 0, jobs := [],
        nodes := pgmoneta_art_insert
          (pgmoneta_art_insert nodes NODE_FAILED (art_value.deque (some [])))
          NODE_ALL (art_value.deque (if strcasecmp files NODE_ALL = 0 then some [] else none)) } := by
    unfold verify_execute
    simp only [hfiles, hf, hr, hm, ne_eq, not_true_eq_false, if_false, verify_loop_nil]
    by_cases hall : strcasecmp files NODE_ALL = 0
    · by_cases hw : env.number_of_workers > 0
      · simp [hall, ha hall, hw, hpool hw]
      · simp [hall, ha hall, hw]
    · by_cases hw : env.number_of_workers > 0
      · simp [hall, hw, hpool hw]
      · simp [hall, hw]
  refine ⟨_, hexec, rfl, rfl, ?_, ?_⟩
  · rw [art_search_insert_ne _ _ _ _ (by decide), art_search_insert_eq]
  · rw [art_search_insert_eq]
    simp only [strcasecmp, NODE_ALL]
    by_cases h : to_lower files = to_lower "all"
    · simp [h]
    · simp [h]

/-- C16, as amended, at Files = All. -/
theorem verify_empty_manifest_witness :
    ∃ r, verify_execute (verify_env_example [])
        [("files", art_value.string "All"), ("target_base", art_value.string "/t")] =
          some r ∧
      r.status = 0 ∧ r.jobs = [] ∧
      pgmoneta_art_search r.nodes NODE_FAILED = some (art_value.deque (some [])) ∧
      pgmoneta_art_search r.nodes NODE_ALL = some (art_value.deque
        (if to_lower "All" = to_lower "all" then some [] else none)) :=
  verify_empty_manifest (verify_env_example [])
    [("files", art_value.string "All"), ("target_base", art_value.string "/t")] "All"
    rfl rfl rfl (fun _ => rfl) rfl (fun h => absurd h (by decide))

/-! ## Properties of the link stage -/

theorem next_newest_loop_spec (backups : List backup) (m : Int) (c : Nat) :
    (next_newest_loop backups m c = -1 ∧
      ∀ k, k < c → ¬ ∃ b, backups[k]? = some b ∧ b.valid = validity.VALID_TRUE ∧
        b.major_version = m) ∨
    (∃ j : Nat, next_newest_loop backups m c = (j : Int) ∧ j < c ∧
      (∃ b, backups[j]? = some b ∧ b.valid = validity.VALID_TRUE ∧ b.major_version = m) ∧
      ∀ k, j < k → k < c → ¬ ∃ b, backups[k]? = some b ∧ b.valid = validity.VALID_TRUE ∧
        b.major_version = m) := by
  induction c with
  | zero =>
    left
    exact ⟨rfl, fun k hk => absurd hk (Nat.not_lt_zero k)⟩
  | succ j ih =>
    cases hb : backups[j]? with
    | none =>
      have hstep : next_newest_loop backups m (j + 1) = next_newest_loop backups m j := by
        simp [next_newest_loop, hb]
      rw [hstep]
      rcases ih with ⟨h1, h2⟩ | ⟨i, h1, h2, h3, h4⟩
      · left
        refine ⟨h1, fun k hk => ?_⟩
        by_cases hkj : k = j
        · subst hkj
          simp [hb]
        · exact h2 k (by omega)
      · right
        refine ⟨i, h1, by omega, h3, fun k hik hk => ?_⟩
        by_cases hkj : k = j
        · subst hkj
          simp [hb]
        · exact h4 k hik (by omega)
    | some b =>
      by_cases hq : b.valid = validity.VALID_TRUE ∧ b.major_version = m
      · right
        refine ⟨j, by simp [next_newest_loop, hb, hq], by omega, ⟨b, hb, hq.1, hq.2⟩, ?_⟩
        intro k hjk hk
        omega
      · have hstep : next_newest_loop backups m (j + 1) = next_newest_loop backups m j := by
          simp only [next_newest_loop, hb]
          rw [if_neg hq]
        rw [hstep]
        rcases ih with ⟨h1, h2⟩ | ⟨i, h1, h2, h3, h4⟩
        · left
          refine ⟨h1, fun k hk => ?_⟩
          by_cases hkj : k = j
          · subst hkj
            rintro ⟨b2, hb2, hv⟩
            rw [hb] at hb2
            cases hb2
            exact hq hv
          · exact h2 k (by omega)
        · right
          refine ⟨i, h1, by omega, h3, fun k hik hk => ?_⟩
          by_cases hkj : k = j
          · subst hkj
            rintro ⟨b2, hb2, hv⟩
            rw [hb] at hb2
            cases hb2
            exact hq hv
          · exact h4 k hik (by omega)

theorem link_execute_cases (env : link_env) (label : String) (backups : List backup) :
    ((link_execute env label backups).next_newest = -1 ∧
      (backups.length < 2 ∨ ∀ k, k + 2 ≤ backups.length → ¬ compatible backups k) ∧
      (link_execute env label backups).calls = [] ∧
      (link_execute env label backups).status = 0) ∨
    (∃ j : Nat, (link_execute env label backups).next_newest = (j : Int) ∧
      j + 2 ≤ backups.length ∧ compatible backups j ∧
      (∀ k, j < k → k + 2 ≤ backups.length → ¬ compatible backups k) ∧
      ∃ previous rest, backups[j]? = some previous ∧
        (link_execute env label backups).calls =
          link_call.compare_manifests previous.label label ::
            link_call.link_manifest label previous.label :: rest) := by
  by_cases hn : backups.length ≥ 2
  · have hlast : backups.length - 1 < backups.length := by omega
    have hnew : backups[backups.length - 1]? = some (backups[backups.length - 1]) :=
      List.getElem?_eq_getElem hlast
    have hcompat : ∀ k, compatible backups k ↔
        ∃ b, backups[k]? = some b ∧ b.valid = validity.VALID_TRUE ∧
          b.major_version = (backups[backups.length - 1]).major_version := by
      intro k
      constructor
      · rintro ⟨b, newest, hb, hnw, hv, hm⟩
        rw [hnew] at hnw
        cases hnw
        exact ⟨b, hb, hv, hm⟩
      · rintro ⟨b, hb, hv, hm⟩
        exact ⟨b, _, hb, hnew, hv, hm⟩
    rcases next_newest_loop_spec backups (backups[backups.length - 1]).major_version
        (backups.length - 1) with ⟨h1, h2⟩ | ⟨j, h1, h2, h3, h4⟩
    · left
      have hres : link_execute env label backups =
          { status := 0, next_newest := -1, calls := [] } := by
        simp [link_execute, hn, hnew, h1]
      rw [hres]
      refine ⟨rfl, Or.inr ?_, rfl, rfl⟩
      intro k hk hc
      exact h2 k (by omega) ((hcompat k).1 hc)
    · right
      obtain ⟨previous, hprev, hv, hm⟩ := h3
      have hne : (j : Int) ≠ -1 := by omega
      refine ⟨j, ?_, by omega, (hcompat j).2 ⟨previous, hprev, hv, hm⟩, ?_, ?_⟩
      · simp only [link_execute, hn, if_true, hnew, h1, hne, ne_eq, not_false_eq_true,
          Int.toNat_ofNat, hprev]
        split_ifs <;> rfl
      · intro k hjk hk hc
        exact h4 k hjk (by omega) ((hcompat k).1 hc)
      · simp only [link_execute, hn, if_true, hnew, h1, hne, ne_eq, not_false_eq_true,
          Int.toNat_ofNat, hprev]
        split_ifs
        · exact ⟨previous, _, rfl, rfl⟩
        · exact ⟨previous, _, rfl, rfl⟩
  · left
    have hres : link_execute env label backups =
        { status := 0, next_newest := -1, calls := [] } := by
      simp [link_execute, hn]
    rw [hres]
    exact ⟨rfl, Or.inl (by omega), rfl, rfl⟩

/-- C17: `link_execute` selects as predecessor the greatest index j <= n-2 whose backup is
valid and has the major version of the last backup, and its first calls compare the
manifests of that backup and of the new one and link the new one against it; when there is
no such index, or fewer than two backups, it selects none (-1), makes no call (no comparison,
no link, no write of LINKING_ELAPSED) and returns 0. -/
theorem link_execute_predecessor (env : link_env) (label : String) (backups : List backup) :
    (∀ j : Nat, j + 2 ≤ backups.length → compatible backups j →
      (∀ k, j < k → k + 2 ≤ backups.length → ¬ compatible backups k) →
      (link_execute env label backups).next_newest = (j : Int) ∧
      ∃ previous rest, backups[j]? = some previous ∧
        (link_execute env label backups).calls =
          link_call.compare_manifests previous.label label ::
            link_call.link_manifest label previous.label :: rest) ∧
    ((backups.length < 2 ∨ ∀ k, k + 2 ≤ backups.length → ¬ compatible backups k) →
      (link_execute env label backups).next_newest = -1 ∧
      (link_execute env label backups).calls = [] ∧
      (link_execute env label backups).status = 0) ∧
    (∀ j : Nat, (link_execute env label backups).next_newest = (j : Int) →
      j + 2 ≤ backups.length ∧ compatible backups j) := by
  refine ⟨?_, ?_, ?_⟩
  · intro j hj hc hmax
    rcases link_execute_cases env label backups with ⟨_, h2, _, _⟩ | ⟨i, h1, h2, h3, h4, h5⟩
    · rcases h2 with h2 | h2
      · omega
      · exact absurd hc (h2 j hj)
    · have hij : i = j := by
        rcases Nat.lt_trichotomy i j with h | h | h
        · exact absurd hc (h4 j h hj)
        · exact h
        · exact absurd h3 (hmax i h h2)
      subst hij
      exact ⟨h1, h5⟩
  · intro hnone
    rcases link_execute_cases env label backups with ⟨h1, _, h3, h4⟩ | ⟨i, _, h2, h3, _, _⟩
    · exact ⟨h1, h3, h4⟩
    · rcases hnone with h | h
      · omega
      · exact absurd h3 (h i h2)
  · intro j hj
    rcases link_execute_cases env label backups with ⟨h1, _, _, _⟩ | ⟨i, h1, h2, h3, _, _⟩
    · rw [h1] at hj
      omega
    · rw [h1] at hj
      have : i = j := by omega
      subst this
      exact ⟨h2, h3⟩

/-! ## Properties of the clustering responses -/

/-- C18, evaluated on the code: for a request payload holding Header and Request, with every
creation and every write succeeding, `pgmoneta_clustering_response_get_id` writes one
document holding the four categories, while `pgmoneta_clustering_response_get_servers` and
`pgmoneta_clustering_response_get_backups` each write one document that holds Header,
Request and Response and no Outcome. -/
theorem clustering_response_categories :
    categories request_example = (true, true, false, false) ∧
    (pgmoneta_clustering_response_get_id (clustering_env_example []) []
        request_example).written.map categories = [(true, true, true, true)] ∧
    (pgmoneta_clustering_response_get_servers (clustering_env_example []) []
        request_example).written.map categories = [(true, true, true, false)] ∧
    (pgmoneta_clustering_response_get_backups (clustering_env_example []) []
        request_example).written.map categories = [(true, true, true, false)] := by
  refine ⟨by rfl, by rfl, by rfl, by rfl⟩

/-- C19, evaluated on the code: for a `NULL` payload and every error code,
`pgmoneta_clustering_response_error` returns 0 when its two documents are created, and the
payload of the caller is still `NULL` and carries no Outcome: the Outcome went into a
document that only the parameter of `create_outcome_failure` points to. For a payload that
is a JSON object the two functions do return 0 with the Outcome under the payload. -/
theorem clustering_response_error_null_payload (error : Int) :
    pgmoneta_clustering_response_error 0 0 none error = (0, none) ∧
    pgmoneta_json_get (pgmoneta_clustering_response_error 0 0 none error).2
      CLUSTERING_CATEGORY_OUTCOME = none ∧
    pgmoneta_json_get (create_outcome_failure 0 0 none error).2.2
      CLUSTERING_CATEGORY_OUTCOME =
        some (json.object [(CLUSTERING_ARGUMENT_STATUS, json.boolean false),
          (CLUSTERING_ARGUMENT_ERROR, json.int32 error)]) ∧
    (∀ items : List (String × json),
      (pgmoneta_clustering_response_error 0 0 (some (json.object items)) error).1 = 0 ∧
      pgmoneta_json_get
        (pgmoneta_clustering_response_error 0 0 (some (json.object items)) error).2
        CLUSTERING_CATEGORY_OUTCOME =
          some (json.object [(CLUSTERING_ARGUMENT_STATUS, json.boolean false),
            (CLUSTERING_ARGUMENT_ERROR, json.int32 error)])) ∧
    (∀ (σ : Type) (env : clustering_env σ) (items : List (String × json))
        (start_time end_time : Int),
      (pgmoneta_clustering_response_ok env 0 (some (json.object items))
        start_time end_time).1 = 0 ∧
      pgmoneta_json_get
        (pgmoneta_clustering_response_ok env 0 (some (json.object items))
          start_time end_time).2
        CLUSTERING_CATEGORY_OUTCOME =
          some (json.object [(CLUSTERING_ARGUMENT_STATUS, json.boolean true),
            (CLUSTERING_ARGUMENT_TIME,
              json.string (env.get_timestamp_string start_time end_time))])) := by
  refine ⟨rfl, rfl, ?_, ?_, ?_⟩
  · simp [create_outcome_failure, pgmoneta_json_put, pgmoneta_json_get, put_item, get_item,
      CLUSTERING_ARGUMENT_STATUS, CLUSTERING_ARGUMENT_ERROR]
  · intro items
    simp [pgmoneta_clustering_response_error, create_outcome_failure, pgmoneta_json_put,
      pgmoneta_json_get, get_item_put_item_eq, put_item, CLUSTERING_ARGUMENT_STATUS,
      CLUSTERING_ARGUMENT_ERROR]
  · intro σ env items start_time end_time
    simp [pgmoneta_clustering_response_ok, create_outcome_success, pgmoneta_json_put,
      pgmoneta_json_get, get_item_put_item_eq, put_item, CLUSTERING_ARGUMENT_STATUS,
      CLUSTERING_ARGUMENT_TIME]

/-- C20: for a document whose compact serialisation is s, `pgmoneta_clustering_write_json`
passes to `write_complete`, in this order and stopping at the first one that fails, the byte
0 (compression), the byte 0 (encryption), the 4-byte buffer holding the length of s as a
32-bit unsigned value, and the bytes of s; it returns 0 if and only if the four writes
completed, and 1 otherwise. -/
theorem write_json_frame {σ : Type} (env : clustering_env σ) (conn : σ) (j : Option json)
    (s : List Nat) (hs : env.json_to_string j = some s) :
    ((pgmoneta_clustering_write_json env conn j).status = 0 ↔
      ((env.write_complete conn [0]).1 = 0 ∧
       (env.write_complete (env.write_complete conn [0]).2 [0]).1 = 0 ∧
       (env.write_complete (env.write_complete (env.write_complete conn [0]).2 [0]).2
         (env.write_uint32 (s.length % 2 ^ 32))).1 = 0 ∧
       (env.write_complete
         (env.write_complete (env.write_complete (env.write_complete conn [0]).2 [0]).2
           (env.write_uint32 (s.length % 2 ^ 32))).2 s).1 = 0)) ∧
    ((pgmoneta_clustering_write_json env conn j).status = 0 ∨
      (pgmoneta_clustering_write_json env conn j).status = 1) ∧
    ((pgmoneta_clustering_write_json env conn j).status = 0 →
      (pgmoneta_clustering_write_json env conn j).writes =
        [[0], [0], env.write_uint32 (s.length % 2 ^ 32), s] ∧
      (pgmoneta_clustering_write_json env conn j).conn =
        (env.write_complete
          (env.write_complete (env.write_complete (env.write_complete conn [0]).2 [0]).2
            (env.write_uint32 (s.length % 2 ^ 32))).2 s).2) ∧
    (pgmoneta_clustering_write_json env conn j).writes <+:
      [[0], [0], env.write_uint32 (s.length % 2 ^ 32), s] ∧
    (s.length < 2 ^ 32 →
      env.write_uint32 (s.length % 2 ^ 32) = env.write_uint32 s.length) := by
  have hlen : s.length < 2 ^ 32 →
      env.write_uint32 (s.length % 2 ^ 32) = env.write_uint32 s.length := by
    intro h
    rw [Nat.mod_eq_of_lt h]
  refine ⟨?_, ?_, ?_, ?_, hlen⟩ <;>
    simp only [pgmoneta_clustering_write_json, write_uint8, write_string, hs,
      CLUSTERING_COMPRESSION_NONE, CLUSTERING_ENCRYPTION_NONE, Nat.zero_mod] <;>
    generalize env.write_uint32 (s.length % 2 ^ 32) = b3 <;>
    by_cases h1 : (env.write_complete conn [0]).1 = 0 <;>
    by_cases h2 : (env.write_complete (env.write_complete conn [0]).2 [0]).1 = 0 <;>
    by_cases h3 : (env.write_complete
      (env.write_complete (env.write_complete conn [0]).2 [0]).2 b3).1 = 0 <;>
    by_cases h4 : (env.write_complete
      (env.write_complete (env.write_complete (env.write_complete conn [0]).2 [0]).2
        b3).2 s).1 = 0 <;>
    simp [h1, h2, h3, h4, List.prefix_iff_eq_take]

/-- C20 at the serialisation (123, 125) on a connection where every write completes: the
bytes on the wire are 0, 0, the big-endian length 2 and the two bytes. -/
theorem write_json_frame_witness :
    (pgmoneta_clustering_write_json (clustering_env_example [123, 125]) []
        request_example).status = 0 ∧
    (pgmoneta_clustering_write_json (clustering_env_example [123, 125]) []
        request_example).conn = [0, 0, 0, 0, 0, 2, 123, 125] ∧
    (pgmoneta_clustering_write_json (clustering_env_example [123, 125]) []
        request_example).writes = [[0], [0], [0, 0, 0, 2], [123, 125]] :=
  have h := write_json_frame (clustering_env_example [123, 125]) [] request_example
    [123, 125] rfl
  ⟨h.1.2 ⟨rfl, rfl, rfl, rfl⟩, (h.2.2.1 (h.1.2 ⟨rfl, rfl, rfl, rfl⟩)).2,
    (h.2.2.1 (h.1.2 ⟨rfl, rfl, rfl, rfl⟩)).1⟩

/-! ## Properties of read_complete and write_complete -/

theorem read_loop_short (results : List read_outcome) :
    ∀ offset needs retries attempts, all_short needs results = true →
      (retries + results.length ≤ 100 →
        (read_complete_loop results offset needs retries attempts).status = none ∧
        (read_complete_loop results offset needs retries attempts).attempts =
          attempts + results.length) ∧
      (retries ≤ 100 → 100 < retries + results.length →
        (read_complete_loop results offset needs retries attempts).status = some 1 ∧
        (read_complete_loop results offset needs retries attempts).attempts =
          attempts + (101 - retries)) := by
  induction results with
  | nil =>
    intro offset needs retries attempts _
    refine ⟨fun _ => ⟨rfl, rfl⟩, fun h1 h2 => ?_⟩
    simp at h2
    omega
  | cons outcome rest ih =>
    intro offset needs retries attempts hs
    cases outcome with
    | again => simp [all_short] at hs
    | error => simp [all_short] at hs
    | bytes available =>
      simp only [all_short, Bool.and_eq_true, decide_eq_true_eq] at hs
      obtain ⟨hlt, hrest⟩ := hs
      have hmin : min available needs = available := Nat.min_eq_left (Nat.le_of_lt hlt)
      have ih2 := ih (offset + available) (needs - available) (retries + 1) (attempts + 1) hrest
      constructor
      · intro hle
        simp only [List.length_cons] at hle
        have hr : retries < 100 := by omega
        simp only [read_complete_loop, hmin, hlt, hr, if_true]
        obtain ⟨h1, h2⟩ := ih2.1 (by omega)
        refine ⟨h1, ?_⟩
        rw [h2]
        simp only [List.length_cons]
        omega
      · intro hle hgt
        simp only [List.length_cons] at hgt
        by_cases hr : retries < 100
        · simp only [read_complete_loop, hmin, hlt, hr, if_true]
          obtain ⟨h1, h2⟩ := ih2.2 (by omega) (by omega)
          refine ⟨h1, ?_⟩
          rw [h2]
          omega
        · have hr2 : retries = 100 := by omega
          subst hr2
          simp [read_complete_loop, hmin, hlt]

theorem read_loop_total (results : List read_outcome) :
    ∀ offset needs retries attempts,
      (read_complete_loop results offset needs retries attempts).status = some 0 →
      (read_complete_loop results offset needs retries attempts).total = offset + needs := by
  induction results with
  | nil =>
    intro offset needs retries attempts h
    simp [read_complete_loop] at h
  | cons outcome rest ih =>
    intro offset needs retries attempts h
    cases outcome with
    | error => simp [read_complete_loop] at h
    | again =>
      simp only [read_complete_loop] at h ⊢
      exact ih _ _ _ _ h
    | bytes available =>
      simp only [read_complete_loop] at h ⊢
      by_cases hlt : min available needs < needs
      · by_cases hr : retries < 100
        · simp only [hlt, hr, if_true] at h ⊢
          rw [ih _ _ _ _ h]
          omega
        · simp [hlt, hr] at h
      · simp only [hlt, if_false]
        have : min available needs ≤ needs := Nat.min_le_right _ _
        omega

/-- C21, counterexample: for a buffer of one byte and reads that each bring no byte, which
are all short, `read_complete` makes 101 reads before it returns the error; after 100 short
reads it is about to read again. -/
theorem read_complete_makes_101_reads :
    all_short 1 (List.replicate 101 (read_outcome.bytes 0)) = true ∧
    read_complete 1 (List.replicate 101 (read_outcome.bytes 0)) =
      { status := some 1, attempts := 101, total := 0 } ∧
    read_complete 1 (List.replicate 100 (read_outcome.bytes 0)) =
      { status := none, attempts := 100, total := 0 } := by
  decide

/-- C21, as amended: for every size and every sequence of short reads, `read_complete` has
not returned after 100 reads or fewer and returns the error 1 at read 101 (the first
attempt and 100 retries); and for every sequence of read results, it returns 0 only with the
bytes accumulated equal to the requested size. -/
theorem read_complete_short_reads (size : Nat) (results : List read_outcome)
    (hs : all_short size results = true) :
    (results.length ≤ 100 →
      (read_complete size results).status = none ∧
      (read_complete size results).attempts = results.length) ∧
    (101 ≤ results.length →
      (read_complete size results).status = some 1 ∧
      (read_complete size results).attempts = 101) ∧
    (∀ n (any : List read_outcome), (read_complete n any).status = some 0 →
      (read_complete n any).total = n) := by
  have h := read_loop_short results 0 size 0 0 hs
  refine ⟨?_, ?_, ?_⟩
  · intro hle
    obtain ⟨h1, h2⟩ := h.1 (by omega)
    exact ⟨h1, by simpa using h2⟩
  · intro hge
    obtain ⟨h1, h2⟩ := h.2 (by omega) (by omega)
    exact ⟨h1, by simpa using h2⟩
  · intro n any h0
    have := read_loop_total any 0 n 0 0 h0
    simpa [read_complete] using this

/-- C21, as amended, at a buffer of 200 bytes and 150 reads of one byte each. -/
theorem read_complete_short_reads_witness :
    (150 ≤ 100 →
      (read_complete 200 (List.replicate 150 (read_outcome.bytes 1))).status = none ∧
      (read_complete 200 (List.replicate 150 (read_outcome.bytes 1))).attempts =
        (List.replicate 150 (read_outcome.bytes 1)).length) ∧
    (101 ≤ (List.replicate 150 (read_outcome.bytes 1)).length →
      (read_complete 200 (List.replicate 150 (read_outcome.bytes 1))).status = some 1 ∧
      (read_complete 200 (List.replicate 150 (read_outcome.bytes 1))).attempts = 101) ∧
    (∀ n (any : List read_outcome), (read_complete n any).status = some 0 →
      (read_complete n any).total = n) :=
  have h := read_complete_short_reads 200 (List.replicate 150 (read_outcome.bytes 1))
    (by decide)
  ⟨fun h0 => absurd h0 (by decide), h.2.1, h.2.2⟩

theorem write_socket_loop_total (results : List write_outcome) :
    ∀ size totalbytes remaining attempts, totalbytes + remaining = size →
      (write_socket_loop results size totalbytes remaining attempts).status = some 0 →
      (write_socket_loop results size totalbytes remaining attempts).total = size := by
  induction results with
  | nil =>
    intro size totalbytes remaining attempts _ h
    simp [write_socket_loop] at h
  | cons outcome rest ih =>
    intro size totalbytes remaining attempts hinv h
    cases outcome with
    | error => simp [write_socket_loop] at h
    | again =>
      simp only [write_socket_loop] at h ⊢
      exact ih _ _ _ _ hinv h
    | written accepted =>
      simp only [write_socket_loop] at h ⊢
      have hle : min accepted remaining ≤ remaining := Nat.min_le_right _ _
      by_cases h1 : min accepted remaining = size
      · simp only [h1, if_true]
        omega
      · by_cases h2 : totalbytes + min accepted remaining = size
        · simp only [h1, h2, if_true, if_false]
        · simp only [h1, h2, if_false] at h ⊢
          exact ih _ _ _ _ (by omega) h

theorem write_ssl_loop_total (results : List ssl_outcome) :
    ∀ size totalbytes remaining keep attempts, totalbytes + remaining = size →
      (write_ssl_loop results size totalbytes remaining keep attempts).status = some 0 →
      (write_ssl_loop results size totalbytes remaining keep attempts).total = size := by
  induction results with
  | nil =>
    intro size totalbytes remaining keep attempts _ h
    simp [write_ssl_loop] at h
  | cons outcome rest ih =>
    intro size totalbytes remaining keep attempts hinv h
    cases outcome with
    | want =>
      simp only [write_ssl_loop, Bool.not_true, Bool.false_eq_true, if_false] at h ⊢
      exact ih _ _ _ _ _ hinv h
    | fatal => simp [write_ssl_loop] at h
    | other =>
      cases keep with
      | false => simp [write_ssl_loop] at h
      | true =>
        simp only [write_ssl_loop, Bool.not_true, Bool.false_eq_true, if_false] at h ⊢
        exact ih _ _ _ _ _ hinv h
    | written accepted =>
      simp only [write_ssl_loop] at h ⊢
      have hle : min accepted remaining ≤ remaining := Nat.min_le_right _ _
      by_cases h1 : min accepted remaining = size
      · simp only [h1, if_true]
        omega
      · by_cases h0 : min accepted remaining > 0
        · by_cases h2 : totalbytes + min accepted remaining = size
          · simp only [h1, h0, h2, if_true, if_false]
          · simp only [h1, h0, h2, if_true, if_false] at h ⊢
            exact ih _ _ _ _ _ (by omega) h
        · cases keep with
          | false => simp [h1, h0] at h
          | true =>
            simp only [h1, h0, if_false, Bool.not_true, Bool.false_eq_true] at h ⊢
            exact ih _ _ _ _ _ hinv h

theorem write_socket_loop_again (n : Nat) (rest : List write_outcome) :
    ∀ size totalbytes remaining attempts,
      write_socket_loop (List.replicate n write_outcome.again ++ rest) size totalbytes
          remaining attempts =
        write_socket_loop rest size totalbytes remaining (attempts + n) := by
  induction n with
  | zero => intro size totalbytes remaining attempts; rfl
  | succ n ih =>
    intro size totalbytes remaining attempts
    have e : attempts + 1 + n = attempts + (n + 1) := by omega
    rw [List.replicate_succ, List.cons_append]
    show write_socket_loop (List.replicate n write_outcome.again ++ rest) size totalbytes
      remaining (attempts + 1) = _
    rw [ih, e]

theorem write_ssl_loop_want_step (l : List ssl_outcome) (size totalbytes remaining : Nat)
    (keep : Bool) (attempts : Nat) :
    write_ssl_loop (ssl_outcome.want :: l) size totalbytes remaining keep attempts =
      write_ssl_loop l size totalbytes remaining true (attempts + 1) := by
  simp [write_ssl_loop]

theorem write_ssl_loop_want_kept (n : Nat) (rest : List ssl_outcome) :
    ∀ size totalbytes remaining attempts,
      write_ssl_loop (List.replicate n ssl_outcome.want ++ rest) size totalbytes
          remaining true attempts =
        write_ssl_loop rest size totalbytes remaining true (attempts + n) := by
  induction n with
  | zero => intro size totalbytes remaining attempts; rfl
  | succ n ih =>
    intro size totalbytes remaining attempts
    have e : attempts + 1 + n = attempts + (n + 1) := by omega
    rw [List.replicate_succ, List.cons_append, write_ssl_loop_want_step, ih, e]

theorem write_ssl_loop_want (n : Nat) (rest : List ssl_outcome) :
    ∀ size totalbytes remaining keep attempts,
      write_ssl_loop (List.replicate (n + 1) ssl_outcome.want ++ rest) size totalbytes
          remaining keep attempts =
        write_ssl_loop rest size totalbytes remaining true (attempts + (n + 1)) := by
  intro size totalbytes remaining keep attempts
  have e : attempts + 1 + n = attempts + (n + 1) := by omega
  rw [List.replicate_succ, List.cons_append, write_ssl_loop_want_step,
    write_ssl_loop_want_kept, e]

/-- C22, counterexample: for a buffer of one byte, after 101 writes that each would block
`write_socket` has not returned and is about to write again, and so has `write_ssl` after
101 writes that each ask to be retried; the same holds for 101 writes of no byte. -/
theorem write_complete_still_writing_after_101 :
    write_complete 1 (List.replicate 101 write_outcome.again) none =
      { status := none, attempts := 101, total := 0 } ∧
    write_complete 1 (List.replicate 101 (write_outcome.written 0)) none =
      { status := none, attempts := 101, total := 0 } ∧
    write_complete 1 [] (some (List.replicate 101 ssl_outcome.want)) =
      { status := none, attempts := 101, total := 0 } := by
  decide

/-- C22, as amended: `write_complete` (`write_socket` and `write_ssl`) has no bound on its
attempts: after any number n of writes that would block (or, with SSL, ask to be retried) it
has not returned and writes again; it returns 1 at the first write that fails otherwise and
returns 0 at the write that completes the buffer; and for every sequence of write results it
returns 0 only with the total number of bytes written equal to the requested size. -/
theorem write_complete_unbounded (n size : Nat) :
    write_complete size (List.replicate n write_outcome.again) none =
      { status := none, attempts := n, total := 0 } ∧
    write_complete size [] (some (List.replicate n ssl_outcome.want)) =
      { status := none, attempts := n, total := 0 } ∧
    write_complete size (List.replicate n write_outcome.again ++ [write_outcome.error]) none =
      { status := some 1, attempts := n + 1, total := 0 } ∧
    write_complete size [] (some (List.replicate n ssl_outcome.want ++ [ssl_outcome.fatal])) =
      { status := some 1, attempts := n + 1, total := 0 } ∧
    write_complete size
        (List.replicate n write_outcome.again ++ [write_outcome.written size]) none =
      { status := some 0, attempts := n + 1, total := size } ∧
    write_complete size []
        (some (List.replicate n ssl_outcome.want ++ [ssl_outcome.written size])) =
      { status := some 0, attempts := n + 1, total := size } ∧
    (∀ (results : List write_outcome) (ssl : Option (List ssl_outcome)),
      (write_complete size results ssl).status = some 0 →
      (write_complete size results ssl).total = size) := by
  have hs0 : ∀ rest : List write_outcome,
      write_socket size (List.replicate n write_outcome.again ++ rest) =
        write_socket_loop rest size 0 size n := by
    intro rest
    simp [write_socket, write_socket_loop_again]
  have hw0 : ∀ rest : List ssl_outcome,
      write_ssl size (List.replicate n ssl_outcome.want ++ rest) =
        write_ssl_loop rest size 0 size (decide (0 < n)) n := by
    intro rest
    cases n with
    | zero => simp [write_ssl]
    | succ m => simp [write_ssl, write_ssl_loop_want]
  refine ⟨?_, ?_, ?_, ?_, ?_, ?_, ?_⟩
  · have := hs0 []
    simpa [write_complete, write_socket_loop] using this
  · have := hw0 []
    simpa [write_complete, write_ssl_loop] using this
  · simp [write_complete, hs0, write_socket_loop]
  · simp [write_complete, hw0, write_ssl_loop]
  · simp [write_complete, hs0, write_socket_loop]
  · simp [write_complete, hw0, write_ssl_loop]
  · intro results ssl h
    cases ssl with
    | none => exact write_socket_loop_total results size 0 size 0 (by omega) h
    | some r => exact write_ssl_loop_total r size 0 size false 0 (by omega) h

/-- C22, as amended, at a buffer of 5 bytes and 3 writes that would block before a write
of the whole buffer. -/
theorem write_complete_unbounded_witness :
    write_complete 5
        (List.replicate 3 write_outcome.again ++ [write_outcome.written 5]) none =
      { status := some 0, attempts := 3 + 1, total := 5 } :=
  (write_complete_unbounded 3 5).2.2.2.2.1

/-! ## `pgmoneta_list_backup` on an array in which no backup follows a `NULL` entry -/

theorem list_backup_entry_label (env : list_backup_env) (i : Nat) (b : backup_info)
    (previous : Option (Option backup_info)) (hp : previous ≠ some none)
    (hc : env.json_create i = 0) :
    ∃ j, list_backup_entry env i b previous = some (some j) ∧
      json_string (pgmoneta_json_get (some j) MANAGEMENT_ARGUMENT_BACKUP) = b.label := by
  cases previous with
  | none =>
    simp [list_backup_entry, hc, pgmoneta_json_put, pgmoneta_json_get, put_item, get_item,
      json_string, MANAGEMENT_ARGUMENT_SERVER,
      MANAGEMENT_ARGUMENT_BACKUP, MANAGEMENT_ARGUMENT_KEEP, MANAGEMENT_ARGUMENT_VALID,
      MANAGEMENT_ARGUMENT_BACKUP_SIZE, MANAGEMENT_ARGUMENT_RESTORE_SIZE,
      MANAGEMENT_ARGUMENT_COMMENTS, MANAGEMENT_ARGUMENT_WAL]
  | some before =>
    cases before with
    | none => exact absurd rfl hp
    | some before =>
      simp [list_backup_entry, hc, pgmoneta_json_put, pgmoneta_json_get, put_item, get_item,
        json_string, MANAGEMENT_ARGUMENT_SERVER,
        MANAGEMENT_ARGUMENT_BACKUP, MANAGEMENT_ARGUMENT_KEEP, MANAGEMENT_ARGUMENT_VALID,
        MANAGEMENT_ARGUMENT_BACKUP_SIZE, MANAGEMENT_ARGUMENT_RESTORE_SIZE,
        MANAGEMENT_ARGUMENT_COMMENTS, MANAGEMENT_ARGUMENT_WAL]

theorem list_backup_loop_nulls (env : list_backup_env) (k i : Nat)
    (previous : Option (Option backup_info)) (jl : List json) :
    list_backup_loop env (List.replicate k none) i previous jl = list_loop_result.entries jl := by
  induction k generalizing i previous with
  | zero => simp [list_backup_loop]
  | succ k ih => simp [List.replicate_succ, list_backup_loop, ih]

theorem list_backup_loop_labels (env : list_backup_env) (hc : ∀ i, env.json_create i = 0)
    (ha : ∀ i, env.deque_add i = 0) (k : Nat) (bs : List backup_info) (i : Nat)
    (previous : Option (Option backup_info)) (hp : previous ≠ some none) (jl : List json) :
    ∃ js, list_backup_loop env (bs.map some ++ List.replicate k none) i previous jl
        = list_loop_result.entries (jl ++ js) ∧
      js.map (fun e => json_string (pgmoneta_json_get (some e) MANAGEMENT_ARGUMENT_BACKUP))
        = bs.map (fun b => b.label) := by
  induction bs generalizing i previous jl with
  | nil => exact ⟨[], by simp [list_backup_loop_nulls], by simp⟩
  | cons b rest ih =>
    obtain ⟨j, hj, hl⟩ := list_backup_entry_label env i b previous hp (hc i)
    obtain ⟨js, h1, h2⟩ := ih (i + 1) (some (some b)) (by simp) (jl ++ [j])
    refine ⟨j :: js, ?_, ?_⟩
    · simp only [List.map_cons, List.cons_append, list_backup_loop, hj, ha i]
      simpa using h1
    · simp [hl, h2]

theorem append_all_array (xs js : List json) :
    append_all (some (json.array xs)) js = some (json.array (xs ++ js)) := by
  induction js generalizing xs with
  | nil => simp [append_all]
  | cons j rest ih => simp [append_all, pgmoneta_json_append, ih]

theorem append_all_fresh (j : json) (rest : List json) :
    append_all (some (json.object [])) (j :: rest) = some (json.array (j :: rest)) := by
  simp [append_all, pgmoneta_json_append, append_all_array]

/-- For an array of backups followed by `NULL` entries only, when every call succeeds,
`pgmoneta_list_backup` sends one success response whose `Response.Backups` carries the
labels of the backups in their order, with a true `Outcome.Status`, and exits with 0. -/
theorem list_backup_labels (env : list_backup_env) (items : List (String × json))
    (bs : List backup_info) (k : Nat)
    (h1 : env.deque_create = 0)
    (h2 : env.get_backups = (0, bs.map some ++ List.replicate k none))
    (h3 : ∀ i, env.json_create i = 0) (h4 : ∀ i, env.deque_add i = 0)
    (h5 : env.management_create_response = 0) (h6 : env.json_create_backups = 0)
    (h7 : env.deque_iterator_create = 0) (h8 : ∀ d, env.management_response_ok d = 0) :
    (pgmoneta_list_backup env (some (json.object items))).map
        (fun r => (r.exit_status, r.events.length, (ok_documents r).map backups_labels,
          (ok_documents r).map outcome_status))
      = some (0, 1, [some (bs.map (fun b => b.label))], [some (json.boolean true)]) := by
  obtain ⟨js, hloop, hlabels⟩ :=
    list_backup_loop_labels env h3 h4 k bs 0 none (by simp) []
  have hro : MANAGEMENT_CATEGORY_RESPONSE ≠ MANAGEMENT_CATEGORY_OUTCOME := by decide
  have hsb : MANAGEMENT_ARGUMENT_SERVER ≠ MANAGEMENT_ARGUMENT_BACKUPS := by decide
  simp only [List.nil_append] at hloop
  cases js with
  | nil =>
    have hbs : bs = [] := by simpa using hlabels.symm
    subst hbs
    simp only [pgmoneta_list_backup, h1, h2, hloop, h5, h6, h7, h8,
      pgmoneta_management_create_response, append_all]
    simp [ok_documents, backups_labels, outcome_status, management_ok_document,
      json_put_under, pgmoneta_json_put,
      pgmoneta_json_get, get_item_put_item_eq, get_item_put_item_ne, hro, hro.symm, hsb,
      put_item, get_item, MANAGEMENT_ARGUMENT_STATUS, MANAGEMENT_ARGUMENT_TIME]
  | cons j rest =>
    simp only [pgmoneta_list_backup, h1, h2, hloop, h5, h6, h7, h8,
      pgmoneta_management_create_response, append_all_fresh]
    simp [ok_documents, backups_labels, outcome_status, management_ok_document,
      json_put_under, pgmoneta_json_put,
      pgmoneta_json_get, get_item_put_item_eq, get_item_put_item_ne, hro, hro.symm, hsb,
      put_item, get_item, MANAGEMENT_ARGUMENT_STATUS, MANAGEMENT_ARGUMENT_TIME]
    simpa using hlabels

/-! ## C23: `pgmoneta_list_backup` -/

/-- C23: `pgmoneta_list_backup` does not answer every array of backups. The loop skips an
entry `backups[i]` that is `NULL`, but for the next backup it reads
`&backups[i - 1]->wal[0]` without that test: for the array `[NULL, b]` the function goes
through the `NULL` entry and sends no response. Where no backup follows a `NULL` entry it
sends one success response whose `Response.Backups` holds the labels of the backups in
their order: none for an empty array, with a true `Outcome.Status` and exit status 0. -/
theorem list_backup_null_entry_before_backup :
    (pgmoneta_list_backup
      (list_backup_env_example [none, some (backup_info_example "20240102" "0002")])
      list_payload_example).isNone = true ∧
    (pgmoneta_list_backup (list_backup_env_example []) list_payload_example).map
        (fun r => (r.exit_status, r.events.length, (ok_documents r).map backups_labels))
      = some (0, 1, [some []]) ∧
    (pgmoneta_list_backup (list_backup_env_example []) list_payload_example).map
        (fun r => (ok_documents r).map outcome_status)
      = some [some (json.boolean true)] ∧
    (pgmoneta_list_backup
      (list_backup_env_example [some (backup_info_example "20240101" "0001"),
        some (backup_info_example "20240102" "0002")])
      list_payload_example).map
        (fun r => (r.exit_status, r.events.length, (ok_documents r).map backups_labels))
      = some (0, 1, [some ["20240101", "20240102"]]) ∧
    (pgmoneta_list_backup
      (list_backup_env_example [some (backup_info_example "20240101" "0001"), none])
      list_payload_example).map
        (fun r => (r.exit_status, r.events.length, (ok_documents r).map backups_labels))
      = some (0, 1, [some ["20240101"]]) := by
  refine ⟨rfl, rfl, rfl, rfl, rfl⟩

/-! ## C24: the gate of the backup flag -/

theorem gate_invariant (S : Nat) (s : gate_system) (hr : gate_reachable S s) :
    (∀ p q, s.pc p = gate_pc.holding → s.pc q = gate_pc.holding → p = q) ∧
    (∀ p, s.pc p = gate_pc.holding → (s.config.servers S).backup = true) := by
  induction hr with
  | init config =>
    constructor
    · intro p q hp; simp at hp
    · intro p hp; simp at hp
  | step s t _ ht ih =>
    obtain ⟨ih1, ih2⟩ := ih
    cases ht with
    | acquire p h =>
      cases hb : (s.config.servers S).backup with
      | true =>
        constructor
        · intro a b ha hb2
          have ha2 : s.pc a = gate_pc.holding := by
            by_cases e : a = p
            · subst e; simp [gate_acquire, atomic_compare_exchange_strong, hb] at ha
            · simpa [gate_acquire, Function.update_noteq e] using ha
          have hb3 : s.pc b = gate_pc.holding := by
            by_cases e : b = p
            · subst e; simp [gate_acquire, atomic_compare_exchange_strong, hb] at hb2
            · simpa [gate_acquire, Function.update_noteq e] using hb2
          exact ih1 a b ha2 hb3
        · intro a _
          simp [gate_acquire, atomic_compare_exchange_strong, hb, store_backup]
      | false =>
        have none_holding : ∀ a, s.pc a ≠ gate_pc.holding := by
          intro a ha
          have := ih2 a ha
          rw [hb] at this
          exact Bool.noConfusion this
        constructor
        · intro a b ha hb2
          have ea : a = p := by
            by_contra e
            have : s.pc a = gate_pc.holding := by
              simpa [gate_acquire, Function.update_noteq e] using ha
            exact none_holding a this
          have eb : b = p := by
            by_contra e
            have : s.pc b = gate_pc.holding := by
              simpa [gate_acquire, Function.update_noteq e] using hb2
            exact none_holding b this
          rw [ea, eb]
        · intro a _
          simp [gate_acquire, atomic_compare_exchange_strong, hb, store_backup]
    | release p h =>
      have only : ∀ a, (gate_release S p s).pc a = gate_pc.holding → False := by
        intro a ha
        by_cases e : a = p
        · subst e; simp [gate_release] at ha
        · have : s.pc a = gate_pc.holding := by
            simpa [gate_release, Function.update_noteq e] using ha
          exact e (ih1 a p this h)
      exact ⟨fun a b ha _ => (only a ha).elim, fun a ha => (only a ha).elim⟩
    | abandon p h =>
      have back : ∀ a, (gate_abandon p s).pc a = gate_pc.holding → s.pc a = gate_pc.holding := by
        intro a ha
        by_cases e : a = p
        · subst e; simp [gate_abandon] at ha
        · simpa [gate_abandon, Function.update_noteq e] using ha
      exact ⟨fun a b ha hb => ih1 a b (back a ha) (back b hb),
        fun a ha => ih2 a (back a ha)⟩

theorem gate_failed_acquire (S p : Nat) (s : gate_system)
    (h : (s.config.servers S).backup = true) :
    (atomic_compare_exchange_strong (s.config.servers S).backup false true).1 = false ∧
    (gate_acquire S p s).config.servers = s.config.servers ∧
    (gate_acquire S p s).pc p = gate_pc.done := by
  refine ⟨by simp [atomic_compare_exchange_strong, h], ?_, ?_⟩
  · funext i
    by_cases e : i = S
    · subst e
      cases hs : s.config.servers i with
      | mk v w b =>
        rw [hs] at h
        simp at h
        simp [gate_acquire, store_backup, atomic_compare_exchange_strong, hs, h]
    · simp [gate_acquire, store_backup, e]
  · simp [gate_acquire, atomic_compare_exchange_strong, h]

/-- C24: in every state reached from processes that have not yet tried, by compare-and-set
steps, release steps of a holder and exits of a holder that store nothing, at most one
process holds the gate of the server and the flag is true while one does; a compare-and-set
that finds the flag true fails, leaves the server's record as it was and ends that
process's part. -/
theorem backup_gate_exclusive (S : Nat) (s : gate_system) (hr : gate_reachable S s) :
    (∀ p q, s.pc p = gate_pc.holding → s.pc q = gate_pc.holding → p = q) ∧
    (∀ p, s.pc p = gate_pc.holding → (s.config.servers S).backup = true) ∧
    (∀ p, (s.config.servers S).backup = true →
      (atomic_compare_exchange_strong (s.config.servers S).backup false true).1 = false ∧
      (gate_acquire S p s).config.servers = s.config.servers ∧
      (gate_acquire S p s).pc p = gate_pc.done) :=
  ⟨(gate_invariant S s hr).1, (gate_invariant S s hr).2,
    fun p h => gate_failed_acquire S p s h⟩

/-- C24, at the state after the first process took the gate of server 0 from a false
flag. -/
theorem backup_gate_exclusive_witness :
    gate_reachable 0
      (gate_acquire 0 0 { config := config_of true true false, pc := fun _ => gate_pc.start }) ∧
    (∀ p q,
      (gate_acquire 0 0
        { config := config_of true true false, pc := fun _ => gate_pc.start }).pc p
          = gate_pc.holding →
      (gate_acquire 0 0
        { config := config_of true true false, pc := fun _ => gate_pc.start }).pc q
          = gate_pc.holding → p = q) :=
  have hr : gate_reachable 0
      (gate_acquire 0 0
        { config := config_of true true false, pc := fun _ => gate_pc.start }) :=
    gate_reachable.step _ _ (gate_reachable.init (config_of true true false))
      (gate_step.acquire _ 0 rfl)
  ⟨hr, (backup_gate_exclusive 0 _ hr).1⟩

/-! ## C25: `is_defined_server` -/

/-- C25: `is_defined_server` does not decide whether some node owns the server. Its inner
loop tests `i < number_of_servers` with the index of the node where the index of the slot
is meant: node 0 is never searched, so a server owned by node 1 behind an empty node 0 is
reported as not defined, and a node whose loop is entered is read past its
`number_of_servers` slots and past the end of `server_names` when the name is not there
(an empty name is found in an unused slot). -/
theorem is_defined_server_wrong_index :
    owns_server [⟨"h0", 5001, 0, ["", ""]⟩, ⟨"h1", 5002, 1, ["x", ""]⟩] "x" = true ∧
    is_defined_server [⟨"h0", 5001, 0, ["", ""]⟩, ⟨"h1", 5002, 1, ["x", ""]⟩] "x"
      = some false ∧
    owns_server [⟨"h0", 5001, 1, ["a", ""]⟩] "a" = true ∧
    is_defined_server [⟨"h0", 5001, 1, ["a", ""]⟩] "a" = some true ∧
    owns_server [⟨"h0", 5001, 1, ["a", ""]⟩] "b" = false ∧
    is_defined_server [⟨"h0", 5001, 1, ["a", ""]⟩] "b" = none ∧
    owns_server [⟨"h0", 5001, 1, ["a", ""]⟩] "" = false ∧
    is_defined_server [⟨"h0", 5001, 1, ["a", ""]⟩] "" = some true := by
  decide

/-! ## The bits of the bitset -/

theorem or_bit_idem (c k : Nat) :
    (((c ||| (1 <<< k)) % 256) ||| (1 <<< k)) % 256 = (c ||| (1 <<< k)) % 256 := by
  apply Nat.eq_of_testBit_eq
  intro i
  have h8 : (256 : Nat) = 2 ^ 8 := by norm_num
  rw [h8]
  simp only [Nat.testBit_mod_two_pow, Nat.testBit_or]
  cases decide (i < 8) <;> cases c.testBit i <;> cases (1 <<< k).testBit i <;> rfl

theorem and_mask_idem (c m : Nat) :
    (((c &&& m) % 256) &&& m) % 256 = (c &&& m) % 256 := by
  apply Nat.eq_of_testBit_eq
  intro i
  have h8 : (256 : Nat) = 2 ^ 8 := by norm_num
  rw [h8]
  simp only [Nat.testBit_mod_two_pow, Nat.testBit_and]
  cases decide (i < 8) <;> cases c.testBit i <;> cases m.testBit i <;> rfl

theorem get_after_write_other (b : bitset) (i j v : Nat) (hij : i ≠ j)
    (hi : i / CHAR_BIT < b.data.length)
    (hv : ∀ k, k < 8 → k ≠ i % CHAR_BIT → v.testBit k = (b.data[i / CHAR_BIT]).testBit k) :
    pgmoneta_bitset_get (some (bitset.mk b.input_size b.size (b.data.set (i / CHAR_BIT) v))) j =
      pgmoneta_bitset_get (some b) j := by
  rw [get_eq_testBit, get_eq_testBit]
  by_cases hb : i / CHAR_BIT = j / CHAR_BIT
  · have hj : j / CHAR_BIT < b.data.length := by omega
    have hne : j % CHAR_BIT ≠ i % CHAR_BIT := by
      intro hm
      apply hij
      have h1 := Nat.div_add_mod i CHAR_BIT
      have h2 := Nat.div_add_mod j CHAR_BIT
      rw [hb, ← hm] at h1
      omega
    have hk : j % CHAR_BIT < 8 := Nat.mod_lt _ (by decide)
    simp only [← hb]
    rw [List.getElem?_set_self hi, List.getElem?_eq_getElem hi]
    simp only [Option.map_some']
    rw [hv _ hk hne]
  · simp only []
    rw [List.getElem?_set_ne hb]

/-- C26: for every index whose byte lies inside the storage, `pgmoneta_bitset_get` returns
true exactly when bit (i mod 8) of byte i/8 is 1, whatever the value of the byte (a byte of
128 and above is a negative char, and bit 7 is the one the special case of the code covers);
get after set is true and get after clear is false. -/
theorem bitset_get_reads_bit (b : bitset) (i : Nat) (h : i / CHAR_BIT < b.data.length) :
    pgmoneta_bitset_get (some b) i =
      some (decide (b.data[i / CHAR_BIT] / 2 ^ (i % CHAR_BIT) % 2 = 1)) ∧
    (∃ b1, pgmoneta_bitset_set (some b) i = some (0, some b1) ∧
      pgmoneta_bitset_get (some b1) i = some true) ∧
    (∃ b2, pgmoneta_bitset_clear (some b) i = some (0, some b2) ∧
      pgmoneta_bitset_get (some b2) i = some false) := by
  have hk : i % CHAR_BIT < 8 := Nat.mod_lt _ (by decide)
  refine ⟨?_, ⟨_, set_eq b i h, ?_⟩, ⟨_, clear_eq b i h, ?_⟩⟩
  · rw [get_eq_testBit, List.getElem?_eq_getElem h]
    simp only [Option.map_some', Nat.testBit_to_div_mod]
  · rw [get_eq_testBit]
    simp [h, set_byte_testBit _ _ _ hk]
  · rw [get_eq_testBit]
    simp [h, clear_byte_testBit _ _ _ hk]

/-- C26 at the byte 200, whose top bit is set: index 15 in a bitset of two bytes. -/
theorem bitset_get_reads_bit_witness :
    pgmoneta_bitset_get (some (bitset.mk 16 2 [0, 200])) 15 =
      some (decide ((200 : Nat) / 2 ^ (15 % CHAR_BIT) % 2 = 1)) ∧
    (∃ b1, pgmoneta_bitset_set (some (bitset.mk 16 2 [0, 200])) 15 = some (0, some b1) ∧
      pgmoneta_bitset_get (some b1) 15 = some true) ∧
    (∃ b2, pgmoneta_bitset_clear (some (bitset.mk 16 2 [0, 200])) 15 = some (0, some b2) ∧
      pgmoneta_bitset_get (some b2) 15 = some false) :=
  bitset_get_reads_bit (bitset.mk 16 2 [0, 200]) 15 (by decide)

/-- C27: for indices i and j, different, whose bytes lie inside the storage, set and clear at
i leave get at j as it was, leave input_size and size as they were, and applying set (or
clear) at i a second time gives the bitset the first application gave. -/
theorem bitset_set_clear_frame (b : bitset) (i j : Nat) (hij : i ≠ j)
    (hi : i / CHAR_BIT < b.data.length) (hj : j / CHAR_BIT < b.data.length) :
    ∃ b1 b2, pgmoneta_bitset_set (some b) i = some (0, some b1) ∧
      pgmoneta_bitset_clear (some b) i = some (0, some b2) ∧
      pgmoneta_bitset_get (some b1) j = pgmoneta_bitset_get (some b) j ∧
      pgmoneta_bitset_get (some b2) j = pgmoneta_bitset_get (some b) j ∧
      pgmoneta_bitset_get (some b) j ≠ none ∧
      b1.input_size = b.input_size ∧ b1.size = b.size ∧
      b2.input_size = b.input_size ∧ b2.size = b.size ∧
      pgmoneta_bitset_set (some b1) i = some (0, some b1) ∧
      pgmoneta_bitset_clear (some b2) i = some (0, some b2) := by
  refine ⟨_, _, set_eq b i hi, clear_eq b i hi, ?_, ?_, ?_, rfl, rfl, rfl, rfl, ?_, ?_⟩
  · apply get_after_write_other b i j _ hij hi
    intro k hk hne
    rw [set_byte_testBit _ _ _ hk]
    simp [hne]
  · apply get_after_write_other b i j _ hij hi
    intro k hk hne
    rw [clear_byte_testBit _ _ _ hk]
    simp [hne]
  · rw [get_eq_testBit, List.getElem?_eq_getElem hj]
    simp
  · have hlen : i / CHAR_BIT < (b.data.set (i / CHAR_BIT)
        ((b.data[i / CHAR_BIT] ||| 1 <<< (i % CHAR_BIT)) % 256)).length := by
      simpa using hi
    rw [set_eq _ i hlen]
    simp [or_bit_idem]
  · have hlen : i / CHAR_BIT < (b.data.set (i / CHAR_BIT)
        ((b.data[i / CHAR_BIT] &&& (255 ^^^ 1 <<< (i % CHAR_BIT))) % 256)).length := by
      simpa using hi
    rw [clear_eq _ i hlen]
    simp [and_mask_idem]

/-- C27 at the indices 3 and 5 of one byte. -/
theorem bitset_set_clear_frame_witness :
    ∃ b1 b2, pgmoneta_bitset_set (some (bitset.mk 8 1 [170])) 3 = some (0, some b1) ∧
      pgmoneta_bitset_clear (some (bitset.mk 8 1 [170])) 3 = some (0, some b2) ∧
      pgmoneta_bitset_get (some b1) 5 = pgmoneta_bitset_get (some (bitset.mk 8 1 [170])) 5 ∧
      pgmoneta_bitset_get (some b2) 5 = pgmoneta_bitset_get (some (bitset.mk 8 1 [170])) 5 ∧
      pgmoneta_bitset_get (some (bitset.mk 8 1 [170])) 5 ≠ none ∧
      b1.input_size = 8 ∧ b1.size = 1 ∧ b2.input_size = 8 ∧ b2.size = 1 ∧
      pgmoneta_bitset_set (some b1) 3 = some (0, some b1) ∧
      pgmoneta_bitset_clear (some b2) 3 = some (0, some b2) :=
  bitset_set_clear_frame (bitset.mk 8 1 [170]) 3 5 (by decide) (by decide) (by decide)

/-! ## The responses of the delete driver -/

/-- C28, evaluated on the code: when the setup of the only stage of the delete workflow
returns 1, `pgmoneta_delete_backup` sends two error responses, first
MANAGEMENT_ERROR_DELETE_SETUP and then MANAGEMENT_ERROR_DELETE_ERROR, and exits with status
1; the same happens with the EXECUTE and TEARDOWN codes for a failure in those phases. On
success it sends the one ok response. -/
theorem delete_sends_two_error_responses :
    (pgmoneta_delete_backup delete_calls_ok (config_of true true false) 0
        [const_stage 1 0 0] ()).calls =
      [event.setup 0, event.response_error MANAGEMENT_ERROR_DELETE_SETUP,
       event.response_error MANAGEMENT_ERROR_DELETE_ERROR] ∧
    ((pgmoneta_delete_backup delete_calls_ok (config_of true true false) 0
        [const_stage 1 0 0] ()).calls.filter event.is_response_error).length = 2 ∧
    (pgmoneta_delete_backup delete_calls_ok (config_of true true false) 0
        [const_stage 1 0 0] ()).exit_status = 1 ∧
    (pgmoneta_delete_backup delete_calls_ok (config_of true true false) 0
        [const_stage 0 1 0] ()).calls.filter event.is_response_error =
      [event.response_error MANAGEMENT_ERROR_DELETE_EXECUTE,
       event.response_error MANAGEMENT_ERROR_DELETE_ERROR] ∧
    (pgmoneta_delete_backup delete_calls_ok (config_of true true false) 0
        [const_stage 0 0 1] ()).calls.filter event.is_response_error =
      [event.response_error MANAGEMENT_ERROR_DELETE_TEARDOWN,
       event.response_error MANAGEMENT_ERROR_DELETE_ERROR] ∧
    (pgmoneta_delete_backup delete_calls_ok (config_of true true false) 0
        [const_stage 0 0 0] ()).calls =
      [event.setup 0, event.execute 0, event.teardown 0, event.response_ok 0] := by
  decide

/-! ## C29: parsing `clustering_nodes` -/

/-- C29: the parsing loop does not store one entry per element of `clustering_nodes`. The
inner `strtok(copied_ptr, ":")` replaces the saved position of the outer tokenising, and
`copied_ptr` is freed at the end of the iteration, so from the second element on the outer
`strtok(NULL, ",")` goes on from a freed buffer. A list of one element is stored; for
`a:1,b:2,c:3` the call is undefined, and where the freed bytes are still found the loop
stops after two entries and never reads `c:3`. -/
theorem parse_clustering_nodes_loses_entries :
    parse_clustering_nodes false "a:1" = some [("a", 1)] ∧
    parse_clustering_nodes true "a:1" = some [("a", 1)] ∧
    parse_clustering_nodes false "a:1,b:2,c:3" = none ∧
    parse_clustering_nodes true "a:1,b:2,c:3" = some [("a", 1), ("b", 2)] ∧
    (∀ stale_reads : Bool,
      parse_clustering_nodes stale_reads "a:1,b:2,c:3"
        ≠ some [("a", 1), ("b", 2), ("c", 3)]) := by
  decide

/-! ## C30: `write_string` followed by `read_string` -/

theorem write_string_stream (w : Nat → List Nat) (str : Option (List Nat)) :
    (write_string (stream_write_env w) [] str).status = 0 ∧
    (write_string (stream_write_env w) [] str).conn
      = w ((match str with
            | some s => s.length
            | none => 0) % 2 ^ 32) ++ (match str with
            | some s => s
            | none => []) := by
  cases str <;> simp [write_string, stream_write_env, clustering_env_example]

theorem read_string_stream (r : List Nat → Nat) (buf4 s : List Nat) (h4 : buf4.length = 4)
    (hs : r buf4 = s.length) (hlen : s.length < 2 ^ 32 - 1) :
    read_string (stream_read_env r) (buf4 ++ s)
      = some (0, (if s.length > 0 then some s else none), []) := by
  have e1 : List.take 4 (buf4 ++ s) = buf4 := by
    rw [← h4]; exact List.take_left _ _
  have e2 : List.drop 4 (buf4 ++ s) = s := by
    rw [← h4]; exact List.drop_left _ _
  have m1 : s.length % 2 ^ 32 = s.length := Nat.mod_eq_of_lt (by omega)
  have m2 : (s.length + 1) % 2 ^ 32 = s.length + 1 := Nat.mod_eq_of_lt (by omega)
  have hle : 4 ≤ (buf4 ++ s).length := by simp [h4]
  unfold read_string
  simp only [stream_read_env, hle, if_true, e1, e2, hs, m1, m2]
  by_cases h0 : s.length > 0
  · simp [h0]
  · have : s = [] := List.eq_nil_of_length_eq_zero (by omega)
    subst this
    simp

/-- C30: the empty string does not come back. `write_string` sends the length 0 and no
bytes, and `read_string` allocates nothing for a length of 0 (`if (size > 0)`), so it
succeeds with `*str` left `NULL`, not with an empty string. -/
theorem read_string_empty_is_null :
    (write_string (stream_write_env write_uint32_example) [] (some [])).status = 0 ∧
    (write_string (stream_write_env write_uint32_example) [] (some [])).conn = [0, 0, 0, 0] ∧
    read_string (stream_read_env read_uint32_example)
      (write_string (stream_write_env write_uint32_example) [] (some [])).conn
      = some (0, none, []) ∧
    read_string (stream_read_env read_uint32_example)
      (write_string (stream_write_env write_uint32_example) [] (some [])).conn
      ≠ some (0, some [], []) := by
  decide

/-- C30 (amended): over a connection on which every write and every read completes, with a
codec of 4 bytes for which `read_uint32 (write_uint32 n) = n`, `read_string` applied to the
bytes that `write_string` emitted for a string `s` of at least one and fewer than
`2^32 - 1` bytes succeeds, yields `s` and leaves nothing unread; for the empty string and
for `NULL` it succeeds and leaves `*str` `NULL`. -/
theorem read_string_round_trip (w : Nat → List Nat) (r : List Nat → Nat) (s : List Nat)
    (hbuf : ∀ n, (w n).length = 4) (hcodec : ∀ n, n < 2 ^ 32 → r (w n) = n)
    (hne : s ≠ []) (hlen : s.length < 2 ^ 32 - 1) :
    (write_string (stream_write_env w) [] (some s)).status = 0 ∧
    (write_string (stream_write_env w) [] (some s)).conn = w s.length ++ s ∧
    read_string (stream_read_env r) (write_string (stream_write_env w) [] (some s)).conn
      = some (0, some s, []) ∧
    read_string (stream_read_env r) (write_string (stream_write_env w) [] (some [])).conn
      = some (0, none, []) ∧
    read_string (stream_read_env r) (write_string (stream_write_env w) [] none).conn
      = some (0, none, []) := by
  have m1 : s.length % 2 ^ 32 = s.length := Nat.mod_eq_of_lt (by omega)
  have hpos : s.length > 0 := List.length_pos.mpr hne
  refine ⟨(write_string_stream w (some s)).1, ?_, ?_, ?_, ?_⟩
  · rw [(write_string_stream w (some s)).2]
    simp only [m1]
  · rw [(write_string_stream w (some s)).2]
    simp only [m1]
    rw [read_string_stream r (w s.length) s (hbuf _) (hcodec _ (by omega)) hlen]
    simp [hpos]
  · rw [(write_string_stream w (some [])).2]
    have := read_string_stream r (w 0) [] (hbuf _) (hcodec 0 (by norm_num)) (by norm_num)
    simpa using this
  · rw [(write_string_stream w none).2]
    have := read_string_stream r (w 0) [] (hbuf _) (hcodec 0 (by norm_num)) (by norm_num)
    simpa using this

theorem uint32_example_codec (n : Nat) (h : n < 2 ^ 32) :
    read_uint32_example (write_uint32_example n) = n := by
  simp only [read_uint32_example, write_uint32_example, List.foldl]
  omega

/-- C30 (amended), at the codec with the most significant byte first and the string of the
bytes 104 and 105. -/
theorem read_string_round_trip_witness :
    ([104, 105] : List Nat) ≠ [] ∧ ([104, 105] : List Nat).length < 2 ^ 32 - 1 ∧
    read_string (stream_read_env read_uint32_example)
      (write_string (stream_write_env write_uint32_example) [] (some [104, 105])).conn
      = some (0, some [104, 105], []) :=
  ⟨by decide, by decide,
    (read_string_round_trip write_uint32_example read_uint32_example [104, 105]
      (fun _ => rfl) uint32_example_codec (by decide) (by decide)).2.2.1⟩

end Pgmoneta
